import Mathlib

/-!
# BMP loader: a shallow embedding of `bmpimage.cpp` and `utility.cpp`

The C++ source is embedded as pure Lean functions.

* A file is a list of bytes; `std::ifstream` is the record `IfStream` (contents, read
  position, sticky failure flag).  A read that meets the end of the file stores the bytes
  that were available, sets the failure flag, and every later read or seek is a no-op,
  exactly as the iostream library does.
* Machine integers are `Nat`/`Int` with explicit range checks or reductions.  Signed `int`
  overflow, out-of-bounds buffer accesses and over-wide shifts are undefined behaviour in
  C++ and are reported as `Fault.undefined`; a C++ exception that leaves the function is
  `Fault.throws`; a loop that has not finished when its fuel is used up is `Fault.timeout`.
* Memory that the program reads before writing it (`new char[n]`, `char bytes[4]`) has the
  contents given by the parameter `junk`.
* The row size is computed by the source in single-precision floating point; the embedding
  reproduces the rounding of the `int -> float` conversion (`roundFloat`).
* The byte order of the host, which `utility.cpp` tests at run time, is the parameter
  `hostLittle` of the functions that depend on it.
-/

set_option autoImplicit false

namespace BmpLoader

/-- One octet of a file or of a buffer. -/
abbrev Byte := Fin 256

/-- Outcomes of a call other than a return with a result that C++ defines: an exception
leaves the function (`throws`); the execution reaches an operation whose behaviour is
undefined in C++, after which the language specifies nothing about the call, not even whether
it returns (`undefined`); the loop turns allowed by the fuel of the embedding are used up
(`timeout`). -/
inductive Fault where
  | throws
  | undefined
  | timeout
  deriving DecidableEq, Repr

deriving instance DecidableEq for Except

/-! ## color.h -/

/-- The class `Color4` of `color.h`: four 8-bit channels `_r`, `_g`, `_b`, `_a`. -/
structure Color4 where
  r : Byte
  g : Byte
  b : Byte
  a : Byte
  deriving DecidableEq, Repr

/-! ## Constants and header layouts (declared outside the available sources) -/

/-- Modelled from the spec: the constant `BMPMAGIC` is not declared in the available sources;
the spec fixes it as the ASCII pair "BM" at offset 0, read as a little-endian 16-bit value. -/
def BMPMAGIC : Nat := 0x4D42

/-- Modelled from the spec: `FILEHEADER_SIZE_BYTES` is not declared in the available sources;
the spec gives the file header 14 bytes. -/
def FILEHEADER_SIZE_BYTES : Nat := 14

/-- Modelled from the spec: `V1INFOHEADER_SIZE_BYTES` is not declared in the available sources;
the spec defers to the BMP specification (BITMAPINFOHEADER, 40 bytes). -/
def V1INFOHEADER_SIZE_BYTES : Nat := 40

/-- Modelled from the spec: `V2INFOHEADER_SIZE_BYTES` is not declared in the available sources;
the spec defers to the BMP specification (BITMAPV2INFOHEADER, 52 bytes). -/
def V2INFOHEADER_SIZE_BYTES : Nat := 52

/-- Modelled from the spec: `V3INFOHEADER_SIZE_BYTES` is not declared in the available sources;
the spec defers to the BMP specification (BITMAPV3INFOHEADER, 56 bytes). -/
def V3INFOHEADER_SIZE_BYTES : Nat := 56

/-- Modelled from the spec: `V4INFOHEADER_SIZE_BYTES` is not declared in the available sources;
the spec defers to the BMP specification (BITMAPV4HEADER, 108 bytes). -/
def V4INFOHEADER_SIZE_BYTES : Nat := 108

/-- Modelled from the spec: `V5INFOHEADER_SIZE_BYTES` is not declared in the available sources;
the spec defers to the BMP specification (BITMAPV5HEADER, 124 bytes). -/
def V5INFOHEADER_SIZE_BYTES : Nat := 124

/-- Modelled from the spec: `BI_RGB` is not declared in the available sources; the spec
defers to the BMP specification (compression code 0). -/
def BI_RGB : Nat := 0

/-- Modelled from the spec: `BI_BITFIELDS` is not declared in the available sources; the spec
defers to the BMP specification (compression code 3). -/
def BI_BITFIELDS : Nat := 3

/-- Modelled from the spec: `SRGBMAGIC` is not declared in the available sources; the spec
defers to the BMP specification (the tag "sRGB", 0x73524742). -/
def SRGBMAGIC : Nat := 0x73524742

/-- Modelled from the spec: the struct `FileHeader` is not declared in the available sources;
the spec gives its fields the byte widths 2, 4, 2, 2, 4.  Fields keep the source names
without the leading underscore. -/
structure FileHeader where
  fileMagic : Nat
  fileSize_bytes : Nat
  reserved0 : Nat
  reserved1 : Nat
  pixelOffset_bytes : Nat
  deriving DecidableEq, Repr

/-- Modelled from the spec: the struct `InfoHeader` is not declared in the available sources;
the spec names its eleven common fields and the appended masks and colour-space tag; widths
are those of the BMP specification (4, 4, 4, 2, 2, 4, 4, 4, 4, 4, 4, then 4 each), width,
height and the resolutions being signed.  Fields keep the source names without the leading
underscore. -/
structure InfoHeader where
  headerSize_bytes : Nat
  bmpWidth_px : Int
  bmpHeight_px : Int
  numColorPlanes : Nat
  bitsPerPixel : Nat
  compression : Nat
  imageSize_bytes : Nat
  xResolution_pxPm : Int
  yResolution_pxPm : Int
  numPaletteColors : Nat
  numImportantColors : Nat
  redMask : Nat
  greenMask : Nat
  blueMask : Nat
  alphaMask : Nat
  colorSpaceMagic : Nat
  deriving DecidableEq, Repr

/-! ## std::ifstream -/

/-- The state of a `std::ifstream` opened on a file: the file contents, the read position and
the sticky failure flag (`failbit`). -/
structure IfStream where
  data : List Byte
  pos : Nat
  failed : Bool
  deriving DecidableEq, Repr

/-- The call `file.read(buf, n)`: when the stream has failed nothing happens; otherwise the
bytes available (at most `n`) overwrite the start of `buf`, the position advances by their
number and the failure flag is set when fewer than `n` bytes were available. -/
def IfStream.read (s : IfStream) (buf : List Byte) (n : Nat) : List Byte × IfStream :=
  if s.failed then (buf, s)
  else
    let got := (s.data.drop s.pos).take n
    (got ++ buf.drop got.length,
      { data := s.data, pos := s.pos + got.length, failed := decide (got.length < n) })

/-- The call `file.seekg(p)`: no-op on a failed stream; a negative position makes the seek
fail; otherwise the position is set (seeking beyond the end is allowed, the next read
fails). -/
def IfStream.seekg (s : IfStream) (p : Int) : IfStream :=
  if s.failed then s
  else if p < 0 then { data := s.data, pos := s.pos, failed := true }
  else { data := s.data, pos := p.toNat, failed := false }

/-- Value of a little-endian byte sequence (the host is little-endian, see the endianness
note at the top of `bmpimage.cpp`). -/
def leValue : List Byte → Nat
  | [] => 0
  | b :: bs => b.val + 256 * leValue bs

/-- Reading of an unsigned field of `n` bytes into a zero-initialised struct member:
`file.read(reinterpret_cast<char*>(&field), sizeof(field))`. -/
def readField (s : IfStream) (n : Nat) : Nat × IfStream :=
  let r := s.read (List.replicate n 0) n
  (leValue r.1, r.2)

/-- Reinterpretation of a 32-bit pattern as a signed `int32_t`. -/
def toInt32 (u : Nat) : Int :=
  if u % 2 ^ 32 < 2 ^ 31 then ((u % 2 ^ 32 : Nat) : Int) else ((u % 2 ^ 32 : Nat) : Int) - 2 ^ 32

/-- Result of an `int` computation: undefined behaviour when it leaves the 32-bit range
`-2147483648 .. 2147483647` (the test is written on the magnitude). -/
def checkInt (x : Int) : Except Fault Int :=
  if x.natAbs ≤ 2147483647 ∨ x = -2147483648 then .ok x else .error .undefined

/-! ## Single-precision rounding of the row size -/

/-- Exponent of the unit in the last place of the `float` nearest to `n`: the least `e`
(searched with `fuel` halvings) such that `n / 2 ^ e < 2 ^ 24`. -/
def ulpExp : Nat → Nat → Nat
  | 0, _ => 0
  | fuel + 1, n => if n < 2 ^ 24 then 0 else ulpExp fuel (n / 2) + 1

/-- Conversion `int -> float` of a non-negative value: round to nearest, ties to even, with
a 24-bit significand. -/
def roundFloat (n : Nat) : Nat :=
  let u := 2 ^ ulpExp 40 n
  let q := n / u
  let r := n % u
  if 2 * r < u then q * u
  else if u < 2 * r then (q + 1) * u
  else if q % 2 = 0 then q * u else (q + 1) * u

/-- Conversion `int -> float` of a signed value (rounding is symmetric in the sign). -/
def roundFloatInt (x : Int) : Int :=
  if 0 ≤ x then (roundFloat x.toNat : Int) else -(roundFloat (-x).toNat : Int)

/-- The statement
`int rowSize_bytes = std::ceil((infoHead._bitsPerPixel * infoHead._bmpWidth_px) / 32.f) * 4.f;`
shared by both extractors: the product is an `int` product, it is converted to `float`,
divided by 32 (exact), rounded up (exact), multiplied by 4 (exact) and truncated to `int`. -/
def rowSizeBytes (infoHead : InfoHeader) : Except Fault Int :=
  match checkInt ((infoHead.bitsPerPixel : Int) * infoHead.bmpWidth_px) with
  | .error e => .error e
  | .ok p => .ok ((roundFloatInt p + 31) / 32 * 4)

/-! ## bmpimage.cpp -/

/-- The data members of the class `BmpImage` (`_pixels`, `_width_px`, `_height_px`). -/
structure BmpImage where
  pixels : List Color4
  width_px : Int
  height_px : Int
  deriving DecidableEq, Repr

/-- The block shared by both extractors that derives the row count, the first seek position
and the signed row step from the height and the pixel offset:
`numRows = std::abs(height)`, `pixelOffset_bytes = static_cast<int>(fileHead._pixelOffset_bytes)`,
and for a negative height `pixelOffset_bytes += (numRows - 1) * rowSize_bytes`,
`rowOffset_bytes *= -1`.  Returns `(numRows, pixelOffset_bytes, rowOffset_bytes)`. -/
def rowPlan (fileHead : FileHeader) (infoHead : InfoHeader) (rowSize_bytes : Int) :
    Except Fault (Int × Int × Int) :=
  match checkInt (|infoHead.bmpHeight_px|) with
  | .error e => .error e
  | .ok numRows =>
    let pixelOffset_bytes := toInt32 fileHead.pixelOffset_bytes
    if infoHead.bmpHeight_px < 0 then
      match checkInt ((numRows - 1) * rowSize_bytes) with
      | .error e => .error e
      | .ok d =>
        match checkInt (pixelOffset_bytes + d) with
        | .error e => .error e
        | .ok po =>
          match checkInt (rowSize_bytes * -1) with
          | .error e => .error e
          | .ok ro => .ok (numRows, po, ro)
    else .ok (numRows, pixelOffset_bytes, rowSize_bytes)

/-- The call `_pixels.reserve(infoHead._bmpWidth_px * numRows)`: the `int` product must not
overflow; a negative count converts to a huge `size_t` and `reserve` throws
`std::length_error`; otherwise the vector contents are unchanged. -/
def reservePixels (infoHead : InfoHeader) (numRows : Int) : Except Fault Unit :=
  match checkInt (infoHead.bmpWidth_px * numRows) with
  | .error e => .error e
  | .ok n => if n < 0 then .error .throws else .ok ()

/-- The statement `char* row = new char[rowSize_bytes]`: a negative size throws; the fresh
buffer holds indeterminate bytes, given by `junk`. -/
def newRow (junk : Nat → Byte) (rowSize_bytes : Int) : Except Fault (List Byte) :=
  if rowSize_bytes < 0 then .error .throws
  else .ok ((List.range rowSize_bytes.toNat).map junk)

/-- The loop `while((mask & (0x01 << shift)) == 0) ++shift;` of `extractPixels`, with
`budget` the number of shift counts still below 32: `0x01 << 32` is undefined. -/
def shiftLoop (mask : Nat) : Nat → Nat → Except Fault Nat
  | 0, _ => .error .undefined
  | budget + 1, shift =>
    if mask &&& (1 <<< shift) = 0 then shiftLoop mask budget (shift + 1) else .ok shift

/-- The innermost loop of `extractPixels` (`for k < pixelSize_bytes`):
`rawPixelBytes |= static_cast<uint32_t>(pixelByte << (k * 8))` with
`pixelByte = row[(j * pixelSize_bytes) + k]`; `count` iterations remain. -/
def pixelBytesLoop (row : List Byte) (base : Nat) : Nat → Nat → Nat → Except Fault Nat
  | 0, _, rawPixelBytes => .ok rawPixelBytes
  | count + 1, k, rawPixelBytes =>
    match row[base + k]? with
    | none => .error .undefined
    | some pixelByte =>
      if 32 ≤ k * 8 then .error .undefined
      else pixelBytesLoop row base count (k + 1)
        (rawPixelBytes ||| ((pixelByte.val <<< (k * 8)) % 2 ^ 32))

/-- Narrowing of an unsigned value to `uint8_t`. -/
def toUInt8 (n : Nat) : Byte := ⟨n % 256, Nat.mod_lt n (by decide)⟩

/-- The four statements `uint8_t c = (rawPixelBytes & mask) >> shift;` and the construction
of the colour. -/
def maskedColor (infoHead : InfoHeader) (redShift greenShift blueShift alphaShift : Nat)
    (rawPixelBytes : Nat) : Color4 :=
  { r := toUInt8 ((rawPixelBytes &&& infoHead.redMask) >>> redShift)
    g := toUInt8 ((rawPixelBytes &&& infoHead.greenMask) >>> greenShift)
    b := toUInt8 ((rawPixelBytes &&& infoHead.blueMask) >>> blueShift)
    a := toUInt8 ((rawPixelBytes &&& infoHead.alphaMask) >>> alphaShift) }

/-- The loop `for(int j = 0; j < infoHead._bmpWidth_px; ++j)` of `extractPixels`; `count`
iterations remain, `pixels` is the vector `_pixels`. -/
def pixelLoop (infoHead : InfoHeader) (redShift greenShift blueShift alphaShift : Nat)
    (row : List Byte) (pixelSize_bytes : Nat) :
    Nat → Nat → List Color4 → Except Fault (List Color4)
  | 0, _, pixels => .ok pixels
  | count + 1, j, pixels =>
    match pixelBytesLoop row (j * pixelSize_bytes) pixelSize_bytes 0 0 with
    | .error e => .error e
    | .ok rawPixelBytes =>
      pixelLoop infoHead redShift greenShift blueShift alphaShift row pixelSize_bytes count
        (j + 1)
        (pixels ++ [maskedColor infoHead redShift greenShift blueShift alphaShift rawPixelBytes])

/-- The loop `for(int i = 0; i < numRows; ++i)` of `extractPixels`: seek, read a row into the
buffer, decode its pixels, advance `seekPos` by the signed row step. -/
def rowLoop (infoHead : InfoHeader) (redShift greenShift blueShift alphaShift : Nat)
    (pixelSize_bytes : Nat) (rowSize_bytes rowOffset_bytes : Int) :
    Nat → IfStream → List Byte → Int → List Color4 → Except Fault (List Color4)
  | 0, _, _, _, pixels => .ok pixels
  | count + 1, file, row, seekPos, pixels =>
    let r := (file.seekg seekPos).read row rowSize_bytes.toNat
    match pixelLoop infoHead redShift greenShift blueShift alphaShift r.1 pixelSize_bytes
        infoHead.bmpWidth_px.toNat 0 pixels with
    | .error e => .error e
    | .ok pixels1 =>
      match checkInt (seekPos + rowOffset_bytes) with
      | .error e => .error e
      | .ok seekPos1 =>
        rowLoop infoHead redShift greenShift blueShift alphaShift pixelSize_bytes rowSize_bytes
          rowOffset_bytes count r.2 r.1 seekPos1 pixels1

/-- The function `BmpImage::extractPixels` (16-, 24- and 32-bit pixels).  Takes the stream,
both headers and the vector `_pixels`, returns the vector after the call. -/
def extractPixels (junk : Nat → Byte) (file : IfStream) (fileHead : FileHeader)
    (infoHead : InfoHeader) (pixels : List Color4) : Except Fault (List Color4) :=
  match rowSizeBytes infoHead with
  | .error e => .error e
  | .ok rowSize_bytes =>
    let pixelSize_bytes := infoHead.bitsPerPixel / 8
    match rowPlan fileHead infoHead rowSize_bytes with
    | .error e => .error e
    | .ok (numRows, pixelOffset_bytes, rowOffset_bytes) =>
      match shiftLoop infoHead.redMask 32 0 with
      | .error e => .error e
      | .ok redShift =>
        match shiftLoop infoHead.greenMask 32 0 with
        | .error e => .error e
        | .ok greenShift =>
          match shiftLoop infoHead.blueMask 32 0 with
          | .error e => .error e
          | .ok blueShift =>
            match (if infoHead.alphaMask ≠ 0 then shiftLoop infoHead.alphaMask 32 0
                   else .ok 0) with
            | .error e => .error e
            | .ok alphaShift =>
              match reservePixels infoHead numRows with
              | .error e => .error e
              | .ok _ =>
                match newRow junk rowSize_bytes with
                | .error e => .error e
                | .ok row =>
                  rowLoop infoHead redShift greenShift blueShift alphaShift pixelSize_bytes
                    rowSize_bytes rowOffset_bytes numRows.toNat file row pixelOffset_bytes
                    pixels

/-- The loop `for(uint8_t i = 0; i < header._numPaletteColors; ++i)` of
`extractPalettedPixels`: each turn reads four bytes into the uninitialised `char bytes[4]`
and pushes the colour (red = `bytes[2]`, green = `bytes[1]`, blue = `bytes[0]`,
alpha = `bytes[3]`).  The counter is a `uint8_t`, so `++i` wraps at 256.  The loop has no
bound of its own; `fuel` bounds the number of turns the embedding performs. -/
def paletteLoop (junk : Nat → Byte) (numPaletteColors : Nat) :
    Nat → Nat → IfStream → List Color4 → Except Fault (List Color4 × IfStream)
  | 0, _, _, _ => .error .timeout
  | fuel + 1, i, file, palette =>
    if i < numPaletteColors then
      let r := file.read ((List.range 4).map junk) 4
      paletteLoop junk numPaletteColors fuel ((i + 1) % 256) r.2
        (palette ++ [{ r := r.1.getD 2 0, g := r.1.getD 1 0, b := r.1.getD 0 0,
                       a := r.1.getD 3 0 }])
    else .ok (palette, file)

/-- The loop `for(int i = 0; i < infoHead._bitsPerPixel; ++i) mask |= (0x01 << i);` on the
`uint8_t mask`; `count` iterations remain. -/
def maskLoop : Nat → Nat → Nat → Except Fault Nat
  | 0, _, mask => .ok mask
  | count + 1, i, mask =>
    if 32 ≤ i then .error .undefined
    else maskLoop count (i + 1) ((mask ||| (1 <<< i)) % 256)

/-- The body of the pixel loop of `extractPalettedPixels` after the byte has been selected:
`shift = bitsPerPixel * (numPixelsPerByte - 1 - bytePixelNo)`,
`index = (byte & (mask << shift)) >> shift`, and the lookup `palette[index]`. -/
def paletteLookup (infoHead : InfoHeader) (palette : List Color4) (numPixelsPerByte mask : Nat)
    (bytePixelNo : Nat) (byte : Byte) : Except Fault Color4 :=
  if numPixelsPerByte < bytePixelNo + 1 then .error .undefined
  else
    let shift := infoHead.bitsPerPixel * (numPixelsPerByte - 1 - bytePixelNo)
    if 32 ≤ shift ∨ 2 ^ 32 ≤ mask <<< shift then .error .undefined
    else
      match palette[((byte.val &&& (mask <<< shift)) >>> shift) % 256]? with
      | none => .error .undefined
      | some c => .ok c

/-- The loop `while(numPixelsExtracted < infoHead._bmpWidth_px)` of `extractPalettedPixels`;
`count` iterations remain. -/
def indexLoop (infoHead : InfoHeader) (palette : List Color4) (row : List Byte)
    (numPixelsPerByte mask : Nat) :
    Nat → Nat → Nat → Byte → List Color4 → Except Fault (List Color4)
  | 0, _, _, _, pixels => .ok pixels
  | count + 1, byteNo, bytePixelNo, byte, pixels =>
    if numPixelsPerByte ≤ bytePixelNo then
      match row[byteNo + 1]? with
      | none => .error .undefined
      | some byte1 =>
        match paletteLookup infoHead palette numPixelsPerByte mask 0 byte1 with
        | .error e => .error e
        | .ok c =>
          indexLoop infoHead palette row numPixelsPerByte mask count (byteNo + 1) 1 byte1
            (pixels ++ [c])
    else
      match paletteLookup infoHead palette numPixelsPerByte mask bytePixelNo byte with
      | .error e => .error e
      | .ok c =>
        indexLoop infoHead palette row numPixelsPerByte mask count byteNo (bytePixelNo + 1)
          byte (pixels ++ [c])

/-- The loop `for(int i = 0; i < numRows; ++i)` of `extractPalettedPixels`. -/
def palettedRowLoop (infoHead : InfoHeader) (palette : List Color4)
    (numPixelsPerByte mask : Nat) (rowSize_bytes rowOffset_bytes : Int) :
    Nat → IfStream → List Byte → Int → List Color4 → Except Fault (List Color4)
  | 0, _, _, _, pixels => .ok pixels
  | count + 1, file, row, seekPos, pixels =>
    let r := (file.seekg seekPos).read row rowSize_bytes.toNat
    match r.1[0]? with
    | none => .error .undefined
    | some byte =>
      match indexLoop infoHead palette r.1 numPixelsPerByte mask infoHead.bmpWidth_px.toNat
          0 0 byte pixels with
      | .error e => .error e
      | .ok pixels1 =>
        match checkInt (seekPos + rowOffset_bytes) with
        | .error e => .error e
        | .ok seekPos1 =>
          palettedRowLoop infoHead palette numPixelsPerByte mask rowSize_bytes rowOffset_bytes
            count r.2 r.1 seekPos1 pixels1

/-- The function `BmpImage::extractPalettedPixels` (1-, 2-, 4- and 8-bit pixels).  The source
names the info header `header` in the palette part and `infoHead` elsewhere; both are the
parameter `infoHead`. -/
def extractPalettedPixels (junk : Nat → Byte) (fuel : Nat) (file : IfStream)
    (fileHead : FileHeader) (infoHead : InfoHeader) (pixels : List Color4) :
    Except Fault (List Color4) :=
  match paletteLoop junk infoHead.numPaletteColors fuel 0
      (file.seekg (((FILEHEADER_SIZE_BYTES + infoHead.headerSize_bytes) % 2 ^ 32 : Nat) : Int))
      [] with
  | .error e => .error e
  | .ok (palette, file1) =>
    match rowSizeBytes infoHead with
    | .error e => .error e
    | .ok rowSize_bytes =>
      if infoHead.bitsPerPixel = 0 then .error .undefined
      else
        let numPixelsPerByte := 8 / infoHead.bitsPerPixel
        match maskLoop infoHead.bitsPerPixel 0 0 with
        | .error e => .error e
        | .ok mask =>
          match rowPlan fileHead infoHead rowSize_bytes with
          | .error e => .error e
          | .ok (numRows, pixelOffset_bytes, rowOffset_bytes) =>
            match reservePixels infoHead numRows with
            | .error e => .error e
            | .ok _ =>
              match newRow junk rowSize_bytes with
              | .error e => .error e
              | .ok row =>
                palettedRowLoop infoHead palette numPixelsPerByte mask rowSize_bytes
                  rowOffset_bytes numRows.toNat file1 row pixelOffset_bytes pixels

/-- The reads of `BmpImage::load` that follow the magic check: the rest of the file header
and the eleven common fields of the info header (lines 30 to 46). -/
def readCommonHeaders (file : IfStream) (fileMagic : Nat) : FileHeader × InfoHeader × IfStream :=
  let fileSize_bytes := readField file 4
  let reserved0 := readField fileSize_bytes.2 2
  let reserved1 := readField reserved0.2 2
  let pixelOffset_bytes := readField reserved1.2 4
  let headerSize_bytes := readField pixelOffset_bytes.2 4
  let bmpWidth_px := readField headerSize_bytes.2 4
  let bmpHeight_px := readField bmpWidth_px.2 4
  let numColorPlanes := readField bmpHeight_px.2 2
  let bitsPerPixel := readField numColorPlanes.2 2
  let compression := readField bitsPerPixel.2 4
  let imageSize_bytes := readField compression.2 4
  let xResolution_pxPm := readField imageSize_bytes.2 4
  let yResolution_pxPm := readField xResolution_pxPm.2 4
  let numPaletteColors := readField yResolution_pxPm.2 4
  let numImportantColors := readField numPaletteColors.2 4
  ({ fileMagic := fileMagic, fileSize_bytes := fileSize_bytes.1, reserved0 := reserved0.1,
     reserved1 := reserved1.1, pixelOffset_bytes := pixelOffset_bytes.1 },
   { headerSize_bytes := headerSize_bytes.1, bmpWidth_px := toInt32 bmpWidth_px.1,
     bmpHeight_px := toInt32 bmpHeight_px.1, numColorPlanes := numColorPlanes.1,
     bitsPerPixel := bitsPerPixel.1, compression := compression.1,
     imageSize_bytes := imageSize_bytes.1, xResolution_pxPm := toInt32 xResolution_pxPm.1,
     yResolution_pxPm := toInt32 yResolution_pxPm.1, numPaletteColors := numPaletteColors.1,
     numImportantColors := numImportantColors.1, redMask := 0, greenMask := 0, blueMask := 0,
     alphaMask := 0, colorSpaceMagic := 0 },
   numImportantColors.2)

/-- The version-gated reads of `BmpImage::load` (lines 48 to 74): the three colour masks,
the alpha mask and the colour-space tag.  Returns the header, the stream, `infoHeadVersion`
and whether the colour-space check (line 66) passed. -/
def readExtensions (infoHead : InfoHeader) (file : IfStream) :
    InfoHeader × IfStream × Nat × Bool :=
  let s2 : InfoHeader × IfStream × Nat :=
    if V2INFOHEADER_SIZE_BYTES ≤ infoHead.headerSize_bytes ∨
        (infoHead.headerSize_bytes = V1INFOHEADER_SIZE_BYTES ∧
          infoHead.compression = BI_BITFIELDS) then
      let redMask := readField file 4
      let greenMask := readField redMask.2 4
      let blueMask := readField greenMask.2 4
      ({ infoHead with redMask := redMask.1, greenMask := greenMask.1, blueMask := blueMask.1 },
        blueMask.2, 2)
    else (infoHead, file, 1)
  let s3 : InfoHeader × IfStream × Nat :=
    if V3INFOHEADER_SIZE_BYTES ≤ infoHead.headerSize_bytes then
      let alphaMask := readField s2.2.1 4
      ({ s2.1 with alphaMask := alphaMask.1 }, alphaMask.2, 3)
    else s2
  if V4INFOHEADER_SIZE_BYTES ≤ infoHead.headerSize_bytes then
    let colorSpaceMagic := readField s3.2.1 4
    if colorSpaceMagic.1 ≠ SRGBMAGIC then
      ({ s3.1 with colorSpaceMagic := colorSpaceMagic.1 }, colorSpaceMagic.2, s3.2.2, false)
    else
      ({ s3.1 with colorSpaceMagic := colorSpaceMagic.1 }, colorSpaceMagic.2,
        (if V5INFOHEADER_SIZE_BYTES ≤ infoHead.headerSize_bytes then 5 else 4), true)
  else (s3.1, s3.2.1, s3.2.2, true)

/-- The `switch(infoHead._bitsPerPixel)` of `BmpImage::load` (lines 80 to 114): cases 2, 4
and 8 call `extractPalettedPixels`; 16 and 32 assign default masks under `BI_RGB`; 24 always
assigns its masks; there is no other case and no default.  Returns the vector `_pixels`. -/
def dispatch (junk : Nat → Byte) (fuel : Nat) (file : IfStream) (fileHead : FileHeader)
    (infoHead : InfoHeader) (infoHeadVersion : Nat) (pixels : List Color4) :
    Except Fault (List Color4) :=
  if infoHead.bitsPerPixel = 2 ∨ infoHead.bitsPerPixel = 4 ∨ infoHead.bitsPerPixel = 8 then
    extractPalettedPixels junk fuel file fileHead infoHead pixels
  else if infoHead.bitsPerPixel = 16 then
    if infoHead.compression = BI_RGB then
      extractPixels junk file fileHead
        { infoHead with
          redMask := 0x007c00, greenMask := 0x0003e0, blueMask := 0x00001f,
          alphaMask := if infoHeadVersion < 3 then 0x8000 else infoHead.alphaMask } pixels
    else extractPixels junk file fileHead infoHead pixels
  else if infoHead.bitsPerPixel = 24 then
    extractPixels junk file fileHead
      { infoHead with
        redMask := 0xff0000, greenMask := 0x00ff00, blueMask := 0x0000ff, alphaMask := 0 }
      pixels
  else if infoHead.bitsPerPixel = 32 then
    if infoHead.compression = BI_RGB then
      extractPixels junk file fileHead
        { infoHead with
          redMask := 0xff0000, greenMask := 0x00ff00, blueMask := 0x0000ff,
          alphaMask := if infoHeadVersion < 3 then 0xff000000 else infoHead.alphaMask } pixels
    else extractPixels junk file fileHead infoHead pixels
  else .ok pixels

/-- The function `BmpImage::load`.  `contents` is `none` when the file cannot be opened,
otherwise the bytes of the file; `self` is the object before the call.  Returns the `int`
result and the object after the call. -/
def load (junk : Nat → Byte) (fuel : Nat) (contents : Option (List Byte)) (self : BmpImage) :
    Except Fault (Int × BmpImage) :=
  match contents with
  | none => .ok (-1, self)
  | some data =>
    let fileMagic := readField { data := data, pos := 0, failed := false } 2
    if fileMagic.1 ≠ BMPMAGIC then .ok (-1, self)
    else
      let h := readCommonHeaders fileMagic.2 fileMagic.1
      let x := readExtensions h.2.1 h.2.2
      if x.2.2.2 = false then .ok (-1, self)
      else if x.1.compression ≠ BI_RGB ∧ x.1.compression ≠ BI_BITFIELDS then .ok (-1, self)
      else
        match dispatch junk fuel x.2.1 h.1 x.1 x.2.2.1 self.pixels with
        | .error e => .error e
        | .ok pixels =>
          .ok (0, { pixels := pixels, width_px := x.1.bmpWidth_px,
                    height_px := x.1.bmpHeight_px })

/-- Value of the `n`-byte little-endian field at offset `o` of `data` (bytes beyond the end
of the file count as absent). -/
def fieldAt (data : List Byte) (o n : Nat) : Nat := leValue ((data.drop o).take n)

/-- State of a stream on `data` after the sequential reads of the first `o` bytes have been
requested: positioned at `o` when the file has that many bytes, failed otherwise. -/
def seqState (data : List Byte) (o : Nat) : IfStream :=
  { data := data, pos := min o data.length, failed := decide (data.length < o) }

/-- The file header as `load` reads it from `data`. -/
def parsedFileHeader (data : List Byte) : FileHeader :=
  { fileMagic := fieldAt data 0 2, fileSize_bytes := fieldAt data 2 4,
    reserved0 := fieldAt data 6 2, reserved1 := fieldAt data 8 2,
    pixelOffset_bytes := fieldAt data 10 4 }

/-- The eleven common info-header fields as `load` reads them from `data`. -/
def parsedCommon (data : List Byte) : InfoHeader :=
  { headerSize_bytes := fieldAt data 14 4, bmpWidth_px := toInt32 (fieldAt data 18 4),
    bmpHeight_px := toInt32 (fieldAt data 22 4), numColorPlanes := fieldAt data 26 2,
    bitsPerPixel := fieldAt data 28 2, compression := fieldAt data 30 4,
    imageSize_bytes := fieldAt data 34 4, xResolution_pxPm := toInt32 (fieldAt data 38 4),
    yResolution_pxPm := toInt32 (fieldAt data 42 4), numPaletteColors := fieldAt data 46 4,
    numImportantColors := fieldAt data 50 4, redMask := 0, greenMask := 0, blueMask := 0,
    alphaMask := 0, colorSpaceMagic := 0 }

/-- Whether `load` reads the three colour masks from `data`. -/
def masksRead (data : List Byte) : Prop :=
  V2INFOHEADER_SIZE_BYTES ≤ fieldAt data 14 4 ∨
    (fieldAt data 14 4 = V1INFOHEADER_SIZE_BYTES ∧ fieldAt data 30 4 = BI_BITFIELDS)

instance (data : List Byte) : Decidable (masksRead data) := by
  unfold masksRead; infer_instance

/-- The info header as `load` holds it after the version-gated reads. -/
def parsedInfo (data : List Byte) : InfoHeader :=
  { parsedCommon data with
    redMask := if masksRead data then fieldAt data 54 4 else 0
    greenMask := if masksRead data then fieldAt data 58 4 else 0
    blueMask := if masksRead data then fieldAt data 62 4 else 0
    alphaMask := if V3INFOHEADER_SIZE_BYTES ≤ fieldAt data 14 4 then fieldAt data 66 4 else 0
    colorSpaceMagic :=
      if V4INFOHEADER_SIZE_BYTES ≤ fieldAt data 14 4 then fieldAt data 70 4 else 0 }

/-- Number of leading bytes of `data` that the header reads of `load` request. -/
def headerEnd (data : List Byte) : Nat :=
  if V4INFOHEADER_SIZE_BYTES ≤ fieldAt data 14 4 then 74
  else if V3INFOHEADER_SIZE_BYTES ≤ fieldAt data 14 4 then 70
  else if masksRead data then 66 else 54

/-- The value of `infoHeadVersion` when `load` reaches its `switch`. -/
def parsedVersion (data : List Byte) : Nat :=
  if V5INFOHEADER_SIZE_BYTES ≤ fieldAt data 14 4 then 5
  else if V4INFOHEADER_SIZE_BYTES ≤ fieldAt data 14 4 then 4
  else if V3INFOHEADER_SIZE_BYTES ≤ fieldAt data 14 4 then 3
  else if masksRead data then 2 else 1

/-! ## Sample files -/

/-- A freshly constructed `BmpImage` (no pixels; the two `int` members hold 0 here). -/
def freshImage : BmpImage := { pixels := [], width_px := 0, height_px := 0 }

/-- Contents of uninitialised memory used in the examples: every byte is 0xAA. -/
def sampleJunk : Nat → Byte := fun _ => 0xAA

/-- A three-byte file that does not start with "BM". -/
def sampleBadMagic : List Byte := [0x42, 0x00, 0x01]

/-- A 54-byte header: "BM", pixel offset 54, header size 40, 1x1, 8 bits per pixel,
compression 1 (run-length encoding). -/
def sampleCompressed : List Byte :=
  [0x42, 0x4D, 0, 0, 0, 0, 0, 0, 0, 0, 54, 0, 0, 0,
   40, 0, 0, 0, 1, 0, 0, 0, 1, 0, 0, 0, 1, 0, 8, 0, 1, 0, 0, 0,
   0, 0, 0, 0, 0, 0, 0, 0, 0, 0, 0, 0, 0, 0, 0, 0, 0, 0, 0, 0]

/-- A 74-byte header: "BM", header size 108 (version 4), 1x1, 24 bits per pixel, BI_RGB,
four zero masks and the colour-space tag 0 (not "sRGB"). -/
def sampleBadColorSpace : List Byte :=
  [0x42, 0x4D, 0, 0, 0, 0, 0, 0, 0, 0, 122, 0, 0, 0,
   108, 0, 0, 0, 1, 0, 0, 0, 1, 0, 0, 0, 1, 0, 24, 0, 0, 0, 0, 0,
   0, 0, 0, 0, 0, 0, 0, 0, 0, 0, 0, 0, 0, 0, 0, 0, 0, 0, 0, 0,
   0, 0, 0, 0, 0, 0, 0, 0, 0, 0, 0, 0, 0, 0, 0, 0, 0, 0, 0, 0]

/-- A 58-byte file: "BM", pixel offset 54, header size 40, 1x1, 3 bits per pixel, BI_RGB,
followed by one 4-byte row. -/
def sampleDepth3 : List Byte :=
  [0x42, 0x4D, 0, 0, 0, 0, 0, 0, 0, 0, 54, 0, 0, 0,
   40, 0, 0, 0, 1, 0, 0, 0, 1, 0, 0, 0, 1, 0, 3, 0, 0, 0, 0, 0,
   0, 0, 0, 0, 0, 0, 0, 0, 0, 0, 0, 0, 0, 0, 0, 0, 0, 0, 0, 0,
   0xE0, 0, 0, 0]

/-- A 58-byte file: "BM", pixel offset 54, header size 40, width 1, height -1 (top origin),
24 bits per pixel, BI_RGB, followed by one row holding the pixel bytes 1, 2, 3 and one
padding byte. -/
def sampleTopOrigin : List Byte :=
  [0x42, 0x4D, 0, 0, 0, 0, 0, 0, 0, 0, 54, 0, 0, 0,
   40, 0, 0, 0, 1, 0, 0, 0, 0xFF, 0xFF, 0xFF, 0xFF, 1, 0, 24, 0, 0, 0, 0, 0,
   0, 0, 0, 0, 0, 0, 0, 0, 0, 0, 0, 0, 0, 0, 0, 0, 0, 0, 0, 0,
   1, 2, 3, 0]

/-- A 58-byte file: "BM", pixel offset 54, header size 40, 1x1, 24 bits per pixel, BI_RGB,
followed by one row holding the pixel bytes 1, 2, 3 and one padding byte. -/
def sampleOnePixel : List Byte :=
  [0x42, 0x4D, 0, 0, 0, 0, 0, 0, 0, 0, 54, 0, 0, 0,
   40, 0, 0, 0, 1, 0, 0, 0, 1, 0, 0, 0, 1, 0, 24, 0, 0, 0, 0, 0,
   0, 0, 0, 0, 0, 0, 0, 0, 0, 0, 0, 0, 0, 0, 0, 0, 0, 0, 0, 0,
   1, 2, 3, 0]

/-! ## Reference definitions used by the properties -/

/-- The number `s` is the index of the lowest set bit of `mask`. -/
def IsLowestSetBit (mask s : Nat) : Prop :=
  mask.testBit s = true ∧ ∀ j, j < s → mask.testBit j = false

/-- The colours decoded from one row by the direct path, given the shifts: pixel `j` is
assembled from the `pixelSize_bytes` bytes at `j * pixelSize_bytes`, little-endian. -/
def directRow (infoHead : InfoHeader) (redShift greenShift blueShift alphaShift : Nat)
    (pixelSize_bytes width : Nat) (row : List Byte) : List Color4 :=
  (List.range width).map fun j =>
    maskedColor infoHead redShift greenShift blueShift alphaShift
      (leValue ((row.drop (j * pixelSize_bytes)).take pixelSize_bytes))

/-- Decoding of a list of rows, one after the other, by a row decoder `D` that extends the
pixel vector or faults. -/
def decodeRows (D : List Byte → List Color4 → Except Fault (List Color4)) :
    List (List Byte) → List Color4 → Except Fault (List Color4)
  | [], pixels => .ok pixels
  | row :: rows, pixels =>
    match D row pixels with
    | .error e => .error e
    | .ok pixels1 => decodeRows D rows pixels1

/-- The `count` rows of `stride` bytes that the row loops read from `data`, starting at
`seekPos` and stepping by `rowOffset_bytes`. -/
def rowsRead (data : List Byte) (stride : Nat) (seekPos rowOffset_bytes : Int) (count : Nat) :
    List (List Byte) :=
  (List.range count).map fun (k : Nat) =>
    (data.drop (seekPos + (k : Int) * rowOffset_bytes).toNat).take stride

/-- The decoder that `extractPixels` applies to one row. -/
def directRowDecoder (infoHead : InfoHeader) (redShift greenShift blueShift alphaShift : Nat)
    (pixelSize_bytes : Nat) (row : List Byte) (pixels : List Color4) :
    Except Fault (List Color4) :=
  pixelLoop infoHead redShift greenShift blueShift alphaShift row pixelSize_bytes
    infoHead.bmpWidth_px.toNat 0 pixels

/-- The decoder that `extractPalettedPixels` applies to one row. -/
def palettedRowDecoder (infoHead : InfoHeader) (palette : List Color4)
    (numPixelsPerByte mask : Nat) (row : List Byte) (pixels : List Color4) :
    Except Fault (List Color4) :=
  match row[0]? with
  | none => .error .undefined
  | some byte =>
    indexLoop infoHead palette row numPixelsPerByte mask infoHead.bmpWidth_px.toNat 0 0 byte
      pixels

/-- The row stride of the spec: `ceil(bitsPerPixel * width / 32) * 4`. -/
def rowStride (bitsPerPixel width : Nat) : Nat := (bitsPerPixel * width + 31) / 32 * 4

/-- File offset of the first byte of the row that is decoded as output row `r`: file row `r`
for a positive height, file row `n - 1 - r` for a negative one (`n` rows of `stride` bytes
starting at `pixelOffset`). -/
def rowStart (pixelOffset stride n : Nat) (height : Int) (r : Nat) : Nat :=
  pixelOffset + (if height < 0 then n - 1 - r else r) * stride

/-- The `n` rows of `stride` bytes of a file in the order in which they are decoded. -/
def fileRows (data : List Byte) (pixelOffset stride n : Nat) (height : Int) :
    List (List Byte) :=
  (List.range n).map fun r => (data.drop (rowStart pixelOffset stride n height r)).take stride

/-- What `extractPixels` computes when the stream is readable and every row lies inside
the file: the same checks in the same order, the rows taken directly from `data`. -/
def extractPixelsRef (data : List Byte) (fileHead : FileHeader) (infoHead : InfoHeader)
    (pixels : List Color4) : Except Fault (List Color4) :=
  match rowSizeBytes infoHead with
  | .error e => .error e
  | .ok rowSize_bytes =>
    match rowPlan fileHead infoHead rowSize_bytes with
    | .error e => .error e
    | .ok (numRows, _, _) =>
      match shiftLoop infoHead.redMask 32 0 with
      | .error e => .error e
      | .ok redShift =>
        match shiftLoop infoHead.greenMask 32 0 with
        | .error e => .error e
        | .ok greenShift =>
          match shiftLoop infoHead.blueMask 32 0 with
          | .error e => .error e
          | .ok blueShift =>
            match (if infoHead.alphaMask ≠ 0 then shiftLoop infoHead.alphaMask 32 0
                   else .ok 0) with
            | .error e => .error e
            | .ok alphaShift =>
              match reservePixels infoHead numRows with
              | .error e => .error e
              | .ok _ =>
                if rowSize_bytes < 0 then .error .throws
                else
                  decodeRows
                    (directRowDecoder infoHead redShift greenShift blueShift alphaShift
                      (infoHead.bitsPerPixel / 8))
                    (fileRows data fileHead.pixelOffset_bytes rowSize_bytes.toNat
                      infoHead.bmpHeight_px.natAbs infoHead.bmpHeight_px)
                    pixels

/-- The rows of a file lie inside it and inside the range of `int` positions: whenever the
row size computed by the extractors is a non-negative `S`, the `|height|` rows of `S` bytes
that start at the pixel offset end within the file and below 2^31. -/
def RowsFit (data : List Byte) (fileHead : FileHeader) (infoHead : InfoHeader) : Prop :=
  ∀ S : Nat, rowSizeBytes infoHead = .ok (S : Int) →
    fileHead.pixelOffset_bytes + infoHead.bmpHeight_px.natAbs * S ≤ data.length ∧
    fileHead.pixelOffset_bytes + infoHead.bmpHeight_px.natAbs * S < 2147483648

/-- The 54 header bytes of a 16-bit image of width 65536 and height 32768 (pixel offset 54,
header size 40, BI_RGB). -/
def sampleHugeHeader : List Byte :=
  [0x42, 0x4D, 0, 0, 0, 0, 0, 0, 0, 0, 54, 0, 0, 0,
   40, 0, 0, 0, 0, 0, 1, 0, 0, 0x80, 0, 0, 1, 0, 16, 0, 0, 0, 0, 0,
   0, 0, 0, 0, 0, 0, 0, 0, 0, 0, 0, 0, 0, 0, 0, 0, 0, 0, 0, 0]

/-- A complete file for `sampleHugeHeader`: the header followed by 32768 rows of 131072
bytes, all zero. -/
def sampleHugeFile : List Byte := sampleHugeHeader ++ List.replicate (32768 * 131072) 0

/-- The file header that `load` parses from `sampleHugeFile`. -/
def sampleHugeFileHead : FileHeader :=
  { fileMagic := 0x4D42, fileSize_bytes := 0, reserved0 := 0, reserved1 := 0,
    pixelOffset_bytes := 54 }

/-- The info header that `load` passes to `extractPixels` for `sampleHugeFile` (16-bit
default masks). -/
def sampleHugeInfo : InfoHeader :=
  { headerSize_bytes := 40, bmpWidth_px := 65536, bmpHeight_px := 32768, numColorPlanes := 1,
    bitsPerPixel := 16, compression := 0, imageSize_bytes := 0, xResolution_pxPm := 0,
    yResolution_pxPm := 0, numPaletteColors := 0, numImportantColors := 0,
    redMask := 0x7c00, greenMask := 0x03e0, blueMask := 0x001f, alphaMask := 0x8000,
    colorSpaceMagic := 0 }

/-- A 70-byte file: "BM", pixel offset 54, header size 40, width 2, height -2 (top origin),
24 bits per pixel, BI_RGB, then two rows of two pixels and two padding bytes each. -/
def sampleTwoByTwo : List Byte :=
  [0x42, 0x4D, 0, 0, 0, 0, 0, 0, 0, 0, 54, 0, 0, 0,
   40, 0, 0, 0, 2, 0, 0, 0, 0xFE, 0xFF, 0xFF, 0xFF, 1, 0, 24, 0, 0, 0, 0, 0,
   0, 0, 0, 0, 0, 0, 0, 0, 0, 0, 0, 0, 0, 0, 0, 0, 0, 0, 0, 0,
   1, 2, 3, 4, 5, 6, 0, 0,
   7, 8, 9, 10, 11, 12, 0, 0]

/-- The file header that `load` parses from `sampleTwoByTwo`. -/
def sampleTwoByTwoFileHead : FileHeader :=
  { fileMagic := 0x4D42, fileSize_bytes := 0, reserved0 := 0, reserved1 := 0,
    pixelOffset_bytes := 54 }

/-- The info header that `load` passes to `extractPixels` for `sampleTwoByTwo` (24-bit
masks). -/
def sampleTwoByTwoInfo : InfoHeader :=
  { headerSize_bytes := 40, bmpWidth_px := 2, bmpHeight_px := -2, numColorPlanes := 1,
    bitsPerPixel := 24, compression := 0, imageSize_bytes := 0, xResolution_pxPm := 0,
    yResolution_pxPm := 0, numPaletteColors := 0, numImportantColors := 0,
    redMask := 0xff0000, greenMask := 0x00ff00, blueMask := 0x0000ff, alphaMask := 0,
    colorSpaceMagic := 0 }

/-- Palette entry `i` of the palette stored at offset `base` of `data`: four bytes in the
order blue, green, red, alpha. -/
def paletteEntry (data : List Byte) (base i : Nat) : Color4 :=
  { r := data.getD (base + 4 * i + 2) 0, g := data.getD (base + 4 * i + 1) 0,
    b := data.getD (base + 4 * i) 0, a := data.getD (base + 4 * i + 3) 0 }

/-- The palette of `count` entries stored at offset `base` of `data`. -/
def paletteOf (data : List Byte) (base count : Nat) : List Color4 :=
  (List.range count).map (paletteEntry data base)

/-- The palette index of pixel `c` of a row at `bpp` bits per pixel: the byte `c div ppb`
shifted right by `bpp * (ppb - 1 - c mod ppb)` and masked with `2 ^ bpp - 1`, where
`ppb = 8 / bpp`. -/
def pixelIndex (bpp : Nat) (row : List Byte) (c : Nat) : Nat :=
  ((row.getD (c / (8 / bpp)) 0).val >>> (bpp * (8 / bpp - 1 - c % (8 / bpp)))) &&&
    (2 ^ bpp - 1)

/-- The colours decoded from one row by the paletted path. -/
def palettedRow (bpp : Nat) (palette : List Color4) (width : Nat) (row : List Byte) :
    List Color4 :=
  (List.range width).map fun c =>
    palette.getD (pixelIndex bpp row c) { r := 0, g := 0, b := 0, a := 0 }

/-- What `extractPalettedPixels` computes when the stream is readable, the palette lies
inside the file and every row lies inside the file: the same checks in the same order, the
palette and the rows taken directly from `data`.  The palette loop ends only for at most 255
colours, after as many turns. -/
def extractPalettedPixelsRef (fuel : Nat) (data : List Byte) (fileHead : FileHeader)
    (infoHead : InfoHeader) (pixels : List Color4) : Except Fault (List Color4) :=
  if 255 < infoHead.numPaletteColors ∨ fuel ≤ infoHead.numPaletteColors then .error .timeout
  else
    match rowSizeBytes infoHead with
    | .error e => .error e
    | .ok rowSize_bytes =>
      if infoHead.bitsPerPixel = 0 then .error .undefined
      else
        match maskLoop infoHead.bitsPerPixel 0 0 with
        | .error e => .error e
        | .ok mask =>
          match rowPlan fileHead infoHead rowSize_bytes with
          | .error e => .error e
          | .ok (numRows, _, _) =>
            match reservePixels infoHead numRows with
            | .error e => .error e
            | .ok _ =>
              if rowSize_bytes < 0 then .error .throws
              else
                decodeRows
                  (palettedRowDecoder infoHead
                    (paletteOf data (FILEHEADER_SIZE_BYTES + infoHead.headerSize_bytes)
                      infoHead.numPaletteColors)
                    (8 / infoHead.bitsPerPixel) mask)
                  (fileRows data fileHead.pixelOffset_bytes rowSize_bytes.toNat
                    infoHead.bmpHeight_px.natAbs infoHead.bmpHeight_px)
                  pixels

/-- The palette lies inside the file: when the palette loop terminates (at most 255
colours), its entries end within the file, at an offset that fits 32 bits. -/
def PaletteFits (data : List Byte) (infoHead : InfoHeader) : Prop :=
  infoHead.numPaletteColors ≤ 255 →
    FILEHEADER_SIZE_BYTES + infoHead.headerSize_bytes + 4 * infoHead.numPaletteColors ≤
      data.length ∧
    FILEHEADER_SIZE_BYTES + infoHead.headerSize_bytes < 4294967296

/-- The palette index of pixel `c` of the row stored at file offset `rowOff`: with
`ppb = 8 / bpp`, the byte at `rowOff + c div ppb` shifted right by
`bpp * (ppb - 1 - c mod ppb)` and masked with `2 ^ bpp - 1`. -/
def fileIndex (data : List Byte) (bpp rowOff c : Nat) : Nat :=
  ((data.getD (rowOff + c / (8 / bpp)) 0).val >>> (bpp * (8 / bpp - 1 - c % (8 / bpp)))) &&&
    (2 ^ bpp - 1)

/-- The 2-bit 8x1 image of the format comment in `extractPalettedPixels`: "BM", pixel offset
70, header size 40, BI_RGB, four palette colours, then the row 0b00010010, 0b00110001 and
two padding bytes. -/
def sampleTwoBit : List Byte :=
  [0x42, 0x4D, 0, 0, 0, 0, 0, 0, 0, 0, 70, 0, 0, 0,
   40, 0, 0, 0, 8, 0, 0, 0, 1, 0, 0, 0, 1, 0, 2, 0, 0, 0, 0, 0,
   0, 0, 0, 0, 0, 0, 0, 0, 0, 0, 0, 0, 4, 0, 0, 0, 0, 0, 0, 0,
   1, 2, 3, 4, 11, 12, 13, 14, 21, 22, 23, 24, 31, 32, 33, 34,
   0x12, 0x31, 0, 0]

/-- The file header that `load` parses from `sampleTwoBit`. -/
def sampleTwoBitFileHead : FileHeader :=
  { fileMagic := 0x4D42, fileSize_bytes := 0, reserved0 := 0, reserved1 := 0,
    pixelOffset_bytes := 70 }

/-- The info header that `load` parses from `sampleTwoBit`. -/
def sampleTwoBitInfo : InfoHeader :=
  { headerSize_bytes := 40, bmpWidth_px := 8, bmpHeight_px := 1, numColorPlanes := 1,
    bitsPerPixel := 2, compression := 0, imageSize_bytes := 0, xResolution_pxPm := 0,
    yResolution_pxPm := 0, numPaletteColors := 4, numImportantColors := 0,
    redMask := 0, greenMask := 0, blueMask := 0, alphaMask := 0, colorSpaceMagic := 0 }

/-- The 54 header bytes of an 8-bit image of width 65536 and height 32768 with one palette
colour (pixel offset 58, header size 40, BI_RGB). -/
def sampleHugePalettedHeader : List Byte :=
  [0x42, 0x4D, 0, 0, 0, 0, 0, 0, 0, 0, 58, 0, 0, 0,
   40, 0, 0, 0, 0, 0, 1, 0, 0, 0x80, 0, 0, 1, 0, 8, 0, 0, 0, 0, 0,
   0, 0, 0, 0, 0, 0, 0, 0, 0, 0, 0, 0, 1, 0, 0, 0, 0, 0, 0, 0]

/-- A complete file for `sampleHugePalettedHeader`: the header, one palette entry of four
zero bytes and 32768 rows of 65536 zero bytes. -/
def sampleHugePalettedFile : List Byte :=
  sampleHugePalettedHeader ++ List.replicate (4 + 32768 * 65536) 0

/-- The file header that `load` parses from `sampleHugePalettedFile`. -/
def sampleHugePalettedFileHead : FileHeader :=
  { fileMagic := 0x4D42, fileSize_bytes := 0, reserved0 := 0, reserved1 := 0,
    pixelOffset_bytes := 58 }

/-- The info header that `load` parses from `sampleHugePalettedFile`. -/
def sampleHugePalettedInfo : InfoHeader :=
  { headerSize_bytes := 40, bmpWidth_px := 65536, bmpHeight_px := 32768, numColorPlanes := 1,
    bitsPerPixel := 8, compression := 0, imageSize_bytes := 0, xResolution_pxPm := 0,
    yResolution_pxPm := 0, numPaletteColors := 1, numImportantColors := 0,
    redMask := 0, greenMask := 0, blueMask := 0, alphaMask := 0, colorSpaceMagic := 0 }

/-- What the `switch` of `load` computes on a readable stream whose palette and rows lie
inside the file: `dispatch` with the extractors replaced by their reference forms. -/
def dispatchRef (fuel : Nat) (data : List Byte) (fileHead : FileHeader)
    (infoHead : InfoHeader) (infoHeadVersion : Nat) (pixels : List Color4) :
    Except Fault (List Color4) :=
  if infoHead.bitsPerPixel = 2 ∨ infoHead.bitsPerPixel = 4 ∨ infoHead.bitsPerPixel = 8 then
    extractPalettedPixelsRef fuel data fileHead infoHead pixels
  else if infoHead.bitsPerPixel = 16 then
    if infoHead.compression = BI_RGB then
      extractPixelsRef data fileHead
        { infoHead with
          redMask := 0x007c00, greenMask := 0x0003e0, blueMask := 0x00001f,
          alphaMask := if infoHeadVersion < 3 then 0x8000 else infoHead.alphaMask } pixels
    else extractPixelsRef data fileHead infoHead pixels
  else if infoHead.bitsPerPixel = 24 then
    extractPixelsRef data fileHead
      { infoHead with
        redMask := 0xff0000, greenMask := 0x00ff00, blueMask := 0x0000ff, alphaMask := 0 }
      pixels
  else if infoHead.bitsPerPixel = 32 then
    if infoHead.compression = BI_RGB then
      extractPixelsRef data fileHead
        { infoHead with
          redMask := 0xff0000, greenMask := 0x00ff00, blueMask := 0x0000ff,
          alphaMask := if infoHeadVersion < 3 then 0xff000000 else infoHead.alphaMask } pixels
    else extractPixelsRef data fileHead infoHead pixels
  else .ok pixels

/-- Layout conditions of a valid BMP file that the properties about whole files assume: the
declared header size is at least the version-1 size, the width is not negative, the pixel
data starts after the header fields that `load` reads and inside the file, a palette of at
most 255 colours ends before the pixel data, and the rows lie inside the file below offset
2^31 (`RowsFit`). -/
def ValidLayout (data : List Byte) : Prop :=
  V1INFOHEADER_SIZE_BYTES ≤ (parsedInfo data).headerSize_bytes ∧
  0 ≤ (parsedInfo data).bmpWidth_px ∧
  headerEnd data ≤ (parsedFileHeader data).pixelOffset_bytes ∧
  (parsedFileHeader data).pixelOffset_bytes ≤ data.length ∧
  ((parsedInfo data).numPaletteColors ≤ 255 →
    FILEHEADER_SIZE_BYTES + (parsedInfo data).headerSize_bytes +
      4 * (parsedInfo data).numPaletteColors ≤ (parsedFileHeader data).pixelOffset_bytes) ∧
  RowsFit data (parsedFileHeader data) (parsedInfo data)

/-- The return code and the pixel vector of a call of `load` (or the fault it ends with). -/
def pixelsOf (r : Except Fault (Int × BmpImage)) : Except Fault (Int × List Color4) :=
  match r with
  | .error e => .error e
  | .ok (code, img) => .ok (code, img.pixels)

/-- Position `i` of the file `data` holds a row padding byte: it lies in one of the
`|height|` stored rows, at an in-row position at or beyond `ceil(bpp * width / 8)`. -/
def IsRowPadding (data : List Byte) (i : Nat) : Prop :=
  ∃ S : Nat, rowSizeBytes (parsedInfo data) = .ok (S : Int) ∧
    ∃ r p, r < (parsedInfo data).bmpHeight_px.natAbs ∧
      ((parsedInfo data).bitsPerPixel * (parsedInfo data).bmpWidth_px.toNat + 7) / 8 ≤ p ∧
      p < S ∧ i = (parsedFileHeader data).pixelOffset_bytes + r * S + p

/-- The file `sampleOnePixel` with the value 0xFF in its padding byte. -/
def samplePaddedOther : List Byte :=
  [0x42, 0x4D, 0, 0, 0, 0, 0, 0, 0, 0, 54, 0, 0, 0,
   40, 0, 0, 0, 1, 0, 0, 0, 1, 0, 0, 0, 1, 0, 24, 0, 0, 0, 0, 0,
   0, 0, 0, 0, 0, 0, 0, 0, 0, 0, 0, 0, 0, 0, 0, 0, 0, 0, 0, 0,
   1, 2, 3, 0xFF]

/-- The image of `sampleTwoByTwo` stored bottom-up: height 2 and the two rows in the
opposite order. -/
def sampleTwoByTwoFlipped : List Byte :=
  [0x42, 0x4D, 0, 0, 0, 0, 0, 0, 0, 0, 54, 0, 0, 0,
   40, 0, 0, 0, 2, 0, 0, 0, 2, 0, 0, 0, 1, 0, 24, 0, 0, 0, 0, 0,
   0, 0, 0, 0, 0, 0, 0, 0, 0, 0, 0, 0, 0, 0, 0, 0, 0, 0, 0, 0,
   7, 8, 9, 10, 11, 12, 0, 0,
   1, 2, 3, 4, 5, 6, 0, 0]

/-- A 66-byte 1-bit image, 8 pixels wide and 1 high: "BM", pixel offset 62, header size 40,
BI_RGB, two palette colours (stored as 10, 20, 30, 0 and 40, 50, 60, 0), then the row
0b10100101 and three padding bytes. -/
def sampleOneBit : List Byte :=
  [0x42, 0x4D, 0, 0, 0, 0, 0, 0, 0, 0, 62, 0, 0, 0,
   40, 0, 0, 0, 8, 0, 0, 0, 1, 0, 0, 0, 1, 0, 1, 0, 0, 0, 0, 0,
   0, 0, 0, 0, 0, 0, 0, 0, 0, 0, 0, 0, 2, 0, 0, 0, 0, 0, 0, 0,
   10, 20, 30, 0, 40, 50, 60, 0,
   0xA5, 0, 0, 0]

/-- An object that already holds one pixel, with width 1 and height 1. -/
def sampleLoadedImage : BmpImage :=
  { pixels := [{ r := 3, g := 2, b := 1, a := 0 }], width_px := 1, height_px := 1 }

/-- The two-byte file "BM". -/
def sampleMagicOnly : List Byte := [0x42, 0x4D]

/-- The info header that the `switch` of `load` hands to `extractPixels` (lines 87 to 113):
under `BI_RGB` the depths 16 and 32 take default colour masks, and a default alpha mask when
`infoHeadVersion < 3`; the depth 24 always takes its fixed masks; otherwise the header is
passed as it was read. -/
def directInfo (infoHead : InfoHeader) (infoHeadVersion : Nat) : InfoHeader :=
  if infoHead.bitsPerPixel = 16 then
    if infoHead.compression = BI_RGB then
      { infoHead with
        redMask := 0x007c00, greenMask := 0x0003e0, blueMask := 0x00001f,
        alphaMask := if infoHeadVersion < 3 then 0x8000 else infoHead.alphaMask }
    else infoHead
  else if infoHead.bitsPerPixel = 24 then
    { infoHead with
      redMask := 0xff0000, greenMask := 0x00ff00, blueMask := 0x0000ff, alphaMask := 0 }
  else if infoHead.bitsPerPixel = 32 then
    if infoHead.compression = BI_RGB then
      { infoHead with
        redMask := 0xff0000, greenMask := 0x00ff00, blueMask := 0x0000ff,
        alphaMask := if infoHeadVersion < 3 then 0xff000000 else infoHead.alphaMask }
    else infoHead
  else infoHead

/-- A valid file that holds an image of `w` by `n` pixels: the layout is valid
(`ValidLayout`), the file starts with the magic, a colour-space tag that is read is "sRGB",
the compression is `BI_RGB` or `BI_BITFIELDS`, the declared width is `w >= 1`, the magnitude
of the declared height is `n`, and the sizes stay inside the arithmetic of the code
(`bpp * w < 2^24`, so that the `float` row size is exact, and `w * n < 2^31`). -/
def ValidFile (data : List Byte) (w n : Nat) : Prop :=
  ValidLayout data ∧ fieldAt data 0 2 = BMPMAGIC ∧
  (V4INFOHEADER_SIZE_BYTES ≤ fieldAt data 14 4 → fieldAt data 70 4 = SRGBMAGIC) ∧
  (fieldAt data 30 4 = BI_RGB ∨ fieldAt data 30 4 = BI_BITFIELDS) ∧
  (parsedInfo data).bmpWidth_px = w ∧ 1 ≤ w ∧ (parsedInfo data).bmpHeight_px.natAbs = n ∧
  (parsedInfo data).bitsPerPixel * w < 2 ^ 24 ∧ w * n < 2 ^ 31

/-- File offset of the first byte of the pixel in output row `r` and column `c` of a file
that holds `w` by `n` pixels. -/
def pixelStart (data : List Byte) (w n r c : Nat) : Nat :=
  rowStart (parsedFileHeader data).pixelOffset_bytes
      (rowStride (parsedInfo data).bitsPerPixel w) n (parsedInfo data).bmpHeight_px r +
    c * ((parsedInfo data).bitsPerPixel / 8)

/-- The raw value of the pixel in output row `r` and column `c`: its `bpp / 8` bytes read as
a little-endian number. -/
def rawPixel (data : List Byte) (w n r c : Nat) : Nat :=
  fieldAt data (pixelStart data w n r c) ((parsedInfo data).bitsPerPixel / 8)

/-- A 70-byte 24-bit image of 1 by 1 pixel under `BI_BITFIELDS`: "BM", pixel offset 66,
header size 40, compression 3, the three mask fields holding 0x11, 0x2200 and 0x330000, then
one row with the pixel bytes 1, 2, 3 and one padding byte. -/
def sampleMasked24 : List Byte :=
  [0x42, 0x4D, 0, 0, 0, 0, 0, 0, 0, 0, 66, 0, 0, 0,
   40, 0, 0, 0, 1, 0, 0, 0, 1, 0, 0, 0, 1, 0, 24, 0, 3, 0, 0, 0,
   0, 0, 0, 0, 0, 0, 0, 0, 0, 0, 0, 0, 0, 0, 0, 0, 0, 0, 0, 0,
   0x11, 0, 0, 0, 0, 0x22, 0, 0, 0, 0, 0x33, 0,
   1, 2, 3, 0]

/-- A 58-byte 32-bit image of 1 by 1 pixel under `BI_RGB`: "BM", pixel offset 54, header
size 40, then the pixel bytes 1, 2, 3, 4. -/
def sampleDeep32 : List Byte :=
  [0x42, 0x4D, 0, 0, 0, 0, 0, 0, 0, 0, 54, 0, 0, 0,
   40, 0, 0, 0, 1, 0, 0, 0, 1, 0, 0, 0, 1, 0, 32, 0, 0, 0, 0, 0,
   0, 0, 0, 0, 0, 0, 0, 0, 0, 0, 0, 0, 0, 0, 0, 0, 0, 0, 0, 0,
   1, 2, 3, 4]

/-- A 58-byte 16-bit image of 2 by 1 pixels under `BI_RGB`: "BM", pixel offset 54, header
size 40, then the pixel words 0x07E0 and 0x7FFF (low byte first). -/
def sampleHigh16 : List Byte :=
  [0x42, 0x4D, 0, 0, 0, 0, 0, 0, 0, 0, 54, 0, 0, 0,
   40, 0, 0, 0, 2, 0, 0, 0, 1, 0, 0, 0, 1, 0, 16, 0, 0, 0, 0, 0,
   0, 0, 0, 0, 0, 0, 0, 0, 0, 0, 0, 0, 0, 0, 0, 0, 0, 0, 0, 0,
   0xE0, 0x07, 0xFF, 0x7F]

/-- Number of set bits among the low 32 bits of a channel mask. -/
def maskBits (mask : Nat) : Nat := ((List.range 32).filter fun i => mask.testBit i).length

/-- A 74-byte 32-bit image of 1 by 1 pixel under `BI_RGB` with a version-3 header: "BM",
pixel offset 70, header size 56, the mask fields 0x00FF0000, 0x0000FF00, 0x000000FF and the
alpha-mask field 0xFF000000, then the pixel bytes 1, 2, 3, 0x80. -/
def sampleAlpha32 : List Byte :=
  [0x42, 0x4D, 0, 0, 0, 0, 0, 0, 0, 0, 70, 0, 0, 0,
   56, 0, 0, 0, 1, 0, 0, 0, 1, 0, 0, 0, 1, 0, 32, 0, 0, 0, 0, 0,
   0, 0, 0, 0, 0, 0, 0, 0, 0, 0, 0, 0, 0, 0, 0, 0, 0, 0, 0, 0,
   0, 0, 0xFF, 0, 0, 0xFF, 0, 0, 0xFF, 0, 0, 0, 0, 0, 0, 0xFF,
   1, 2, 3, 0x80]

/-- A 70-byte 16-bit image of 1 by 1 pixel under `BI_BITFIELDS`: "BM", pixel offset 66,
header size 40, the 5-6-5 masks 0xF800, 0x07E0, 0x001F, then the pixel word 0x07E0 and two
padding bytes. -/
def sampleFields16 : List Byte :=
  [0x42, 0x4D, 0, 0, 0, 0, 0, 0, 0, 0, 66, 0, 0, 0,
   40, 0, 0, 0, 1, 0, 0, 0, 1, 0, 0, 0, 1, 0, 16, 0, 3, 0, 0, 0,
   0, 0, 0, 0, 0, 0, 0, 0, 0, 0, 0, 0, 0, 0, 0, 0, 0, 0, 0, 0,
   0, 0xF8, 0, 0, 0xE0, 0x07, 0, 0, 0x1F, 0, 0, 0,
   0xE0, 0x07, 0, 0]

/-- A 70-byte 32-bit image of 1 by 1 pixel under `BI_BITFIELDS`: "BM", pixel offset 66,
header size 40, the masks 0x00FF0000, 0x0000FF00, 0x000000FF, then the pixel bytes
1, 2, 3, 4. -/
def sampleFields32 : List Byte :=
  [0x42, 0x4D, 0, 0, 0, 0, 0, 0, 0, 0, 66, 0, 0, 0,
   40, 0, 0, 0, 1, 0, 0, 0, 1, 0, 0, 0, 1, 0, 32, 0, 3, 0, 0, 0,
   0, 0, 0, 0, 0, 0, 0, 0, 0, 0, 0, 0, 0, 0, 0, 0, 0, 0, 0, 0,
   0, 0, 0xFF, 0, 0, 0xFF, 0, 0, 0xFF, 0, 0, 0,
   1, 2, 3, 4]

/-- The file `sampleFields32` with the red mask field set to 0. -/
def sampleNoRed32 : List Byte :=
  [0x42, 0x4D, 0, 0, 0, 0, 0, 0, 0, 0, 66, 0, 0, 0,
   40, 0, 0, 0, 1, 0, 0, 0, 1, 0, 0, 0, 1, 0, 32, 0, 3, 0, 0, 0,
   0, 0, 0, 0, 0, 0, 0, 0, 0, 0, 0, 0, 0, 0, 0, 0, 0, 0, 0, 0,
   0, 0, 0, 0, 0, 0xFF, 0, 0, 0xFF, 0, 0, 0,
   1, 2, 3, 4]

/-- An info header of an 8-bit image 5 pixels wide and 1 high. -/
def sampleFiveWideInfo : InfoHeader :=
  { headerSize_bytes := 40, bmpWidth_px := 5, bmpHeight_px := 1, numColorPlanes := 1,
    bitsPerPixel := 8, compression := 0, imageSize_bytes := 0, xResolution_pxPm := 0,
    yResolution_pxPm := 0, numPaletteColors := 0, numImportantColors := 0,
    redMask := 0, greenMask := 0, blueMask := 0, alphaMask := 0, colorSpaceMagic := 0 }

/-- An info header of an 8-bit image 16777217 (2^24 + 1) pixels wide and 1 high. -/
def sampleWideInfo : InfoHeader :=
  { headerSize_bytes := 40, bmpWidth_px := 16777217, bmpHeight_px := 1, numColorPlanes := 1,
    bitsPerPixel := 8, compression := 0, imageSize_bytes := 0, xResolution_pxPm := 0,
    yResolution_pxPm := 0, numPaletteColors := 0, numImportantColors := 0,
    redMask := 0, greenMask := 0, blueMask := 0, alphaMask := 0, colorSpaceMagic := 0 }

/-- The 54 header bytes of an 8-bit image of 1 by 1 pixel with 256 declared palette colours
(pixel offset 1078, header size 40, BI_RGB). -/
def sampleFullPaletteHeader : List Byte :=
  [0x42, 0x4D, 0, 0, 0, 0, 0, 0, 0, 0, 0x36, 0x04, 0, 0,
   40, 0, 0, 0, 1, 0, 0, 0, 1, 0, 0, 0, 1, 0, 8, 0, 0, 0, 0, 0,
   0, 0, 0, 0, 0, 0, 0, 0, 0, 0, 0, 0, 0, 1, 0, 0, 0, 0, 0, 0]

/-- A complete 1082-byte file for `sampleFullPaletteHeader`: the header, 256 palette entries
of four zero bytes and one row of four zero bytes. -/
def sampleFullPalette : List Byte :=
  sampleFullPaletteHeader ++ List.replicate 1024 0 ++ [0, 0, 0, 0]

/-- A 58-byte 8-bit image of 1 by 1 pixel with 0 declared palette colours: "BM", pixel
offset 54, header size 40, BI_RGB, then one row holding the index 0 and three padding
bytes. -/
def sampleNoPalette : List Byte :=
  [0x42, 0x4D, 0, 0, 0, 0, 0, 0, 0, 0, 54, 0, 0, 0,
   40, 0, 0, 0, 1, 0, 0, 0, 1, 0, 0, 0, 1, 0, 8, 0, 0, 0, 0, 0,
   0, 0, 0, 0, 0, 0, 0, 0, 0, 0, 0, 0, 0, 0, 0, 0, 0, 0, 0, 0,
   0, 0, 0, 0]

/-- The 54 header bytes of a 24-bit image 5592407 pixels wide and 1 high (pixel offset 54,
header size 40, BI_RGB); the width field holds 0x00555557. -/
def sampleWide24Header : List Byte :=
  [0x42, 0x4D, 0, 0, 0, 0, 0, 0, 0, 0, 54, 0, 0, 0,
   40, 0, 0, 0, 0x57, 0x55, 0x55, 0, 1, 0, 0, 0, 1, 0, 24, 0, 0, 0, 0, 0,
   0, 0, 0, 0, 0, 0, 0, 0, 0, 0, 0, 0, 0, 0, 0, 0, 0, 0, 0, 0]

/-- A complete file for `sampleWide24Header`: the header followed by one row of
`ceil(24 * 5592407 / 32) * 4 = 16777224` bytes (16777221 pixel bytes and 3 padding bytes),
all zero. -/
def sampleWide24 : List Byte := sampleWide24Header ++ List.replicate 16777224 0

/-! ## utility.cpp -/

/-- The read `bytes[idx]` of a `char` buffer; `bytes` lists the bytes of the object that the
pointer designates, an index outside it is undefined behaviour. -/
def bufferGet (bytes : List Byte) (idx : Int) : Except Fault Byte :=
  if idx < 0 then .error .undefined
  else
    match bytes[idx.toNat]? with
    | none => .error .undefined
    | some b => .ok b

/-- The assignment `bytes[idx] = value` to a `char` buffer; an index outside the buffer is
undefined behaviour. -/
def bufferSet (bytes : List Byte) (idx : Int) (value : Byte) : Except Fault (List Byte) :=
  if idx < 0 ∨ bytes.length ≤ idx.toNat then .error .undefined
  else .ok (bytes.set idx.toNat value)

/-- The loop `for(int i = 0; i < swaps; ++i)` of `reverseBytes`, with its three statements
`tmp = bytes[i]; bytes[i] = bytes[count - 1 - i]; bytes[count - i] = tmp;`; `remaining`
iterations are left. -/
def reverseBytesLoop (count : Int) : Nat → Int → List Byte → Except Fault (List Byte)
  | 0, _, bytes => .ok bytes
  | remaining + 1, i, bytes =>
    match bufferGet bytes i with
    | .error e => .error e
    | .ok tmp =>
      match bufferGet bytes (count - 1 - i) with
      | .error e => .error e
      | .ok b =>
        match bufferSet bytes i b with
        | .error e => .error e
        | .ok bytes1 =>
          match bufferSet bytes1 (count - i) tmp with
          | .error e => .error e
          | .ok bytes2 => reverseBytesLoop count remaining (i + 1) bytes2

/-- The function `reverseBytes(char* bytes, int count)`:
`swaps = ((count % 2) == 1) ? (count - 1) / 2 : count / 2` with the truncating division and
remainder of C++, then the loop.  Returns the buffer after the call. -/
def reverseBytes (bytes : List Byte) (count : Int) : Except Fault (List Byte) :=
  let swaps := if count.tmod 2 = 1 then (count - 1).tdiv 2 else count.tdiv 2
  reverseBytesLoop count swaps.toNat 0 bytes

/-- Memory layout of the `size`-byte unsigned integer `value` on the host, lowest address
first: least significant byte first on a little-endian host, last on a big-endian one. -/
def hostBytes (hostLittle : Bool) (size value : Nat) : List Byte :=
  if hostLittle then (List.range size).map fun i => toUInt8 (value / 256 ^ i)
  else ((List.range size).map fun i => toUInt8 (value / 256 ^ i)).reverse

/-- The read `*(reinterpret_cast<T*>(buffer))` of a `size`-byte unsigned integer from the
start of the buffer, in the byte order of the host; a buffer shorter than `size` is read
beyond its end. -/
def hostValue (hostLittle : Bool) (size : Nat) (buffer : List Byte) : Except Fault Nat :=
  if buffer.length < size then .error .undefined
  else .ok (if hostLittle then leValue (buffer.take size)
            else leValue (buffer.take size).reverse)

/-- The function `isSystemLittleEndian`: the byte at the lowest address of a `uint32_t`
holding 1, converted to `bool`. -/
def isSystemLittleEndian (hostLittle : Bool) : Bool :=
  decide ((hostBytes hostLittle 4 1).getD 0 0 ≠ 0)

/-- Reinterpretation of a `bits`-bit pattern as a signed integer (two's complement). -/
def toSigned (bits u : Nat) : Int :=
  if u % 2 ^ bits < 2 ^ (bits - 1) then ((u % 2 ^ bits : Nat) : Int)
  else ((u % 2 ^ bits : Nat) : Int) - 2 ^ bits

/-- The common body of the six `extractLittleEndian...` functions for a type of `size`
bytes: `if(!isSystemLittleEndian()) reverseBytes(buffer, sizeof(T));` and the read of the
value.  Returns the unsigned value read and the buffer after the call. -/
def extractLittleEndian (hostLittle : Bool) (size : Nat) (buffer : List Byte) :
    Except Fault (Nat × List Byte) :=
  match (if isSystemLittleEndian hostLittle = false then reverseBytes buffer (size : Int)
         else .ok buffer) with
  | .error e => .error e
  | .ok buffer1 =>
    match hostValue hostLittle size buffer1 with
    | .error e => .error e
    | .ok value => .ok (value, buffer1)

/-- The function `extractLittleEndianUint16`. -/
def extractLittleEndianUint16 (hostLittle : Bool) (buffer : List Byte) :
    Except Fault (Nat × List Byte) :=
  extractLittleEndian hostLittle 2 buffer

/-- The function `extractLittleEndianUint32`. -/
def extractLittleEndianUint32 (hostLittle : Bool) (buffer : List Byte) :
    Except Fault (Nat × List Byte) :=
  extractLittleEndian hostLittle 4 buffer

/-- The function `extractLittleEndianUint64`. -/
def extractLittleEndianUint64 (hostLittle : Bool) (buffer : List Byte) :
    Except Fault (Nat × List Byte) :=
  extractLittleEndian hostLittle 8 buffer

/-- The function `extractLittleEndianInt16`. -/
def extractLittleEndianInt16 (hostLittle : Bool) (buffer : List Byte) :
    Except Fault (Int × List Byte) :=
  match extractLittleEndian hostLittle 2 buffer with
  | .error e => .error e
  | .ok (value, buffer1) => .ok (toSigned 16 value, buffer1)

/-- The function `extractLittleEndianInt32`. -/
def extractLittleEndianInt32 (hostLittle : Bool) (buffer : List Byte) :
    Except Fault (Int × List Byte) :=
  match extractLittleEndian hostLittle 4 buffer with
  | .error e => .error e
  | .ok (value, buffer1) => .ok (toSigned 32 value, buffer1)

/-- The function `extractLittleEndianInt64`. -/
def extractLittleEndianInt64 (hostLittle : Bool) (buffer : List Byte) :
    Except Fault (Int × List Byte) :=
  match extractLittleEndian hostLittle 8 buffer with
  | .error e => .error e
  | .ok (value, buffer1) => .ok (toSigned 64 value, buffer1)

/-! # Properties -/

theorem leValue_replicate_zero (k : Nat) : leValue (List.replicate k (0 : Byte)) = 0 := by
  induction k with
  | zero => rfl
  | succ k ih => simp [List.replicate_succ, leValue, ih]

theorem leValue_append_zeros (l : List Byte) (k : Nat) :
    leValue (l ++ List.replicate k 0) = leValue l := by
  induction l with
  | nil => simpa using leValue_replicate_zero k
  | cons b bs ih => simp [leValue, ih]

theorem readField_seqState (data : List Byte) (o n : Nat) :
    readField (seqState data o) n = (fieldAt data o n, seqState data (o + n)) := by
  unfold readField seqState IfStream.read fieldAt
  by_cases h : data.length < o
  · have h1 : List.drop o data = [] := List.drop_eq_nil_of_le (by omega)
    have h2 : min o data.length = data.length := by omega
    have h3 : min (o + n) data.length = data.length := by omega
    have h4 : data.length < o + n := by omega
    simp [h, h1, h2, h3, h4, leValue_replicate_zero, leValue]
  · have h2 : min o data.length = o := by omega
    simp only [h, decide_False, Bool.false_eq_true, if_false, h2]
    have hl : (List.take n (List.drop o data)).length = min n (data.length - o) := by simp
    rw [List.drop_replicate, leValue_append_zeros, hl]
    congr 2
    · omega
    · simp; omega

theorem seqState_zero (data : List Byte) :
    ({ data := data, pos := 0, failed := false } : IfStream) = seqState data 0 := by
  simp [seqState]

theorem readCommonHeaders_seq (data : List Byte) (m : Nat) :
    readCommonHeaders (seqState data 2) m =
      ({ parsedFileHeader data with fileMagic := m }, parsedCommon data, seqState data 54) := by
  simp [readCommonHeaders, readField_seqState, parsedFileHeader, parsedCommon]

theorem readExtensions_seq (data : List Byte) :
    (readExtensions (parsedCommon data) (seqState data 54)).1 = parsedInfo data ∧
    (readExtensions (parsedCommon data) (seqState data 54)).2.1 = seqState data (headerEnd data) ∧
    ((readExtensions (parsedCommon data) (seqState data 54)).2.2.2 = true →
      (readExtensions (parsedCommon data) (seqState data 54)).2.2.1 = parsedVersion data) ∧
    ((readExtensions (parsedCommon data) (seqState data 54)).2.2.2 = false ↔
      (V4INFOHEADER_SIZE_BYTES ≤ fieldAt data 14 4 ∧ fieldAt data 70 4 ≠ SRGBMAGIC)) := by
  have hc : (parsedCommon data).headerSize_bytes = fieldAt data 14 4 := rfl
  have hk : (parsedCommon data).compression = fieldAt data 30 4 := rfl
  simp only [readExtensions, hc, hk, parsedInfo, headerEnd, parsedVersion, masksRead,
    V1INFOHEADER_SIZE_BYTES, V2INFOHEADER_SIZE_BYTES, V3INFOHEADER_SIZE_BYTES,
    V4INFOHEADER_SIZE_BYTES, V5INFOHEADER_SIZE_BYTES]
  by_cases h4 : 108 ≤ fieldAt data 14 4
  · have h3 : 56 ≤ fieldAt data 14 4 := by omega
    have h2 : 52 ≤ fieldAt data 14 4 := by omega
    by_cases hs : fieldAt data 70 4 = SRGBMAGIC
    · by_cases h5 : 124 ≤ fieldAt data 14 4 <;>
        simp [h4, h3, h2, h5, hs, readField_seqState, parsedCommon]
    · simp [h4, h3, h2, hs, readField_seqState, parsedCommon]
  · by_cases h3 : 56 ≤ fieldAt data 14 4
    · have h2 : 52 ≤ fieldAt data 14 4 := by omega
      have h5 : ¬ 124 ≤ fieldAt data 14 4 := by omega
      simp [h4, h3, h2, h5, readField_seqState, parsedCommon]
    · have h5 : ¬ 124 ≤ fieldAt data 14 4 := by omega
      by_cases h2 : 52 ≤ fieldAt data 14 4
      · simp [h4, h3, h2, h5, readField_seqState, parsedCommon]
      · by_cases h1 : fieldAt data 14 4 = 40 ∧ fieldAt data 30 4 = BI_BITFIELDS
        · simp [h4, h3, h2, h5, h1, readField_seqState, parsedCommon]
        · simp [h4, h3, h2, h5, h1, readField_seqState, parsedCommon]

theorem load_eq (junk : Nat → Byte) (fuel : Nat) (data : List Byte) (self : BmpImage) :
    load junk fuel (some data) self =
      if fieldAt data 0 2 ≠ BMPMAGIC then .ok (-1, self)
      else if V4INFOHEADER_SIZE_BYTES ≤ fieldAt data 14 4 ∧ fieldAt data 70 4 ≠ SRGBMAGIC then
        .ok (-1, self)
      else if fieldAt data 30 4 ≠ BI_RGB ∧ fieldAt data 30 4 ≠ BI_BITFIELDS then .ok (-1, self)
      else
        match dispatch junk fuel (seqState data (headerEnd data)) (parsedFileHeader data)
            (parsedInfo data) (parsedVersion data) self.pixels with
        | .error e => .error e
        | .ok pixels =>
          .ok (0, { pixels := pixels, width_px := toInt32 (fieldAt data 18 4),
                    height_px := toInt32 (fieldAt data 22 4) }) := by
  obtain ⟨e1, e2, e3, e4⟩ := readExtensions_seq data
  have hfh : ({ parsedFileHeader data with fileMagic := fieldAt data 0 2 } : FileHeader) =
      parsedFileHeader data := rfl
  simp only [load, seqState_zero, readField_seqState, Nat.zero_add, readCommonHeaders_seq, hfh]
  by_cases hm : fieldAt data 0 2 = BMPMAGIC
  · simp only [hm, ne_eq, not_true_eq_false, if_false]
    by_cases hcs : V4INFOHEADER_SIZE_BYTES ≤ fieldAt data 14 4 ∧ fieldAt data 70 4 ≠ SRGBMAGIC
    · rw [if_pos (e4.mpr hcs), if_pos hcs]
    · have hb : (readExtensions (parsedCommon data) (seqState data 54)).2.2.2 = true := by
        cases hx : (readExtensions (parsedCommon data) (seqState data 54)).2.2.2
        · exact absurd (e4.mp hx) hcs
        · rfl
      rw [if_neg (by simp [hb]), if_neg hcs, e1, e2, e3 hb]
      rfl
  · simp [hm]

theorem fieldAt_magic_iff (data : List Byte) :
    fieldAt data 0 2 = BMPMAGIC ↔ data.take 2 = [0x42, 0x4D] := by
  unfold fieldAt BMPMAGIC
  match data with
  | [] => simp [leValue]
  | [a] =>
    have := a.isLt
    simp [leValue]
    omega
  | a :: b :: rest =>
    have ha := a.isLt
    have hb := b.isLt
    simp only [List.drop_zero, List.take_succ_cons, List.take_zero, leValue, List.cons.injEq,
      and_true, mul_zero, add_zero]
    constructor
    · intro h
      constructor <;> apply Fin.ext <;> show _ = _ <;> omega
    · rintro ⟨rfl, rfl⟩
      rfl

/-! ## Rejections made by `load` -/

/-- C7: for every file whose first two bytes are not "BM" (files shorter than two bytes
included), `load` returns -1 and leaves the object as it was, whatever the other bytes. -/
theorem load_rejects_bad_magic (junk : Nat → Byte) (fuel : Nat) (data : List Byte)
    (self : BmpImage) (h : data.take 2 ≠ [0x42, 0x4D]) :
    load junk fuel (some data) self = .ok (-1, self) := by
  rw [load_eq, if_pos]
  exact fun hm => h ((fieldAt_magic_iff data).mp hm)

theorem load_rejects_bad_magic_witness :
    sampleBadMagic.take 2 ≠ [0x42, 0x4D] ∧
      load sampleJunk 0 (some sampleBadMagic) freshImage = .ok (-1, freshImage) :=
  ⟨by decide, load_rejects_bad_magic sampleJunk 0 sampleBadMagic freshImage (by decide)⟩

/-- C8: for every file that starts with "BM" and whose compression field (the four bytes at
offset 30) is neither `BI_RGB` nor `BI_BITFIELDS`, `load` returns -1 and the object, its
pixel vector included, is unchanged; header size and bit depth are arbitrary. -/
theorem load_rejects_unsupported_compression (junk : Nat → Byte) (fuel : Nat)
    (data : List Byte) (self : BmpImage) (hm : data.take 2 = [0x42, 0x4D])
    (h0 : fieldAt data 30 4 ≠ BI_RGB) (h3 : fieldAt data 30 4 ≠ BI_BITFIELDS) :
    load junk fuel (some data) self = .ok (-1, self) := by
  rw [load_eq, if_neg (by simpa using (fieldAt_magic_iff data).mpr hm)]
  by_cases hcs : V4INFOHEADER_SIZE_BYTES ≤ fieldAt data 14 4 ∧ fieldAt data 70 4 ≠ SRGBMAGIC
  · rw [if_pos hcs]
  · rw [if_neg hcs, if_pos ⟨h0, h3⟩]

theorem load_rejects_unsupported_compression_witness :
    load sampleJunk 0 (some sampleCompressed) freshImage = .ok (-1, freshImage) :=
  load_rejects_unsupported_compression sampleJunk 0 sampleCompressed freshImage
    (by decide) (by decide) (by decide)

/-- C9: for every file that starts with "BM": when the declared header size is at least the
version-4 size and the colour-space tag (the four bytes at offset 70) is not `SRGBMAGIC`,
`load` returns -1; when the declared size is below the version-4 size, `load` returns -1
exactly when the compression field is unsupported, so no byte of the tag can reject the
file. -/
theorem load_color_space_gate (junk : Nat → Byte) (fuel : Nat) (data : List Byte)
    (self : BmpImage) (hm : data.take 2 = [0x42, 0x4D]) :
    (V4INFOHEADER_SIZE_BYTES ≤ fieldAt data 14 4 → fieldAt data 70 4 ≠ SRGBMAGIC →
      load junk fuel (some data) self = .ok (-1, self)) ∧
    (fieldAt data 14 4 < V4INFOHEADER_SIZE_BYTES →
      ((∃ img, load junk fuel (some data) self = .ok (-1, img)) ↔
        (fieldAt data 30 4 ≠ BI_RGB ∧ fieldAt data 30 4 ≠ BI_BITFIELDS))) := by
  have hmag : ¬ fieldAt data 0 2 ≠ BMPMAGIC := by simpa using (fieldAt_magic_iff data).mpr hm
  constructor
  · intro h4 hcs
    rw [load_eq, if_neg hmag, if_pos ⟨h4, hcs⟩]
  · intro h4
    have hcs : ¬ (V4INFOHEADER_SIZE_BYTES ≤ fieldAt data 14 4 ∧ fieldAt data 70 4 ≠ SRGBMAGIC) :=
      fun h => absurd h.1 (by omega)
    rw [load_eq, if_neg hmag, if_neg hcs]
    constructor
    · rintro ⟨img, himg⟩
      by_contra hc
      rw [if_neg hc] at himg
      cases hd : dispatch junk fuel (seqState data (headerEnd data)) (parsedFileHeader data)
        (parsedInfo data) (parsedVersion data) self.pixels with
      | error e => simp [hd] at himg
      | ok pixels =>
        simp only [hd, Except.ok.injEq, Prod.mk.injEq] at himg
        exact absurd himg.1 (by decide)
    · intro hc
      exact ⟨self, by rw [if_pos hc]⟩

theorem load_color_space_gate_witness :
    load sampleJunk 0 (some sampleBadColorSpace) freshImage = .ok (-1, freshImage) :=
  (load_color_space_gate sampleJunk 0 sampleBadColorSpace freshImage (by decide)).1
    (by decide) (by decide)

/-- C10 (the code departs from the claim): the file `sampleDepth3` starts with "BM", uses
`BI_RGB` and declares 3 bits per pixel; `load` returns 0 (success), appends no pixel and
stores the declared width and height. -/
theorem load_accepts_depth_three (junk : Nat → Byte) (fuel : Nat) :
    fieldAt sampleDepth3 28 2 = 3 ∧
      load junk fuel (some sampleDepth3) freshImage =
        .ok (0, { pixels := [], width_px := 1, height_px := 1 }) := by
  constructor
  · decide
  · rfl

/-! ## Channel shifts -/

theorem and_one_shiftLeft_eq_zero_iff (m i : Nat) :
    m &&& (1 <<< i) = 0 ↔ m.testBit i = false := by
  rw [Nat.one_shiftLeft]
  constructor
  · intro h
    have := congrArg (fun x => x.testBit i) h
    simpa [Nat.testBit_two_pow_self] using this
  · intro h
    apply Nat.eq_of_testBit_eq
    intro j
    by_cases hij : i = j
    · subst hij; simp [h]
    · simp [Nat.testBit_two_pow_of_ne hij]

theorem shiftLoop_of_lowest (mask s : Nat) (hs : IsLowestSetBit mask s) :
    ∀ budget shift, shift ≤ s → s < shift + budget → shiftLoop mask budget shift = .ok s := by
  intro budget
  induction budget with
  | zero => intro shift h1 h2; omega
  | succ b ih =>
    intro shift h1 h2
    unfold shiftLoop
    by_cases hb : mask.testBit shift = false
    · have hne : shift ≠ s := by
        intro he; subst he; rw [hs.1] at hb; exact absurd hb (by decide)
      rw [if_pos ((and_one_shiftLeft_eq_zero_iff mask shift).mpr hb)]
      exact ih (shift + 1) (by omega) (by omega)
    · have hlt : ¬ shift < s := fun hlt => hb (hs.2 shift hlt)
      have he : shift = s := by omega
      rw [if_neg (fun h => hb ((and_one_shiftLeft_eq_zero_iff mask shift).mp h)), he]

theorem exists_lowestSetBit (mask : Nat) (h0 : mask ≠ 0) (h32 : mask < 2 ^ 32) :
    ∃ s, s < 32 ∧ IsLowestSetBit mask s := by
  have hex : ∃ i, mask.testBit i = true := Nat.ne_zero_implies_bit_true h0
  refine ⟨Nat.find hex, ?_, Nat.find_spec hex, ?_⟩
  · by_contra hge
    have h1 : mask < 2 ^ Nat.find hex :=
      lt_of_lt_of_le h32 (Nat.pow_le_pow_right (by decide) (by omega))
    have h2 := Nat.testBit_lt_two_pow h1
    rw [Nat.find_spec hex] at h2
    exact absurd h2 (by decide)
  · intro j hj
    have := Nat.find_min hex hj
    simpa using this

theorem lowestSetBit_unique (mask s t : Nat) (hs : IsLowestSetBit mask s)
    (ht : IsLowestSetBit mask t) : s = t := by
  rcases Nat.lt_trichotomy s t with h | h | h
  · have := ht.2 s h; rw [hs.1] at this; exact absurd this (by decide)
  · exact h
  · have := hs.2 t h; rw [ht.1] at this; exact absurd this (by decide)

/-! ## The pixel loops of the direct path -/

theorem pixelBytesLoop_eq (row : List Byte) (base : Nat) :
    ∀ count k raw, base + k + count ≤ row.length → (k + count) * 8 ≤ 32 → raw < 2 ^ (8 * k) →
      pixelBytesLoop row base count k raw =
        .ok (raw + 2 ^ (8 * k) * leValue ((row.drop (base + k)).take count)) := by
  intro count
  induction count with
  | zero => intro k raw _ _ _; simp [pixelBytesLoop, leValue]
  | succ c ih =>
    intro k raw h1 h2 h3
    have hlt : base + k < row.length := by omega
    have hb := row[base + k].isLt
    have hk : k ≤ 3 := by omega
    have hpow : (2 : Nat) ^ (8 * k) ≤ 2 ^ 24 := Nat.pow_le_pow_right (by decide) (by omega)
    have hsmall : row[base + k].val * 2 ^ (8 * k) < 2 ^ 32 := by
      calc row[base + k].val * 2 ^ (8 * k) ≤ 255 * 2 ^ 24 :=
            Nat.mul_le_mul (by omega) hpow
        _ < 2 ^ 32 := by decide
    have hor : raw ||| row[base + k].val * 2 ^ (8 * k) =
        raw + 2 ^ (8 * k) * row[base + k].val := by
      rw [Nat.lor_comm, Nat.mul_comm, ← Nat.mul_add_lt_is_or h3, Nat.add_comm]
    unfold pixelBytesLoop
    simp only [List.getElem?_eq_getElem hlt]
    rw [if_neg (by omega), Nat.shiftLeft_eq, Nat.mul_comm k 8, Nat.mod_eq_of_lt hsmall, hor]
    rw [ih (k + 1) _ (by omega) (by omega)]
    · rw [List.drop_eq_getElem_cons hlt]
      simp only [List.take_succ_cons, leValue]
      have : base + k + 1 = base + (k + 1) := by omega
      rw [this]
      have hp : (2 : Nat) ^ (8 * (k + 1)) = 2 ^ (8 * k) * 256 := by
        rw [Nat.mul_add, Nat.pow_add]
      rw [hp]
      congr 1
      ring
    · have hp : (2 : Nat) ^ (8 * (k + 1)) = 2 ^ (8 * k) * 256 := by
        rw [Nat.mul_add, Nat.pow_add]
      rw [hp]
      have : 2 ^ (8 * k) * row[base + k].val ≤ 2 ^ (8 * k) * 255 :=
        Nat.mul_le_mul_left _ (by omega)
      omega

theorem pixelLoop_eq (infoHead : InfoHeader) (rs gs bs as : Nat) (row : List Byte)
    (psz : Nat) (hpsz : psz ≤ 4) :
    ∀ count j pixels, (j + count) * psz ≤ row.length →
      pixelLoop infoHead rs gs bs as row psz count j pixels =
        .ok (pixels ++ (List.range' j count).map fun i =>
          maskedColor infoHead rs gs bs as (leValue ((row.drop (i * psz)).take psz))) := by
  intro count
  induction count with
  | zero => intro j pixels _; simp [pixelLoop]
  | succ c ih =>
    intro j pixels h
    have h1 : j * psz + psz ≤ row.length := by
      have : (j + 1) * psz ≤ (j + (c + 1)) * psz := Nat.mul_le_mul_right _ (by omega)
      rw [Nat.add_mul, Nat.one_mul] at this
      omega
    unfold pixelLoop
    rw [pixelBytesLoop_eq row (j * psz) psz 0 0 (by omega) (by omega) (by simp)]
    simp only [Nat.mul_zero, Nat.pow_zero, Nat.one_mul, Nat.zero_add, Nat.add_zero]
    rw [ih (j + 1) _ (by rw [show j + 1 + c = j + (c + 1) by omega]; exact h)]
    simp [List.range'_succ]

/-! ## Range checks -/

theorem checkInt_ok (x : Int) (h1 : -2147483648 ≤ x) (h2 : x < 2147483648) :
    checkInt x = .ok x := by
  unfold checkInt
  rw [if_pos]
  omega

theorem checkInt_ok_nat (x : Nat) (h2 : x < 2147483648) : checkInt (x : Int) = .ok (x : Int) := by
  apply checkInt_ok <;> omega

theorem checkInt_error (x : Int) (h : 2147483648 ≤ x) : checkInt x = .error .undefined := by
  unfold checkInt
  rw [if_neg]
  omega

theorem toInt32_of_lt (u : Nat) (h : u < 2147483648) : toInt32 u = (u : Int) := by
  unfold toInt32
  have h1 : u % 2 ^ 32 = u := Nat.mod_eq_of_lt (by norm_num; omega)
  rw [h1, if_pos (by norm_num; omega)]

/-! ## Reading rows -/

theorem seekg_read_row (s : IfStream) (hs : s.failed = false) (p : Int) (hp : 0 ≤ p)
    (n : Nat) (buf : List Byte) (hbuf : buf.length = n) (hfit : p.toNat + n ≤ s.data.length) :
    (s.seekg p).read buf n =
      ((s.data.drop p.toNat).take n,
        { data := s.data, pos := p.toNat + n, failed := false }) := by
  have hl : (List.take n (List.drop p.toNat s.data)).length = n := by
    simp; omega
  have hd : List.drop n buf = [] := List.drop_eq_nil_of_le (by omega)
  simp [IfStream.seekg, IfStream.read, hs, not_lt.mpr hp, hl, hd]

theorem rowsRead_succ (data : List Byte) (S : Nat) (seekPos ro : Int) (count : Nat) :
    rowsRead data S seekPos ro (count + 1) =
      (data.drop seekPos.toNat).take S :: rowsRead data S (seekPos + ro) ro count := by
  unfold rowsRead
  rw [List.range_succ_eq_map]
  simp only [List.map_cons, List.map_map, Nat.cast_zero, zero_mul, add_zero]
  congr 1
  apply List.map_congr_left
  intro k _
  simp only [Function.comp, Nat.cast_succ]
  congr 3
  ring

theorem rowLoop_eq (infoHead : InfoHeader) (rs gs bs as psz S : Nat) (ro : Int) :
    ∀ count (file : IfStream) (row : List Byte) (seekPos : Int) (pixels : List Color4),
      file.failed = false → row.length = S →
      (∀ k : Nat, k < count →
        0 ≤ seekPos + k * ro ∧ (seekPos + k * ro).toNat + S ≤ file.data.length) →
      (∀ k : Nat, k ≤ count →
        -2147483648 ≤ seekPos + k * ro ∧ seekPos + k * ro < 2147483648) →
      rowLoop infoHead rs gs bs as psz (S : Int) ro count file row seekPos pixels =
        decodeRows (directRowDecoder infoHead rs gs bs as psz)
          (rowsRead file.data S seekPos ro count) pixels := by
  intro count
  induction count with
  | zero => intro file row seekPos pixels _ _ _ _; simp [rowLoop, rowsRead, decodeRows]
  | succ c ih =>
    intro file row seekPos pixels hf hrow hfit hrange
    have h0 := hfit 0 (by omega)
    simp only [Nat.cast_zero, zero_mul, add_zero] at h0
    have h1 := hrange 1 (by omega)
    simp only [Nat.cast_one, one_mul] at h1
    unfold rowLoop
    simp only [Int.toNat_ofNat]
    rw [seekg_read_row file hf seekPos h0.1 S row hrow h0.2, rowsRead_succ]
    simp only [decodeRows, directRowDecoder]
    cases hD : pixelLoop infoHead rs gs bs as (List.take S (List.drop seekPos.toNat file.data))
        psz infoHead.bmpWidth_px.toNat 0 pixels with
    | error e => rfl
    | ok pixels1 =>
      rw [checkInt_ok _ h1.1 h1.2]
      simp only []
      have hlen : (List.take S (List.drop seekPos.toNat file.data)).length = S := by
        simp; omega
      refine ih _ _ _ _ rfl hlen ?_ ?_
      · intro k hk
        have := hfit (k + 1) (by omega)
        simp only [Nat.cast_succ] at this
        have e : seekPos + ro + k * ro = seekPos + (k + 1) * ro := by ring
        rw [e]; exact this
      · intro k hk
        have := hrange (k + 1) (by omega)
        simp only [Nat.cast_succ] at this
        have e : seekPos + ro + k * ro = seekPos + (k + 1) * ro := by ring
        rw [e]; exact this

theorem palettedRowLoop_eq (infoHead : InfoHeader) (palette : List Color4)
    (ppb mask S : Nat) (ro : Int) :
    ∀ count (file : IfStream) (row : List Byte) (seekPos : Int) (pixels : List Color4),
      file.failed = false → row.length = S →
      (∀ k : Nat, k < count →
        0 ≤ seekPos + k * ro ∧ (seekPos + k * ro).toNat + S ≤ file.data.length) →
      (∀ k : Nat, k ≤ count →
        -2147483648 ≤ seekPos + k * ro ∧ seekPos + k * ro < 2147483648) →
      palettedRowLoop infoHead palette ppb mask (S : Int) ro count file row seekPos pixels =
        decodeRows (palettedRowDecoder infoHead palette ppb mask)
          (rowsRead file.data S seekPos ro count) pixels := by
  intro count
  induction count with
  | zero => intro file row seekPos pixels _ _ _ _; simp [palettedRowLoop, rowsRead, decodeRows]
  | succ c ih =>
    intro file row seekPos pixels hf hrow hfit hrange
    have h0 := hfit 0 (by omega)
    simp only [Nat.cast_zero, zero_mul, add_zero] at h0
    have h1 := hrange 1 (by omega)
    simp only [Nat.cast_one, one_mul] at h1
    unfold palettedRowLoop
    simp only [Int.toNat_ofNat]
    rw [seekg_read_row file hf seekPos h0.1 S row hrow h0.2, rowsRead_succ]
    simp only [decodeRows, palettedRowDecoder]
    cases hb : (List.take S (List.drop seekPos.toNat file.data))[0]? with
    | none => rfl
    | some byte =>
      simp only []
      cases hD : indexLoop infoHead palette (List.take S (List.drop seekPos.toNat file.data))
          ppb mask infoHead.bmpWidth_px.toNat 0 0 byte pixels with
      | error e => rfl
      | ok pixels1 =>
        rw [checkInt_ok _ h1.1 h1.2]
        simp only []
        have hlen : (List.take S (List.drop seekPos.toNat file.data)).length = S := by
          simp; omega
        refine ih _ _ _ _ rfl hlen ?_ ?_
        · intro k hk
          have := hfit (k + 1) (by omega)
          simp only [Nat.cast_succ] at this
          have e : seekPos + ro + k * ro = seekPos + (k + 1) * ro := by ring
          rw [e]; exact this
        · intro k hk
          have := hrange (k + 1) (by omega)
          simp only [Nat.cast_succ] at this
          have e : seekPos + ro + k * ro = seekPos + (k + 1) * ro := by ring
          rw [e]; exact this

theorem decodeRows_ok (D : List Byte → List Color4 → Except Fault (List Color4))
    (g : List Byte → List Color4) :
    ∀ (rows : List (List Byte)) (pixels : List Color4),
      (∀ row ∈ rows, ∀ px, D row px = .ok (px ++ g row)) →
      decodeRows D rows pixels = .ok (pixels ++ rows.flatMap g) := by
  intro rows
  induction rows with
  | nil => intro pixels _; simp [decodeRows]
  | cons row rows ih =>
    intro pixels h
    unfold decodeRows
    rw [h row (List.mem_cons_self _ _)]
    simp only []
    rw [ih _ (fun r hr px => h r (List.mem_cons_of_mem _ hr) px)]
    simp [List.flatMap_cons]

theorem decodeRows_congr (D D1 : List Byte → List Color4 → Except Fault (List Color4)) :
    ∀ (rows rows1 : List (List Byte)) (pixels : List Color4),
      rows.length = rows1.length →
      (∀ i px, i < rows.length → D (rows.getD i []) px = D1 (rows1.getD i []) px) →
      decodeRows D rows pixels = decodeRows D1 rows1 pixels := by
  intro rows
  induction rows with
  | nil =>
    intro rows1 pixels hl _
    cases rows1 with
    | nil => rfl
    | cons _ _ => simp at hl
  | cons row rows ih =>
    intro rows1 pixels hl h
    cases rows1 with
    | nil => simp at hl
    | cons row1 rows1 =>
      unfold decodeRows
      have h0 := h 0 pixels (by simp)
      simp only [List.getD_cons_zero] at h0
      rw [h0]
      cases D1 row1 pixels with
      | error e => rfl
      | ok px =>
        simp only []
        apply ih
        · simpa using hl
        · intro i px1 hi
          have := h (i + 1) px1 (by simp; omega)
          simpa using this

theorem rowPlan_error (fileHead : FileHeader) (infoHead : InfoHeader) (S : Int)
    (h : 2147483648 ≤ infoHead.bmpHeight_px.natAbs) :
    rowPlan fileHead infoHead S = .error .undefined := by
  unfold rowPlan
  rw [Int.abs_eq_natAbs, checkInt_error _ (by omega)]

theorem rowPlan_bottom (fileHead : FileHeader) (infoHead : InfoHeader) (S : Nat)
    (hn : infoHead.bmpHeight_px.natAbs < 2147483648)
    (hpo : fileHead.pixelOffset_bytes < 2147483648) (hneg : ¬ infoHead.bmpHeight_px < 0) :
    rowPlan fileHead infoHead (S : Int) =
      .ok ((infoHead.bmpHeight_px.natAbs : Int), (fileHead.pixelOffset_bytes : Int),
        (S : Int)) := by
  unfold rowPlan
  rw [Int.abs_eq_natAbs, checkInt_ok_nat _ hn, toInt32_of_lt _ hpo]
  simp only [hneg, if_false]

theorem rowPlan_top (fileHead : FileHeader) (infoHead : InfoHeader) (S : Nat)
    (hn : infoHead.bmpHeight_px.natAbs < 2147483648)
    (hpo : fileHead.pixelOffset_bytes + infoHead.bmpHeight_px.natAbs * S < 2147483648)
    (hS : S < 2147483648)
    (hneg : infoHead.bmpHeight_px < 0) :
    rowPlan fileHead infoHead (S : Int) =
      .ok ((infoHead.bmpHeight_px.natAbs : Int),
        ((fileHead.pixelOffset_bytes + (infoHead.bmpHeight_px.natAbs - 1) * S : Nat) : Int),
        -(S : Int)) := by
  have hn1 : 1 ≤ infoHead.bmpHeight_px.natAbs := by omega
  have hmul : (infoHead.bmpHeight_px.natAbs - 1) * S + S = infoHead.bmpHeight_px.natAbs * S := by
    rw [Nat.sub_mul, Nat.one_mul]
    have : S ≤ infoHead.bmpHeight_px.natAbs * S := Nat.le_mul_of_pos_left S hn1
    omega
  have e1 : ((infoHead.bmpHeight_px.natAbs : Int) - 1) * (S : Int) =
      (((infoHead.bmpHeight_px.natAbs - 1) * S : Nat) : Int) := by
    rw [Nat.cast_mul, Nat.cast_sub hn1, Nat.cast_one]
  have e2 : (fileHead.pixelOffset_bytes : Int) +
      (((infoHead.bmpHeight_px.natAbs - 1) * S : Nat) : Int) =
      ((fileHead.pixelOffset_bytes + (infoHead.bmpHeight_px.natAbs - 1) * S : Nat) : Int) := by
    rw [Nat.cast_add]
  have e3 : (S : Int) * -1 = -(S : Int) := by ring
  unfold rowPlan
  rw [Int.abs_eq_natAbs, checkInt_ok_nat _ hn, toInt32_of_lt _ (by omega)]
  simp only [hneg, if_true]
  rw [e1, checkInt_ok_nat _ (by omega)]
  simp only []
  rw [e2, checkInt_ok_nat _ (by omega)]
  simp only []
  rw [e3, checkInt_ok _ (by omega) (by omega)]

/-! ## Row positions -/

theorem rows_up (po n S k len : Nat) (hfit : po + n * S ≤ len) (hk : k < n) :
    0 ≤ (po : Int) + (k : Int) * (S : Int) ∧
      ((po : Int) + (k : Int) * (S : Int)).toNat + S ≤ len := by
  have h1 : (k + 1) * S ≤ n * S := Nat.mul_le_mul_right S hk
  rw [Nat.add_mul, Nat.one_mul] at h1
  have e : (po : Int) + (k : Int) * (S : Int) = ((po + k * S : Nat) : Int) := by push_cast; rfl
  rw [e, Int.toNat_ofNat]
  constructor
  · exact Int.ofNat_nonneg _
  · omega

theorem rows_up_range (po n S k : Nat) (h : po + n * S < 2147483648) (hk : k ≤ n) :
    -2147483648 ≤ (po : Int) + (k : Int) * (S : Int) ∧
      (po : Int) + (k : Int) * (S : Int) < 2147483648 := by
  have h1 : k * S ≤ n * S := Nat.mul_le_mul_right S hk
  have e : (po : Int) + (k : Int) * (S : Int) = ((po + k * S : Nat) : Int) := by push_cast; rfl
  rw [e]
  constructor <;> omega

theorem rows_down_eq (po n S k : Nat) (hk : k < n) :
    ((po + (n - 1) * S : Nat) : Int) + (k : Int) * -(S : Int) =
      ((po + (n - 1 - k) * S : Nat) : Int) := by
  have h1 : k * S ≤ (n - 1) * S := Nat.mul_le_mul_right S (by omega)
  have h2 : (n - 1 - k) * S = (n - 1) * S - k * S := Nat.sub_mul _ _ _
  rw [h2]
  push_cast [Nat.cast_sub h1]
  ring

theorem rows_down (po n S k len : Nat) (hfit : po + n * S ≤ len) (hk : k < n) :
    0 ≤ ((po + (n - 1) * S : Nat) : Int) + (k : Int) * -(S : Int) ∧
      (((po + (n - 1) * S : Nat) : Int) + (k : Int) * -(S : Int)).toNat + S ≤ len := by
  have h1 : (n - 1 - k + 1) * S ≤ n * S := Nat.mul_le_mul_right S (by omega)
  rw [Nat.add_mul, Nat.one_mul] at h1
  rw [rows_down_eq po n S k hk, Int.toNat_ofNat]
  constructor
  · exact Int.ofNat_nonneg _
  · omega

theorem rows_down_range (po n S k : Nat) (h : po + n * S < 2147483648) (hk : k ≤ n)
    (hn : 1 ≤ n) :
    -2147483648 ≤ ((po + (n - 1) * S : Nat) : Int) + (k : Int) * -(S : Int) ∧
      ((po + (n - 1) * S : Nat) : Int) + (k : Int) * -(S : Int) < 2147483648 := by
  have h1 : k * S ≤ n * S := Nat.mul_le_mul_right S hk
  have h2 : (n - 1) * S + S = n * S := by
    have : (n - 1 + 1) * S = n * S := by rw [Nat.sub_add_cancel hn]
    rw [Nat.add_mul, Nat.one_mul] at this
    exact this
  have e : (k : Int) * -(S : Int) = -((k * S : Nat) : Int) := by push_cast; ring
  rw [e]
  constructor <;> omega

theorem newRow_ok (junk : Nat → Byte) (S : Nat) :
    newRow junk (S : Int) = .ok ((List.range S).map junk) := by
  unfold newRow
  rw [if_neg (by omega), Int.toNat_ofNat]

theorem newRow_neg (junk : Nat → Byte) (R : Int) (h : R < 0) :
    newRow junk R = .error .throws := by
  unfold newRow
  rw [if_pos h]

/-! ## The extractors on a readable stream -/

theorem rowsRead_plan (infoHead : InfoHeader) (fileHead : FileHeader) (S : Nat)
    (data : List Byte) (numRows po ro : Int)
    (hrange : fileHead.pixelOffset_bytes + infoHead.bmpHeight_px.natAbs * S < 2147483648)
    (hplan : rowPlan fileHead infoHead (S : Int) = .ok (numRows, po, ro)) :
    numRows = (infoHead.bmpHeight_px.natAbs : Int) ∧
    rowsRead data S po ro infoHead.bmpHeight_px.natAbs =
      fileRows data fileHead.pixelOffset_bytes S infoHead.bmpHeight_px.natAbs
        infoHead.bmpHeight_px ∧
    (∀ len, fileHead.pixelOffset_bytes + infoHead.bmpHeight_px.natAbs * S ≤ len →
      ∀ k : Nat, k < infoHead.bmpHeight_px.natAbs →
        0 ≤ po + k * ro ∧ (po + k * ro).toNat + S ≤ len) ∧
    (∀ k : Nat, k ≤ infoHead.bmpHeight_px.natAbs →
      -2147483648 ≤ po + k * ro ∧ po + k * ro < 2147483648) := by
  by_cases hn : infoHead.bmpHeight_px.natAbs < 2147483648
  · by_cases hneg : infoHead.bmpHeight_px < 0
    · have hS : S < 2147483648 := by
        have : S ≤ infoHead.bmpHeight_px.natAbs * S := Nat.le_mul_of_pos_left S (by omega)
        omega
      rw [rowPlan_top fileHead infoHead S hn hrange hS hneg] at hplan
      simp only [Except.ok.injEq, Prod.mk.injEq] at hplan
      obtain ⟨h1, h2, h3⟩ := hplan
      subst h1 h2 h3
      refine ⟨rfl, ?_, fun len hfit k hk => rows_down _ _ _ _ _ hfit hk,
        fun k hk => rows_down_range _ _ _ _ hrange hk (by omega)⟩
      unfold rowsRead fileRows rowStart
      apply List.map_congr_left
      intro k hk
      rw [rows_down_eq _ _ _ _ (List.mem_range.mp hk), Int.toNat_ofNat, if_pos hneg]
    · rw [rowPlan_bottom fileHead infoHead S hn (by omega) hneg] at hplan
      simp only [Except.ok.injEq, Prod.mk.injEq] at hplan
      obtain ⟨h1, h2, h3⟩ := hplan
      subst h1 h2 h3
      refine ⟨rfl, ?_, fun len hfit k hk => rows_up _ _ _ _ _ hfit hk,
        fun k hk => rows_up_range _ _ _ _ hrange hk⟩
      unfold rowsRead fileRows rowStart
      apply List.map_congr_left
      intro k hk
      have e : (fileHead.pixelOffset_bytes : Int) + (k : Int) * (S : Int) =
          ((fileHead.pixelOffset_bytes + k * S : Nat) : Int) := by push_cast; rfl
      rw [e, Int.toNat_ofNat, if_neg hneg]
  · rw [rowPlan_error fileHead infoHead _ (by omega)] at hplan
    cases hplan

theorem rowLoop_plan (infoHead : InfoHeader) (fileHead : FileHeader) (rs gs bs as psz S : Nat)
    (file : IfStream) (row : List Byte) (pixels : List Color4) (numRows po ro : Int)
    (hgood : file.failed = false) (hrow : row.length = S)
    (hfit : fileHead.pixelOffset_bytes + infoHead.bmpHeight_px.natAbs * S ≤ file.data.length)
    (hrange : fileHead.pixelOffset_bytes + infoHead.bmpHeight_px.natAbs * S < 2147483648)
    (hplan : rowPlan fileHead infoHead (S : Int) = .ok (numRows, po, ro)) :
    rowLoop infoHead rs gs bs as psz (S : Int) ro numRows.toNat file row po pixels =
      decodeRows (directRowDecoder infoHead rs gs bs as psz)
        (fileRows file.data fileHead.pixelOffset_bytes S infoHead.bmpHeight_px.natAbs
          infoHead.bmpHeight_px) pixels := by
  obtain ⟨h1, h2, h3, h4⟩ := rowsRead_plan infoHead fileHead S file.data numRows po ro hrange hplan
  rw [h1, Int.toNat_ofNat, ← h2]
  exact rowLoop_eq infoHead rs gs bs as psz S ro _ file row po pixels hgood hrow
    (h3 _ hfit) h4

theorem extractPixels_eq_ref (junk : Nat → Byte) (file : IfStream) (fileHead : FileHeader)
    (infoHead : InfoHeader) (pixels : List Color4) (hgood : file.failed = false)
    (hfit : RowsFit file.data fileHead infoHead) :
    extractPixels junk file fileHead infoHead pixels =
      extractPixelsRef file.data fileHead infoHead pixels := by
  unfold extractPixels extractPixelsRef
  cases hS : rowSizeBytes infoHead with
  | error e => rfl
  | ok R =>
    simp only []
    cases hplan : rowPlan fileHead infoHead R with
    | error e => rfl
    | ok t =>
      obtain ⟨numRows, po, ro⟩ := t
      simp only []
      cases shiftLoop infoHead.redMask 32 0 with
      | error e => rfl
      | ok rs =>
        simp only []
        cases shiftLoop infoHead.greenMask 32 0 with
        | error e => rfl
        | ok gs =>
          simp only []
          cases shiftLoop infoHead.blueMask 32 0 with
          | error e => rfl
          | ok bs =>
            simp only []
            cases (if infoHead.alphaMask ≠ 0 then shiftLoop infoHead.alphaMask 32 0
                   else Except.ok 0) with
            | error e => rfl
            | ok as =>
              simp only []
              cases reservePixels infoHead numRows with
              | error e => rfl
              | ok u =>
                simp only []
                by_cases hneg : R < 0
                · rw [newRow_neg _ _ hneg, if_pos hneg]
                · obtain ⟨S, rfl⟩ : ∃ S : Nat, R = S := ⟨R.toNat, by omega⟩
                  rw [newRow_ok, if_neg hneg]
                  simp only [Int.toNat_ofNat]
                  obtain ⟨h1, h2⟩ := hfit S hS
                  exact rowLoop_plan infoHead fileHead rs gs bs as _ S file _ pixels numRows
                    po ro hgood (by simp) h1 h2 hplan

/-! ## The row size when the `float` arithmetic is exact -/

theorem roundFloat_of_lt (n : Nat) (h : n < 2 ^ 24) : roundFloat n = n := by
  have hu : ulpExp 40 n = 0 := by
    show (if n < 2 ^ 24 then 0 else ulpExp 39 (n / 2) + 1) = 0
    rw [if_pos h]
  unfold roundFloat
  simp [hu, Nat.mod_one]

theorem rowSizeBytes_exact (infoHead : InfoHeader) (w : Nat) (hw : infoHead.bmpWidth_px = w)
    (hexact : infoHead.bitsPerPixel * w < 2 ^ 24) :
    rowSizeBytes infoHead = .ok ((rowStride infoHead.bitsPerPixel w : Nat) : Int) := by
  have h24 : infoHead.bitsPerPixel * w < 16777216 := by norm_num at hexact; exact hexact
  have e : (infoHead.bitsPerPixel : Int) * infoHead.bmpWidth_px =
      ((infoHead.bitsPerPixel * w : Nat) : Int) := by rw [hw]; push_cast; rfl
  unfold rowSizeBytes
  rw [e, checkInt_ok_nat _ (by omega)]
  simp only []
  unfold roundFloatInt
  rw [if_pos (Int.ofNat_nonneg _), Int.toNat_ofNat, roundFloat_of_lt _ hexact]
  unfold rowStride
  congr 1

theorem reservePixels_ok (infoHead : InfoHeader) (w n : Nat) (hw : infoHead.bmpWidth_px = w)
    (h : w * n < 2147483648) : reservePixels infoHead (n : Int) = .ok () := by
  have e : infoHead.bmpWidth_px * (n : Int) = ((w * n : Nat) : Int) := by
    rw [hw]; push_cast; rfl
  unfold reservePixels
  rw [e, checkInt_ok_nat _ h]
  simp only []
  rw [if_neg (by omega)]

/-! ## Decoding of rows by the direct path -/

theorem directRowDecoder_ok (infoHead : InfoHeader) (rs gs bs as psz w : Nat)
    (hw : infoHead.bmpWidth_px = w) (hpsz : psz ≤ 4) (row : List Byte)
    (hrow : w * psz ≤ row.length) (px : List Color4) :
    directRowDecoder infoHead rs gs bs as psz row px =
      .ok (px ++ directRow infoHead rs gs bs as psz w row) := by
  unfold directRowDecoder directRow
  rw [hw, Int.toNat_ofNat, pixelLoop_eq infoHead rs gs bs as row psz hpsz w 0 px (by simpa using hrow),
    List.range_eq_range']

theorem getElem?_flatMap_uniform {α β : Type} (g : α → List β) (w : Nat) :
    ∀ (L : List α), (∀ x ∈ L, (g x).length = w) → ∀ r c, c < w →
      (L.flatMap g)[r * w + c]? = (L[r]?).bind fun x => (g x)[c]? := by
  intro L
  induction L with
  | nil => intro _ r c _; simp
  | cons x xs ih =>
    intro h r c hc
    have hx : (g x).length = w := h x (List.mem_cons_self _ _)
    rw [List.flatMap_cons]
    cases r with
    | zero =>
      simp only [Nat.zero_mul, Nat.zero_add, List.getElem?_cons_zero, Option.some_bind]
      rw [List.getElem?_append_left (by omega)]
    | succ r =>
      have e : (r + 1) * w + c = (g x).length + (r * w + c) := by rw [hx]; ring
      rw [e, List.getElem?_append_right (by omega), Nat.add_sub_cancel_left,
        List.getElem?_cons_succ]
      exact ih (fun y hy => h y (List.mem_cons_of_mem _ hy)) r c hc

theorem length_flatMap_uniform {α β : Type} (g : α → List β) (w : Nat) :
    ∀ (L : List α), (∀ x ∈ L, (g x).length = w) → (L.flatMap g).length = w * L.length := by
  intro L
  induction L with
  | nil => intro _; simp
  | cons x xs ih =>
    intro h
    rw [List.flatMap_cons, List.length_append, h x (List.mem_cons_self _ _),
      ih (fun y hy => h y (List.mem_cons_of_mem _ hy)), List.length_cons]
    ring

theorem take_drop_take_drop (data : List Byte) (off S a b : Nat) (h : a + b ≤ S) :
    ((((data.drop off).take S).drop a).take b) = (data.drop (off + a)).take b := by
  rw [List.drop_take, List.take_take, List.drop_drop, Nat.min_eq_left (by omega)]

theorem rowsFit_of_exact (data : List Byte) (fileHead : FileHeader) (infoHead : InfoHeader)
    (w : Nat) (hw : infoHead.bmpWidth_px = w) (hexact : infoHead.bitsPerPixel * w < 2 ^ 24)
    (hfit : fileHead.pixelOffset_bytes +
      infoHead.bmpHeight_px.natAbs * rowStride infoHead.bitsPerPixel w ≤ data.length)
    (hrange : fileHead.pixelOffset_bytes +
      infoHead.bmpHeight_px.natAbs * rowStride infoHead.bitsPerPixel w < 2147483648) :
    RowsFit data fileHead infoHead := by
  intro S hS
  rw [rowSizeBytes_exact infoHead w hw hexact] at hS
  simp only [Except.ok.injEq, Nat.cast_inj] at hS
  subst hS
  exact ⟨hfit, hrange⟩

theorem rowPlan_numRows (fileHead : FileHeader) (infoHead : InfoHeader) (S : Nat)
    (hrange : fileHead.pixelOffset_bytes + infoHead.bmpHeight_px.natAbs * S < 2147483648)
    (hn : infoHead.bmpHeight_px.natAbs < 2147483648) :
    ∃ po ro, rowPlan fileHead infoHead (S : Int) =
      .ok ((infoHead.bmpHeight_px.natAbs : Int), po, ro) := by
  by_cases hneg : infoHead.bmpHeight_px < 0
  · have hS : S < 2147483648 := by
      have : S ≤ infoHead.bmpHeight_px.natAbs * S := Nat.le_mul_of_pos_left S (by omega)
      omega
    exact ⟨_, _, rowPlan_top fileHead infoHead S hn hrange hS hneg⟩
  · exact ⟨_, _, rowPlan_bottom fileHead infoHead S hn (by omega) hneg⟩

theorem stride_covers_pixels (bpp w : Nat) (hbpp : bpp = 16 ∨ bpp = 24 ∨ bpp = 32) :
    w * (bpp / 8) ≤ rowStride bpp w := by
  unfold rowStride
  rcases hbpp with h | h | h <;> subst h <;> omega

theorem extractPixels_ok (junk : Nat → Byte) (file : IfStream) (fileHead : FileHeader)
    (infoHead : InfoHeader) (pixels : List Color4) (w n rs gs bs as : Nat)
    (hbpp : infoHead.bitsPerPixel = 16 ∨ infoHead.bitsPerPixel = 24 ∨
      infoHead.bitsPerPixel = 32)
    (hw : infoHead.bmpWidth_px = w) (hn : infoHead.bmpHeight_px.natAbs = n)
    (hrs : shiftLoop infoHead.redMask 32 0 = .ok rs)
    (hgs : shiftLoop infoHead.greenMask 32 0 = .ok gs)
    (hbs : shiftLoop infoHead.blueMask 32 0 = .ok bs)
    (has : (if infoHead.alphaMask ≠ 0 then shiftLoop infoHead.alphaMask 32 0
            else Except.ok 0) = .ok as)
    (hgood : file.failed = false)
    (hexact : infoHead.bitsPerPixel * w < 2 ^ 24)
    (hcount : w * n < 2147483648)
    (hfit : fileHead.pixelOffset_bytes + n * rowStride infoHead.bitsPerPixel w ≤
      file.data.length)
    (hrange : fileHead.pixelOffset_bytes + n * rowStride infoHead.bitsPerPixel w <
      2147483648)
    (hn31 : n < 2147483648) :
    extractPixels junk file fileHead infoHead pixels =
      .ok (pixels ++
        (fileRows file.data fileHead.pixelOffset_bytes (rowStride infoHead.bitsPerPixel w) n
          infoHead.bmpHeight_px).flatMap
          (directRow infoHead rs gs bs as (infoHead.bitsPerPixel / 8) w)) := by
  subst hn
  rw [extractPixels_eq_ref junk file fileHead infoHead pixels hgood
    (rowsFit_of_exact _ _ _ w hw hexact hfit hrange)]
  obtain ⟨po, ro, hplan⟩ := rowPlan_numRows fileHead infoHead _ hrange hn31
  unfold extractPixelsRef
  rw [rowSizeBytes_exact infoHead w hw hexact]
  simp only []
  rw [hplan]
  simp only []
  rw [hrs]
  simp only []
  rw [hgs]
  simp only []
  rw [hbs]
  simp only []
  rw [has]
  simp only []
  rw [reservePixels_ok infoHead w _ hw hcount]
  simp only []
  rw [if_neg (by omega), Int.toNat_ofNat]
  apply decodeRows_ok
  intro row hrow px
  have hlen : row.length = rowStride infoHead.bitsPerPixel w := by
    unfold fileRows at hrow
    rw [List.mem_map] at hrow
    obtain ⟨r, hr, rfl⟩ := hrow
    have hr1 := List.mem_range.mp hr
    have hle : rowStart fileHead.pixelOffset_bytes (rowStride infoHead.bitsPerPixel w)
        infoHead.bmpHeight_px.natAbs infoHead.bmpHeight_px r +
        rowStride infoHead.bitsPerPixel w ≤ file.data.length := by
      unfold rowStart
      have h1 : ((if infoHead.bmpHeight_px < 0 then infoHead.bmpHeight_px.natAbs - 1 - r
          else r) + 1) * rowStride infoHead.bitsPerPixel w ≤
          infoHead.bmpHeight_px.natAbs * rowStride infoHead.bitsPerPixel w := by
        apply Nat.mul_le_mul_right
        split <;> omega
      rw [Nat.add_mul, Nat.one_mul] at h1
      omega
    simp
    omega
  apply directRowDecoder_ok infoHead rs gs bs as _ w hw
  · rcases hbpp with h | h | h <;> rw [h] <;> decide
  · rw [hlen]
    exact stride_covers_pixels _ _ hbpp

/-! ## The direct path -/

/-- C1 (amended): for every image with 16, 24 or 32 bits per pixel, width `w >= 1`, row
count `n = |height| >= 1`, non-zero red, green and blue masks (all masks 32-bit values),
read from a stream on which no earlier read has failed, whose sizes stay inside the
arithmetic of the code (`bpp * w < 2^24`, so that the `float` row size is exact;
`w * n < 2^31`; the rows end inside the file and below offset 2^31), `extractPixels`
appends exactly `w * n` colours, and the colour at position `r * w + c` has each channel
equal to `((raw AND mask) >> shift) mod 256`, where `raw` is the little-endian value of the
`bpp / 8` bytes at file offset `pixelOffset + f(r) * stride + c * (bpp / 8)`,
`stride = ceil(bpp * w / 32) * 4`, `f(r) = r` for a positive and `n - 1 - r` for a negative
height, and `shift` is the index of the lowest set bit of the mask (alpha is 0 when its mask
is 0). -/
theorem extractPixels_reference (junk : Nat → Byte) (file : IfStream) (fileHead : FileHeader)
    (infoHead : InfoHeader) (pixels : List Color4) (w n : Nat)
    (hbpp : infoHead.bitsPerPixel = 16 ∨ infoHead.bitsPerPixel = 24 ∨
      infoHead.bitsPerPixel = 32)
    (hw : infoHead.bmpWidth_px = w) (hw1 : 1 ≤ w)
    (hn : infoHead.bmpHeight_px.natAbs = n)
    (hr : infoHead.redMask ≠ 0) (hg : infoHead.greenMask ≠ 0) (hb : infoHead.blueMask ≠ 0)
    (h32 : infoHead.redMask < 2 ^ 32 ∧ infoHead.greenMask < 2 ^ 32 ∧
      infoHead.blueMask < 2 ^ 32 ∧ infoHead.alphaMask < 2 ^ 32)
    (hgood : file.failed = false)
    (hexact : infoHead.bitsPerPixel * w < 2 ^ 24)
    (hcount : w * n < 2 ^ 31)
    (hfit : fileHead.pixelOffset_bytes + n * rowStride infoHead.bitsPerPixel w ≤
      file.data.length)
    (hrange : fileHead.pixelOffset_bytes + n * rowStride infoHead.bitsPerPixel w < 2 ^ 31) :
    ∃ new, extractPixels junk file fileHead infoHead pixels = .ok (pixels ++ new) ∧
      new.length = w * n ∧
      ∀ r c, r < n → c < w → ∃ col, new[r * w + c]? = some col ∧
        (∀ s, IsLowestSetBit infoHead.redMask s → col.r.val =
          ((fieldAt file.data (rowStart fileHead.pixelOffset_bytes
              (rowStride infoHead.bitsPerPixel w) n infoHead.bmpHeight_px r +
              c * (infoHead.bitsPerPixel / 8)) (infoHead.bitsPerPixel / 8) &&&
            infoHead.redMask) >>> s) % 256) ∧
        (∀ s, IsLowestSetBit infoHead.greenMask s → col.g.val =
          ((fieldAt file.data (rowStart fileHead.pixelOffset_bytes
              (rowStride infoHead.bitsPerPixel w) n infoHead.bmpHeight_px r +
              c * (infoHead.bitsPerPixel / 8)) (infoHead.bitsPerPixel / 8) &&&
            infoHead.greenMask) >>> s) % 256) ∧
        (∀ s, IsLowestSetBit infoHead.blueMask s → col.b.val =
          ((fieldAt file.data (rowStart fileHead.pixelOffset_bytes
              (rowStride infoHead.bitsPerPixel w) n infoHead.bmpHeight_px r +
              c * (infoHead.bitsPerPixel / 8)) (infoHead.bitsPerPixel / 8) &&&
            infoHead.blueMask) >>> s) % 256) ∧
        (∀ s, infoHead.alphaMask = 0 ∨ IsLowestSetBit infoHead.alphaMask s → col.a.val =
          ((fieldAt file.data (rowStart fileHead.pixelOffset_bytes
              (rowStride infoHead.bitsPerPixel w) n infoHead.bmpHeight_px r +
              c * (infoHead.bitsPerPixel / 8)) (infoHead.bitsPerPixel / 8) &&&
            infoHead.alphaMask) >>> s) % 256) := by
  have hcount1 : w * n < 2147483648 := by norm_num at hcount; exact hcount
  have hrange1 : fileHead.pixelOffset_bytes + n * rowStride infoHead.bitsPerPixel w <
      2147483648 := by norm_num at hrange; exact hrange
  have hstride : w * (infoHead.bitsPerPixel / 8) ≤ rowStride infoHead.bitsPerPixel w :=
    stride_covers_pixels _ _ hbpp
  have hpsz1 : 1 ≤ infoHead.bitsPerPixel / 8 := by
    rcases hbpp with h | h | h <;> rw [h] <;> decide
  have hstride1 : 1 ≤ rowStride infoHead.bitsPerPixel w := by
    have : 1 * 1 ≤ w * (infoHead.bitsPerPixel / 8) := Nat.mul_le_mul hw1 hpsz1
    omega
  have hn31 : n < 2147483648 := by
    have : n * 1 ≤ n * rowStride infoHead.bitsPerPixel w := Nat.mul_le_mul_left n hstride1
    omega
  obtain ⟨rs, hrs32, hrs⟩ := exists_lowestSetBit _ hr h32.1
  obtain ⟨gs, hgs32, hgs⟩ := exists_lowestSetBit _ hg h32.2.1
  obtain ⟨bs, hbs32, hbs⟩ := exists_lowestSetBit _ hb h32.2.2.1
  obtain ⟨as, has, hasp⟩ : ∃ as, (if infoHead.alphaMask ≠ 0 then
      shiftLoop infoHead.alphaMask 32 0 else Except.ok 0) = .ok as ∧
      (infoHead.alphaMask ≠ 0 → IsLowestSetBit infoHead.alphaMask as) := by
    by_cases ha : infoHead.alphaMask = 0
    · exact ⟨0, by rw [if_neg (by simpa using ha)], fun h => absurd ha h⟩
    · obtain ⟨as, has32, has⟩ := exists_lowestSetBit _ ha h32.2.2.2
      exact ⟨as, by rw [if_pos ha]; exact shiftLoop_of_lowest _ _ has 32 0 (by omega) (by omega),
        fun _ => has⟩
  refine ⟨_, extractPixels_ok junk file fileHead infoHead pixels w n rs gs bs as hbpp hw hn
    (shiftLoop_of_lowest _ _ hrs 32 0 (by omega) (by omega))
    (shiftLoop_of_lowest _ _ hgs 32 0 (by omega) (by omega))
    (shiftLoop_of_lowest _ _ hbs 32 0 (by omega) (by omega))
    has hgood hexact hcount1 hfit hrange1 hn31, ?_, ?_⟩
  · rw [length_flatMap_uniform _ w]
    · simp [fileRows]
    · intro row _
      simp [directRow]
  · intro r c hr1 hc1
    have hrow : (fileRows file.data fileHead.pixelOffset_bytes
        (rowStride infoHead.bitsPerPixel w) n infoHead.bmpHeight_px)[r]? =
        some ((file.data.drop (rowStart fileHead.pixelOffset_bytes
          (rowStride infoHead.bitsPerPixel w) n infoHead.bmpHeight_px r)).take
          (rowStride infoHead.bitsPerPixel w)) := by
      unfold fileRows
      rw [List.getElem?_map, List.getElem?_range hr1]
      rfl
    have hpix : c * (infoHead.bitsPerPixel / 8) + infoHead.bitsPerPixel / 8 ≤
        rowStride infoHead.bitsPerPixel w := by
      have : (c + 1) * (infoHead.bitsPerPixel / 8) ≤ w * (infoHead.bitsPerPixel / 8) :=
        Nat.mul_le_mul_right _ hc1
      rw [Nat.add_mul, Nat.one_mul] at this
      omega
    rw [getElem?_flatMap_uniform _ w _ (by intro row _; simp [directRow]) r c hc1, hrow]
    simp only [Option.some_bind, directRow, List.getElem?_map, List.getElem?_range hc1,
      Option.map_some', take_drop_take_drop _ _ _ _ _ hpix]
    refine ⟨_, rfl, ?_, ?_, ?_, ?_⟩
    · intro s hs
      rw [lowestSetBit_unique _ _ _ hs hrs]
      rfl
    · intro s hs
      rw [lowestSetBit_unique _ _ _ hs hgs]
      rfl
    · intro s hs
      rw [lowestSetBit_unique _ _ _ hs hbs]
      rfl
    · intro s hs
      by_cases ha : infoHead.alphaMask = 0
      · simp [maskedColor, toUInt8, fieldAt, ha]
      · rw [lowestSetBit_unique _ _ _ (hs.resolve_left ha) (hasp ha)]
        rfl

theorem extractPixels_reference_witness :
    ∃ new, extractPixels sampleJunk { data := sampleTwoByTwo, pos := 54, failed := false }
        sampleTwoByTwoFileHead sampleTwoByTwoInfo [] = .ok ([] ++ new) ∧ new.length = 2 * 2 :=
  (extractPixels_reference sampleJunk { data := sampleTwoByTwo, pos := 54, failed := false }
    sampleTwoByTwoFileHead sampleTwoByTwoInfo [] 2 2 (by decide) (by decide) (by decide)
    (by decide) (by decide) (by decide) (by decide) (by decide) (by decide) (by decide)
    (by decide) (by decide) (by decide)).imp fun _ h => ⟨h.1, h.2.1⟩

/-- C1 (counterexample to the claim as stated): the 16-bit image `sampleHugeFile` has width
65536 and 32768 rows, non-zero masks and a file holding all its rows, yet `extractPixels`
does not append `w * n` colours: the `int` product `width * numRows` passed to `reserve`
is 2^31, which overflows (undefined behaviour). -/
theorem extractPixels_overflow_counterexample :
    sampleHugeInfo.bitsPerPixel = 16 ∧ 1 ≤ sampleHugeInfo.bmpWidth_px ∧
      1 ≤ |sampleHugeInfo.bmpHeight_px| ∧
      sampleHugeInfo.redMask ≠ 0 ∧ sampleHugeInfo.greenMask ≠ 0 ∧
      sampleHugeInfo.blueMask ≠ 0 ∧
      sampleHugeFileHead.pixelOffset_bytes + 32768 * rowStride 16 65536 ≤
        sampleHugeFile.length ∧
      extractPixels sampleJunk { data := sampleHugeFile, pos := 54, failed := false }
        sampleHugeFileHead sampleHugeInfo [] = .error .undefined := by
  refine ⟨rfl, by decide, by decide, by decide, by decide, by decide, ?_, ?_⟩
  · have h1 : sampleHugeFile.length = 54 + 32768 * 131072 := by
      unfold sampleHugeFile
      rw [List.length_append, List.length_replicate]
      rfl
    rw [h1]
    decide
  · have h1 : rowSizeBytes sampleHugeInfo = .ok 131072 := by decide
    have h2 : rowPlan sampleHugeFileHead sampleHugeInfo 131072 = .ok (32768, 54, 131072) := by
      decide
    have h3 : shiftLoop sampleHugeInfo.redMask 32 0 = .ok 10 := by decide
    have h4 : shiftLoop sampleHugeInfo.greenMask 32 0 = .ok 5 := by decide
    have h5 : shiftLoop sampleHugeInfo.blueMask 32 0 = .ok 0 := by decide
    have h6 : (if sampleHugeInfo.alphaMask ≠ 0 then shiftLoop sampleHugeInfo.alphaMask 32 0
        else Except.ok 0) = .ok 15 := by decide
    have h7 : reservePixels sampleHugeInfo 32768 = .error .undefined := by decide
    unfold extractPixels
    rw [h1]
    simp only []
    rw [h2]
    simp only []
    rw [h3]
    simp only []
    rw [h4]
    simp only []
    rw [h5]
    simp only []
    rw [h6]
    simp only []
    rw [h7]

/-! ## The palette loop -/

theorem read_four (s : IfStream) (hs : s.failed = false) (buf : List Byte)
    (hbuf : buf.length = 4) (hfit : s.pos + 4 ≤ s.data.length) :
    s.read buf 4 =
      ((s.data.drop s.pos).take 4, { data := s.data, pos := s.pos + 4, failed := false }) := by
  have hl : (List.take 4 (List.drop s.pos s.data)).length = 4 := by
    simp; omega
  have hd : List.drop 4 buf = [] := List.drop_eq_nil_of_le (by omega)
  simp [IfStream.read, hs, hl, hd]

theorem getD_take_drop (data : List Byte) (p n k : Nat) (hk : k < n) :
    ((data.drop p).take n).getD k 0 = data.getD (p + k) 0 := by
  simp only [List.getD_eq_getElem?_getD, List.getElem?_take_of_lt hk, List.getElem?_drop]

theorem paletteLoop_eq (junk : Nat → Byte) (nc : Nat) (hnc : nc ≤ 255) :
    ∀ (m fuel i : Nat) (s : IfStream) (pal : List Color4),
      s.failed = false → i + m = nc → s.pos + 4 * m ≤ s.data.length → m < fuel →
      paletteLoop junk nc fuel i s pal =
        .ok (pal ++ (List.range m).map (paletteEntry s.data s.pos),
          { data := s.data, pos := s.pos + 4 * m, failed := false }) := by
  intro m
  induction m with
  | zero =>
    intro fuel i s pal hs hi _ hf
    obtain ⟨f, rfl⟩ : ∃ f, fuel = f + 1 := ⟨fuel - 1, by omega⟩
    unfold paletteLoop
    rw [if_neg (by omega)]
    cases s
    simp at hs
    simp [hs]
  | succ m ih =>
    intro fuel i s pal hs hi hfit hf
    obtain ⟨f, rfl⟩ : ∃ f, fuel = f + 1 := ⟨fuel - 1, by omega⟩
    unfold paletteLoop
    rw [if_pos (by omega)]
    simp only []
    rw [read_four s hs _ (by simp) (by omega)]
    simp only []
    rw [Nat.mod_eq_of_lt (by omega)]
    rw [ih f (i + 1) _ _ rfl (by omega) (by simp only []; omega) (by omega)]
    simp only [List.append_assoc, Except.ok.injEq, Prod.mk.injEq, IfStream.mk.injEq, and_true,
      true_and]
    constructor
    · rw [List.range_succ_eq_map, List.map_cons, List.map_map]
      simp only [List.singleton_append, List.append_cancel_left_eq, List.cons.injEq]
      constructor
      · simp only [paletteEntry, Nat.mul_zero, Nat.add_zero]
        rw [getD_take_drop _ _ _ _ (by omega), getD_take_drop _ _ _ _ (by omega),
          getD_take_drop _ _ _ _ (by omega), getD_take_drop _ _ _ _ (by omega)]
        rfl
      · apply List.map_congr_left
        intro k _
        simp only [Function.comp, paletteEntry, Nat.succ_eq_add_one]
        congr 2 <;> ring
    · ring

theorem paletteLoop_wraps (junk : Nat → Byte) (nc : Nat) (hnc : 256 ≤ nc) :
    ∀ (fuel i : Nat) (s : IfStream) (pal : List Color4), i < 256 →
      paletteLoop junk nc fuel i s pal = .error .timeout := by
  intro fuel
  induction fuel with
  | zero => intro i s pal _; rfl
  | succ f ih =>
    intro i s pal hi
    unfold paletteLoop
    rw [if_pos (by omega)]
    exact ih _ _ _ (Nat.mod_lt _ (by decide))

theorem paletteLoop_short_fuel (junk : Nat → Byte) (nc : Nat) :
    ∀ (fuel i : Nat) (s : IfStream) (pal : List Color4), i + fuel ≤ nc → nc ≤ 255 →
      paletteLoop junk nc fuel i s pal = .error .timeout := by
  intro fuel
  induction fuel with
  | zero => intro i s pal _ _; rfl
  | succ f ih =>
    intro i s pal hi hnc
    unfold paletteLoop
    rw [if_pos (by omega), Nat.mod_eq_of_lt (by omega)]
    exact ih _ _ _ (by omega) hnc

/-! ## The index loop of the paletted path -/

theorem and_shift_mask (b m s : Nat) : (b &&& (m <<< s)) >>> s = (b >>> s) &&& m := by
  apply Nat.eq_of_testBit_eq
  intro j
  simp only [Nat.testBit_shiftRight, Nat.testBit_and, Nat.testBit_shiftLeft]
  have : decide (s + j ≥ s) = true := by simp
  rw [this, Nat.add_sub_cancel_left]
  simp

theorem maskLoop_values (bpp : Nat) (h : bpp = 1 ∨ bpp = 2 ∨ bpp = 4 ∨ bpp = 8) :
    maskLoop bpp 0 0 = .ok (2 ^ bpp - 1) := by
  rcases h with h | h | h | h <;> subst h <;> decide

theorem paletteLookup_eq (infoHead : InfoHeader) (palette : List Color4) (bpp bpn : Nat)
    (byte : Byte) (hb : infoHead.bitsPerPixel = bpp)
    (h : bpp = 1 ∨ bpp = 2 ∨ bpp = 4 ∨ bpp = 8) (hbpn : bpn < 8 / bpp)
    (hidx : ((byte.val >>> (bpp * (8 / bpp - 1 - bpn))) &&& (2 ^ bpp - 1)) < palette.length) :
    paletteLookup infoHead palette (8 / bpp) (2 ^ bpp - 1) bpn byte =
      .ok (palette.getD ((byte.val >>> (bpp * (8 / bpp - 1 - bpn))) &&& (2 ^ bpp - 1))
        { r := 0, g := 0, b := 0, a := 0 }) := by
  have hshift : bpp * (8 / bpp - 1 - bpn) ≤ 7 := by
    rcases h with h | h | h | h <;> subst h <;> simp at hbpn ⊢ <;> omega
  have hmask : 2 ^ bpp - 1 ≤ 255 := by
    rcases h with h | h | h | h <;> subst h <;> decide
  have hsl : (2 ^ bpp - 1) <<< (bpp * (8 / bpp - 1 - bpn)) < 2 ^ 32 := by
    rw [Nat.shiftLeft_eq]
    calc (2 ^ bpp - 1) * 2 ^ (bpp * (8 / bpp - 1 - bpn)) ≤ 255 * 2 ^ 7 :=
          Nat.mul_le_mul hmask (Nat.pow_le_pow_right (by decide) hshift)
      _ < 2 ^ 32 := by decide
  have hsmall : ((byte.val >>> (bpp * (8 / bpp - 1 - bpn))) &&& (2 ^ bpp - 1)) < 256 :=
    lt_of_le_of_lt Nat.and_le_right (by omega)
  unfold paletteLookup
  rw [if_neg (by omega), hb]
  simp only []
  rw [if_neg (by
    intro hc
    rcases hc with hc | hc
    · omega
    · exact absurd hsl (by omega))]
  rw [and_shift_mask, Nat.mod_eq_of_lt hsmall]
  rw [List.getD_eq_getElem?_getD]
  cases hp : palette[(byte.val >>> (bpp * (8 / bpp - 1 - bpn))) &&& (2 ^ bpp - 1)]? with
  | none =>
    rw [List.getElem?_eq_none_iff] at hp
    omega
  | some c => rfl

theorem indexLoop_eq (infoHead : InfoHeader) (palette : List Color4) (row : List Byte)
    (bpp : Nat) (hb : infoHead.bitsPerPixel = bpp)
    (h : bpp = 1 ∨ bpp = 2 ∨ bpp = 4 ∨ bpp = 8) :
    ∀ (count byteNo bpn : Nat) (byte : Byte) (pixels : List Color4),
      row[byteNo]? = some byte → bpn ≤ 8 / bpp →
      (∀ c, byteNo * (8 / bpp) + bpn ≤ c → c < byteNo * (8 / bpp) + bpn + count →
        c / (8 / bpp) < row.length ∧ pixelIndex bpp row c < palette.length) →
      indexLoop infoHead palette row (8 / bpp) (2 ^ bpp - 1) count byteNo bpn byte pixels =
        .ok (pixels ++ (List.range' (byteNo * (8 / bpp) + bpn) count).map fun c =>
          palette.getD (pixelIndex bpp row c) { r := 0, g := 0, b := 0, a := 0 }) := by
  have hppb : 1 ≤ 8 / bpp := by
    rcases h with h | h | h | h <;> subst h <;> decide
  intro count
  induction count with
  | zero => intro byteNo bpn byte pixels _ _ _; simp [indexLoop]
  | succ n ih =>
    intro byteNo bpn byte pixels hbyte hbpn hall
    have hc := hall (byteNo * (8 / bpp) + bpn) (le_refl _) (by omega)
    unfold indexLoop
    by_cases hfull : 8 / bpp ≤ bpn
    · have hbe : bpn = 8 / bpp := by omega
      have ht : byteNo * (8 / bpp) + bpn = (byteNo + 1) * (8 / bpp) := by
        rw [hbe, Nat.add_mul, Nat.one_mul]
      have hdiv : (byteNo * (8 / bpp) + bpn) / (8 / bpp) = byteNo + 1 := by
        rw [ht, Nat.mul_div_cancel _ (by omega)]
      have hmod : (byteNo * (8 / bpp) + bpn) % (8 / bpp) = 0 := by
        rw [ht, Nat.mul_mod_left]
      have hlt : byteNo + 1 < row.length := by rw [← hdiv]; exact hc.1
      have hidx : pixelIndex bpp row (byteNo * (8 / bpp) + bpn) =
          (row[byteNo + 1].val >>> (bpp * (8 / bpp - 1 - 0))) &&& (2 ^ bpp - 1) := by
        unfold pixelIndex
        rw [hdiv, hmod, List.getD_eq_getElem?_getD, List.getElem?_eq_getElem hlt]
        rfl
      rw [if_pos hfull, List.getElem?_eq_getElem hlt]
      simp only []
      rw [paletteLookup_eq infoHead palette bpp 0 _ hb h (by omega) (by rw [← hidx]; exact hc.2)]
      simp only []
      rw [ih (byteNo + 1) 1 _ _ (List.getElem?_eq_getElem hlt) hppb
        (fun c h1 h2 => hall c (by omega) (by omega))]
      rw [List.range'_succ, List.map_cons, ← hidx, ← ht]
      simp
    · have hlt : bpn < 8 / bpp := by omega
      have hdiv : (byteNo * (8 / bpp) + bpn) / (8 / bpp) = byteNo := by
        rw [Nat.mul_comm, Nat.mul_add_div (by omega), Nat.div_eq_of_lt hlt, Nat.add_zero]
      have hmod : (byteNo * (8 / bpp) + bpn) % (8 / bpp) = bpn := by
        rw [Nat.mul_comm, Nat.mul_add_mod, Nat.mod_eq_of_lt hlt]
      have hidx : pixelIndex bpp row (byteNo * (8 / bpp) + bpn) =
          (byte.val >>> (bpp * (8 / bpp - 1 - bpn))) &&& (2 ^ bpp - 1) := by
        unfold pixelIndex
        rw [hdiv, hmod, List.getD_eq_getElem?_getD, hbyte]
        rfl
      rw [if_neg hfull]
      rw [paletteLookup_eq infoHead palette bpp bpn _ hb h hlt (by rw [← hidx]; exact hc.2)]
      simp only []
      rw [ih byteNo (bpn + 1) _ _ hbyte (by omega)
        (fun c h1 h2 => hall c (by omega) (by omega))]
      rw [List.range'_succ, List.map_cons, ← hidx]
      simp [Nat.add_assoc]

/-! ## The paletted extractor on a readable stream -/

theorem seekg_ok (s : IfStream) (hs : s.failed = false) (p : Nat) :
    s.seekg (p : Int) = { data := s.data, pos := p, failed := false } := by
  simp [IfStream.seekg, hs]

theorem palettedRowLoop_plan (infoHead : InfoHeader) (fileHead : FileHeader)
    (palette : List Color4) (ppb mask S : Nat)
    (file : IfStream) (row : List Byte) (pixels : List Color4) (numRows po ro : Int)
    (hgood : file.failed = false) (hrow : row.length = S)
    (hfit : fileHead.pixelOffset_bytes + infoHead.bmpHeight_px.natAbs * S ≤ file.data.length)
    (hrange : fileHead.pixelOffset_bytes + infoHead.bmpHeight_px.natAbs * S < 2147483648)
    (hplan : rowPlan fileHead infoHead (S : Int) = .ok (numRows, po, ro)) :
    palettedRowLoop infoHead palette ppb mask (S : Int) ro numRows.toNat file row po pixels =
      decodeRows (palettedRowDecoder infoHead palette ppb mask)
        (fileRows file.data fileHead.pixelOffset_bytes S infoHead.bmpHeight_px.natAbs
          infoHead.bmpHeight_px) pixels := by
  obtain ⟨h1, h2, h3, h4⟩ := rowsRead_plan infoHead fileHead S file.data numRows po ro hrange hplan
  rw [h1, Int.toNat_ofNat, ← h2]
  exact palettedRowLoop_eq infoHead palette ppb mask S ro _ file row po pixels hgood hrow
    (h3 _ hfit) h4

theorem extractPalettedPixels_eq_ref (junk : Nat → Byte) (fuel : Nat) (file : IfStream)
    (fileHead : FileHeader) (infoHead : InfoHeader) (pixels : List Color4)
    (hgood : file.failed = false) (hpal : PaletteFits file.data infoHead)
    (hfit : RowsFit file.data fileHead infoHead) :
    extractPalettedPixels junk fuel file fileHead infoHead pixels =
      extractPalettedPixelsRef fuel file.data fileHead infoHead pixels := by
  unfold extractPalettedPixels extractPalettedPixelsRef
  by_cases hnc : 255 < infoHead.numPaletteColors
  · rw [paletteLoop_wraps junk _ (by omega) fuel 0 _ _ (by decide), if_pos (Or.inl hnc)]
  · by_cases hfuel : fuel ≤ infoHead.numPaletteColors
    · rw [paletteLoop_short_fuel junk _ fuel 0 _ _ (by omega) (by omega),
        if_pos (Or.inr hfuel)]
    · obtain ⟨hp1, hp2⟩ := hpal (by omega)
      rw [if_neg (by omega), Nat.mod_eq_of_lt (by norm_num; exact hp2), seekg_ok file hgood,
        paletteLoop_eq junk _ (by omega) infoHead.numPaletteColors fuel 0 _ _ rfl (by omega)
          (by simpa using hp1) (by omega)]
      simp only [List.nil_append]
      cases hS : rowSizeBytes infoHead with
      | error e => rfl
      | ok R =>
        simp only []
        by_cases hb0 : infoHead.bitsPerPixel = 0
        · rw [if_pos hb0, if_pos hb0]
        · rw [if_neg hb0, if_neg hb0]
          cases maskLoop infoHead.bitsPerPixel 0 0 with
          | error e => rfl
          | ok mask =>
            simp only []
            cases hplan : rowPlan fileHead infoHead R with
            | error e => rfl
            | ok t =>
              obtain ⟨numRows, po, ro⟩ := t
              simp only []
              cases reservePixels infoHead numRows with
              | error e => rfl
              | ok u =>
                simp only []
                by_cases hneg : R < 0
                · rw [newRow_neg _ _ hneg, if_pos hneg]
                · obtain ⟨S, rfl⟩ : ∃ S : Nat, R = S := ⟨R.toNat, by omega⟩
                  rw [newRow_ok, if_neg hneg]
                  simp only [Int.toNat_ofNat]
                  obtain ⟨h1, h2⟩ := hfit S hS
                  exact palettedRowLoop_plan infoHead fileHead _ _ _ S _ _ pixels numRows
                    po ro rfl (by simp) h1 h2 hplan

theorem palettedRowDecoder_ok (infoHead : InfoHeader) (palette : List Color4) (bpp w : Nat)
    (hb : infoHead.bitsPerPixel = bpp) (h : bpp = 1 ∨ bpp = 2 ∨ bpp = 4 ∨ bpp = 8)
    (hw : infoHead.bmpWidth_px = w) (row : List Byte) (hlen : 1 ≤ row.length)
    (hidx : ∀ c, c < w → c / (8 / bpp) < row.length ∧ pixelIndex bpp row c < palette.length)
    (px : List Color4) :
    palettedRowDecoder infoHead palette (8 / bpp) (2 ^ bpp - 1) row px =
      .ok (px ++ palettedRow bpp palette w row) := by
  have h0 : 0 < row.length := by omega
  unfold palettedRowDecoder palettedRow
  rw [List.getElem?_eq_getElem h0]
  simp only []
  rw [hw, Int.toNat_ofNat,
    indexLoop_eq infoHead palette row bpp hb h w 0 0 _ px (List.getElem?_eq_getElem h0)
      (Nat.zero_le _) (fun c _ h2 => hidx c (by omega))]
  simp [List.range_eq_range']

theorem stride_covers_indices (bpp w c : Nat) (h : bpp = 1 ∨ bpp = 2 ∨ bpp = 4 ∨ bpp = 8)
    (hc : c < w) : c / (8 / bpp) < rowStride bpp w := by
  unfold rowStride
  rcases h with h | h | h | h <;> subst h <;> simp <;> omega

theorem fileRows_getElem? (data : List Byte) (po S n : Nat) (h : Int) (r : Nat) (hr : r < n) :
    (fileRows data po S n h)[r]? = some ((data.drop (rowStart po S n h r)).take S) := by
  unfold fileRows
  rw [List.getElem?_map, List.getElem?_range hr]
  rfl

theorem rowStart_fits (po S n len : Nat) (h : Int) (r : Nat) (hr : r < n)
    (hfit : po + n * S ≤ len) : rowStart po S n h r + S ≤ len := by
  unfold rowStart
  have h1 : ((if h < 0 then n - 1 - r else r) + 1) * S ≤ n * S := by
    apply Nat.mul_le_mul_right
    split <;> omega
  rw [Nat.add_mul, Nat.one_mul] at h1
  omega

theorem pixelIndex_fileRow (data : List Byte) (bpp off S c : Nat) (hc : c / (8 / bpp) < S) :
    pixelIndex bpp ((data.drop off).take S) c = fileIndex data bpp off c := by
  unfold pixelIndex fileIndex
  rw [getD_take_drop _ _ _ _ hc]

theorem extractPalettedPixels_ok (junk : Nat → Byte) (fuel : Nat) (file : IfStream)
    (fileHead : FileHeader) (infoHead : InfoHeader) (pixels : List Color4) (w n : Nat)
    (hbpp : infoHead.bitsPerPixel = 1 ∨ infoHead.bitsPerPixel = 2 ∨
      infoHead.bitsPerPixel = 4 ∨ infoHead.bitsPerPixel = 8)
    (hw : infoHead.bmpWidth_px = w) (hw1 : 1 ≤ w)
    (hn : infoHead.bmpHeight_px.natAbs = n)
    (hgood : file.failed = false)
    (hnc : infoHead.numPaletteColors ≤ 255) (hfuel : infoHead.numPaletteColors < fuel)
    (hpal : FILEHEADER_SIZE_BYTES + infoHead.headerSize_bytes +
      4 * infoHead.numPaletteColors ≤ file.data.length)
    (hhs : FILEHEADER_SIZE_BYTES + infoHead.headerSize_bytes < 4294967296)
    (hcover : ∀ r, r < n → ∀ c, c < w →
      fileIndex file.data infoHead.bitsPerPixel
        (rowStart fileHead.pixelOffset_bytes (rowStride infoHead.bitsPerPixel w) n
          infoHead.bmpHeight_px r) c < infoHead.numPaletteColors)
    (hexact : infoHead.bitsPerPixel * w < 2 ^ 24)
    (hcount : w * n < 2147483648)
    (hfit : fileHead.pixelOffset_bytes + n * rowStride infoHead.bitsPerPixel w ≤
      file.data.length)
    (hrange : fileHead.pixelOffset_bytes + n * rowStride infoHead.bitsPerPixel w <
      2147483648) :
    extractPalettedPixels junk fuel file fileHead infoHead pixels =
      .ok (pixels ++
        (fileRows file.data fileHead.pixelOffset_bytes (rowStride infoHead.bitsPerPixel w) n
          infoHead.bmpHeight_px).flatMap
          (palettedRow infoHead.bitsPerPixel
            (paletteOf file.data (FILEHEADER_SIZE_BYTES + infoHead.headerSize_bytes)
              infoHead.numPaletteColors) w)) := by
  subst hn
  have hstride4 : 1 ≤ rowStride infoHead.bitsPerPixel w := by
    have := stride_covers_indices infoHead.bitsPerPixel w 0 hbpp (by omega)
    rw [Nat.zero_div] at this
    omega
  have hn31 : infoHead.bmpHeight_px.natAbs < 2147483648 := by
    have : infoHead.bmpHeight_px.natAbs * 1 ≤
        infoHead.bmpHeight_px.natAbs * rowStride infoHead.bitsPerPixel w :=
      Nat.mul_le_mul_left _ hstride4
    omega
  rw [extractPalettedPixels_eq_ref junk fuel file fileHead infoHead pixels hgood
    (fun _ => ⟨hpal, hhs⟩) (rowsFit_of_exact _ _ _ w hw hexact hfit hrange)]
  obtain ⟨po, ro, hplan⟩ := rowPlan_numRows fileHead infoHead _ hrange hn31
  unfold extractPalettedPixelsRef
  rw [if_neg (by omega), rowSizeBytes_exact infoHead w hw hexact]
  simp only []
  rw [if_neg (by rcases hbpp with h | h | h | h <;> rw [h] <;> decide),
    maskLoop_values _ hbpp]
  simp only []
  rw [hplan]
  simp only []
  rw [reservePixels_ok infoHead w _ hw hcount]
  simp only []
  rw [if_neg (by omega), Int.toNat_ofNat]
  apply decodeRows_ok
  intro row hrow px
  unfold fileRows at hrow
  rw [List.mem_map] at hrow
  obtain ⟨r, hr, rfl⟩ := hrow
  have hr1 := List.mem_range.mp hr
  have hle := rowStart_fits fileHead.pixelOffset_bytes (rowStride infoHead.bitsPerPixel w)
    infoHead.bmpHeight_px.natAbs file.data.length infoHead.bmpHeight_px r hr1 hfit
  have hlen : ((file.data.drop (rowStart fileHead.pixelOffset_bytes
      (rowStride infoHead.bitsPerPixel w) infoHead.bmpHeight_px.natAbs
      infoHead.bmpHeight_px r)).take (rowStride infoHead.bitsPerPixel w)).length =
      rowStride infoHead.bitsPerPixel w := by
    simp
    omega
  apply palettedRowDecoder_ok infoHead _ _ w rfl hbpp hw _ (by rw [hlen]; exact hstride4)
  intro c hc
  have hci := stride_covers_indices infoHead.bitsPerPixel w c hbpp hc
  refine ⟨by rw [hlen]; exact hci, ?_⟩
  rw [pixelIndex_fileRow _ _ _ _ _ hci]
  simpa [paletteOf] using hcover r hr1 c hc

/-- C2 (amended): for every image with 1, 2, 4 or 8 bits per pixel, width `w >= 1`, row
count `n = |height|`, at most 255 declared palette colours that lie inside the file and
cover every index used by a pixel, read from a stream on which no earlier read has failed,
whose sizes stay inside the arithmetic of the code (`bpp * w < 2^24`, `w * n < 2^31`, the
rows end inside the file and below offset 2^31), `extractPalettedPixels`, given more fuel
than palette colours, appends exactly `w * n` colours, and the colour at position
`r * w + c` is the palette entry with index
`(B >> (bpp * (ppb - 1 - c mod ppb))) AND (2^bpp - 1)`, where `ppb = 8 / bpp`, `B` is the
byte at file offset `pixelOffset + f(r) * stride + c div ppb` and `f(r) = r` for a positive,
`n - 1 - r` for a negative height. -/
theorem extractPalettedPixels_reference (junk : Nat → Byte) (fuel : Nat) (file : IfStream)
    (fileHead : FileHeader) (infoHead : InfoHeader) (pixels : List Color4) (w n : Nat)
    (hbpp : infoHead.bitsPerPixel = 1 ∨ infoHead.bitsPerPixel = 2 ∨
      infoHead.bitsPerPixel = 4 ∨ infoHead.bitsPerPixel = 8)
    (hw : infoHead.bmpWidth_px = w) (hw1 : 1 ≤ w)
    (hn : infoHead.bmpHeight_px.natAbs = n)
    (hgood : file.failed = false)
    (hnc : infoHead.numPaletteColors ≤ 255) (hfuel : infoHead.numPaletteColors < fuel)
    (hpal : FILEHEADER_SIZE_BYTES + infoHead.headerSize_bytes +
      4 * infoHead.numPaletteColors ≤ file.data.length)
    (hhs : FILEHEADER_SIZE_BYTES + infoHead.headerSize_bytes < 2 ^ 32)
    (hcover : ∀ r, r < n → ∀ c, c < w →
      fileIndex file.data infoHead.bitsPerPixel
        (rowStart fileHead.pixelOffset_bytes (rowStride infoHead.bitsPerPixel w) n
          infoHead.bmpHeight_px r) c < infoHead.numPaletteColors)
    (hexact : infoHead.bitsPerPixel * w < 2 ^ 24)
    (hcount : w * n < 2 ^ 31)
    (hfit : fileHead.pixelOffset_bytes + n * rowStride infoHead.bitsPerPixel w ≤
      file.data.length)
    (hrange : fileHead.pixelOffset_bytes + n * rowStride infoHead.bitsPerPixel w < 2 ^ 31) :
    ∃ new, extractPalettedPixels junk fuel file fileHead infoHead pixels =
        .ok (pixels ++ new) ∧
      new.length = w * n ∧
      ∀ r, r < n → ∀ c, c < w → new[r * w + c]? =
        some (paletteEntry file.data (FILEHEADER_SIZE_BYTES + infoHead.headerSize_bytes)
          (fileIndex file.data infoHead.bitsPerPixel
            (rowStart fileHead.pixelOffset_bytes (rowStride infoHead.bitsPerPixel w) n
              infoHead.bmpHeight_px r) c)) := by
  have hcount1 : w * n < 2147483648 := by norm_num at hcount; exact hcount
  have hrange1 : fileHead.pixelOffset_bytes + n * rowStride infoHead.bitsPerPixel w <
      2147483648 := by norm_num at hrange; exact hrange
  have hhs1 : FILEHEADER_SIZE_BYTES + infoHead.headerSize_bytes < 4294967296 := by
    norm_num at hhs; exact hhs
  refine ⟨_, extractPalettedPixels_ok junk fuel file fileHead infoHead pixels w n hbpp hw hw1
    hn hgood hnc hfuel hpal hhs1 hcover hexact hcount1 hfit hrange1, ?_, ?_⟩
  · rw [length_flatMap_uniform _ w]
    · simp [fileRows]
    · intro row _
      simp [palettedRow]
  · intro r hr c hc
    have hci := stride_covers_indices infoHead.bitsPerPixel w c hbpp hc
    rw [getElem?_flatMap_uniform _ w _ (by intro row _; simp [palettedRow]) r c hc,
      fileRows_getElem? _ _ _ _ _ _ hr]
    simp only [Option.some_bind, palettedRow, List.getElem?_map, List.getElem?_range hc,
      Option.map_some', pixelIndex_fileRow _ _ _ _ _ hci]
    have hlt := hcover r hr c hc
    congr 1
    rw [List.getD_eq_getElem?_getD]
    unfold paletteOf
    rw [List.getElem?_map, List.getElem?_range hlt]
    rfl

theorem extractPalettedPixels_reference_witness :
    extractPalettedPixels sampleJunk 5 { data := sampleTwoBit, pos := 54, failed := false }
        sampleTwoBitFileHead sampleTwoBitInfo [] =
      .ok [paletteEntry sampleTwoBit 54 0, paletteEntry sampleTwoBit 54 1,
        paletteEntry sampleTwoBit 54 0, paletteEntry sampleTwoBit 54 2,
        paletteEntry sampleTwoBit 54 0, paletteEntry sampleTwoBit 54 3,
        paletteEntry sampleTwoBit 54 0, paletteEntry sampleTwoBit 54 1] ∧
    ∃ new, extractPalettedPixels sampleJunk 5
        { data := sampleTwoBit, pos := 54, failed := false }
        sampleTwoBitFileHead sampleTwoBitInfo [] = .ok ([] ++ new) ∧ new.length = 8 * 1 :=
  ⟨by decide,
    (extractPalettedPixels_reference sampleJunk 5
      { data := sampleTwoBit, pos := 54, failed := false }
      sampleTwoBitFileHead sampleTwoBitInfo [] 8 1 (by decide) (by decide) (by decide)
      (by decide) (by decide) (by decide) (by decide) (by decide) (by decide) (by decide)
      (by decide) (by decide) (by decide) (by decide)).imp fun _ h => ⟨h.1, h.2.1⟩⟩

theorem sampleHugePalettedFile_getD (i : Nat) (hi : 54 ≤ i) :
    sampleHugePalettedFile.getD i 0 = 0 := by
  have hl : sampleHugePalettedHeader.length = 54 := rfl
  unfold sampleHugePalettedFile
  rw [List.getD_eq_getElem?_getD, List.getElem?_append_right (by rw [hl]; exact hi)]
  by_cases h : i - sampleHugePalettedHeader.length < 4 + 32768 * 65536
  · rw [List.getElem?_replicate_of_lt h]
    rfl
  · rw [List.getElem?_eq_none (by rw [List.length_replicate]; omega)]
    rfl

/-- C2 (counterexample to the claim as stated): the 8-bit image `sampleHugePalettedFile`
has width 65536, 32768 rows, a one-colour palette that covers every index used (all pixel
bytes are 0) and a file holding all its rows, yet `extractPalettedPixels` does not append `w * n` colours, however
much fuel it gets: the `int` product `width * numRows` passed to `reserve` is 2^31, which
overflows (undefined behaviour). -/
theorem extractPalettedPixels_overflow_counterexample :
    sampleHugePalettedInfo.bitsPerPixel = 8 ∧ 1 ≤ sampleHugePalettedInfo.bmpWidth_px ∧
      1 ≤ |sampleHugePalettedInfo.bmpHeight_px| ∧
      (∀ r, r < 32768 → ∀ c, c < 65536 →
        fileIndex sampleHugePalettedFile 8 (rowStart 58 (rowStride 8 65536) 32768 32768 r) c <
          sampleHugePalettedInfo.numPaletteColors) ∧
      sampleHugePalettedFileHead.pixelOffset_bytes + 32768 * rowStride 8 65536 ≤
        sampleHugePalettedFile.length ∧
      ∀ fuel, ∃ e, extractPalettedPixels sampleJunk fuel
        { data := sampleHugePalettedFile, pos := 54, failed := false }
        sampleHugePalettedFileHead sampleHugePalettedInfo [] = .error e := by
  refine ⟨rfl, by decide, by decide, ?_, ?_, ?_⟩
  · intro r _ c _
    unfold fileIndex rowStart
    rw [sampleHugePalettedFile_getD _ (by omega)]
    show ((0 : Nat) >>> _ &&& _) < 1
    rw [Nat.zero_shiftRight, Nat.zero_and]
    decide
  · have h1 : sampleHugePalettedFile.length = 54 + (4 + 32768 * 65536) := by
      unfold sampleHugePalettedFile
      rw [List.length_append, List.length_replicate]
      rfl
    rw [h1]
    decide
  · intro fuel
    have h1 : rowSizeBytes sampleHugePalettedInfo = .ok 65536 := by decide
    have h2 : maskLoop sampleHugePalettedInfo.bitsPerPixel 0 0 = .ok 255 := by decide
    have h3 : rowPlan sampleHugePalettedFileHead sampleHugePalettedInfo 65536 =
        .ok (32768, 58, 65536) := by decide
    have h4 : reservePixels sampleHugePalettedInfo 32768 = .error .undefined := by decide
    have h5 : ((FILEHEADER_SIZE_BYTES + sampleHugePalettedInfo.headerSize_bytes) % 2 ^ 32 :
        Nat) = 54 := by decide
    unfold extractPalettedPixels
    rw [h5, seekg_ok _ rfl]
    cases hp : paletteLoop sampleJunk sampleHugePalettedInfo.numPaletteColors fuel 0
        { data := sampleHugePalettedFile, pos := 54, failed := false } [] with
    | error e => exact ⟨e, rfl⟩
    | ok t =>
      obtain ⟨palette, file1⟩ := t
      simp only []
      rw [h1]
      simp only []
      rw [if_neg (by decide), h2]
      simp only []
      rw [h3]
      simp only []
      rw [h4]
      exact ⟨_, rfl⟩

/-! ## The row decoders read only the pixel bytes of a row -/

theorem pixelBytesLoop_congr (row row1 : List Byte) (base : Nat) :
    ∀ count k raw, (∀ i, base + k ≤ i → i < base + k + count → row[i]? = row1[i]?) →
      pixelBytesLoop row base count k raw = pixelBytesLoop row1 base count k raw := by
  intro count
  induction count with
  | zero => intro k raw _; rfl
  | succ n ih =>
    intro k raw h
    unfold pixelBytesLoop
    rw [h (base + k) (le_refl _) (by omega)]
    cases row1[base + k]? with
    | none => rfl
    | some b =>
      simp only []
      by_cases hk : 32 ≤ k * 8
      · rw [if_pos hk, if_pos hk]
      · rw [if_neg hk, if_neg hk]
        exact ih _ _ (fun i h1 h2 => h i (by omega) (by omega))

theorem pixelLoop_congr (infoHead infoHead1 : InfoHeader) (rs gs bs as : Nat)
    (hm : ∀ raw, maskedColor infoHead rs gs bs as raw = maskedColor infoHead1 rs gs bs as raw)
    (row row1 : List Byte) (psz : Nat) :
    ∀ count j pixels, (∀ i, i < (j + count) * psz → row[i]? = row1[i]?) →
      pixelLoop infoHead rs gs bs as row psz count j pixels =
        pixelLoop infoHead1 rs gs bs as row1 psz count j pixels := by
  intro count
  induction count with
  | zero => intro j pixels _; rfl
  | succ n ih =>
    intro j pixels h
    have hle : j * psz + psz ≤ (j + (n + 1)) * psz := by
      have : (j + 1) * psz ≤ (j + (n + 1)) * psz := Nat.mul_le_mul_right _ (by omega)
      rw [Nat.add_mul, Nat.one_mul] at this
      exact this
    unfold pixelLoop
    rw [pixelBytesLoop_congr row row1 (j * psz) psz 0 0 (fun i _ h2 => h i (by omega))]
    cases pixelBytesLoop row1 (j * psz) psz 0 0 with
    | error e => rfl
    | ok raw =>
      simp only []
      rw [hm raw]
      exact ih _ _ (fun i hi => h i (by rw [show j + (n + 1) = j + 1 + n by omega]; exact hi))

theorem directRowDecoder_congr (infoHead infoHead1 : InfoHeader) (rs gs bs as psz : Nat)
    (hw : infoHead.bmpWidth_px = infoHead1.bmpWidth_px)
    (hm : ∀ raw, maskedColor infoHead rs gs bs as raw = maskedColor infoHead1 rs gs bs as raw)
    (row row1 : List Byte)
    (h : ∀ i, i < infoHead.bmpWidth_px.toNat * psz → row[i]? = row1[i]?)
    (px : List Color4) :
    directRowDecoder infoHead rs gs bs as psz row px =
      directRowDecoder infoHead1 rs gs bs as psz row1 px := by
  unfold directRowDecoder
  rw [← hw]
  exact pixelLoop_congr infoHead infoHead1 rs gs bs as hm row row1 psz _ 0 px
    (fun i hi => h i (by simpa using hi))

theorem paletteLookup_congr (infoHead infoHead1 : InfoHeader)
    (hb : infoHead.bitsPerPixel = infoHead1.bitsPerPixel) (palette : List Color4)
    (ppb mask bpn : Nat) (byte : Byte) :
    paletteLookup infoHead palette ppb mask bpn byte =
      paletteLookup infoHead1 palette ppb mask bpn byte := by
  unfold paletteLookup
  rw [hb]

theorem indexLoop_congr (infoHead infoHead1 : InfoHeader)
    (hb : infoHead.bitsPerPixel = infoHead1.bitsPerPixel) (palette : List Color4)
    (row row1 : List Byte) (ppb mask : Nat) :
    ∀ (count byteNo bpn : Nat) (byte : Byte) (pixels : List Color4),
      (∀ i, i * ppb < byteNo * ppb + bpn + count → row[i]? = row1[i]?) →
      indexLoop infoHead palette row ppb mask count byteNo bpn byte pixels =
        indexLoop infoHead1 palette row1 ppb mask count byteNo bpn byte pixels := by
  intro count
  induction count with
  | zero => intro byteNo bpn byte pixels _; rfl
  | succ n ih =>
    intro byteNo bpn byte pixels h
    unfold indexLoop
    by_cases hfull : ppb ≤ bpn
    · have hmul : (byteNo + 1) * ppb = byteNo * ppb + ppb := by rw [Nat.add_mul, Nat.one_mul]
      rw [if_pos hfull, if_pos hfull, h (byteNo + 1) (by omega)]
      cases row1[byteNo + 1]? with
      | none => rfl
      | some byte1 =>
        simp only []
        rw [paletteLookup_congr infoHead infoHead1 hb]
        cases paletteLookup infoHead1 palette ppb mask 0 byte1 with
        | error e => rfl
        | ok c =>
          simp only []
          exact ih _ _ _ _ (fun i hi => h i (by omega))
    · rw [if_neg hfull, if_neg hfull, paletteLookup_congr infoHead infoHead1 hb]
      cases paletteLookup infoHead1 palette ppb mask bpn byte with
      | error e => rfl
      | ok c =>
        simp only []
        exact ih _ _ _ _ (fun i hi => h i (by omega))

theorem palettedRowDecoder_congr (infoHead infoHead1 : InfoHeader)
    (hb : infoHead.bitsPerPixel = infoHead1.bitsPerPixel)
    (hw : infoHead.bmpWidth_px = infoHead1.bmpWidth_px)
    (palette : List Color4) (ppb mask : Nat) (row row1 : List Byte)
    (hlen : row.length = row1.length)
    (h : ∀ i, i * ppb < infoHead.bmpWidth_px.toNat → row[i]? = row1[i]?)
    (px : List Color4) :
    palettedRowDecoder infoHead palette ppb mask row px =
      palettedRowDecoder infoHead1 palette ppb mask row1 px := by
  unfold palettedRowDecoder
  rw [← hw]
  by_cases hw0 : infoHead.bmpWidth_px.toNat = 0
  · rw [hw0]
    cases hr : row[0]? with
    | none =>
      have : row1[0]? = none := by
        rw [List.getElem?_eq_none_iff] at hr ⊢
        omega
      rw [this]
    | some b =>
      have hl : 0 < row1.length := by
        have := (List.getElem?_eq_some_iff.mp hr).1
        omega
      rw [List.getElem?_eq_getElem hl]
      simp only [indexLoop]
  · rw [h 0 (by omega)]
    cases row1[0]? with
    | none => rfl
    | some b =>
      simp only []
      exact indexLoop_congr infoHead infoHead1 hb palette row row1 ppb mask _ 0 0 b px
        (fun i hi => h i (by omega))

/-! ## `load` on a file with a valid layout -/

theorem dispatch_eq_ref (junk : Nat → Byte) (fuel : Nat) (file : IfStream)
    (fileHead : FileHeader) (infoHead : InfoHeader) (ver : Nat) (pixels : List Color4)
    (hgood : file.failed = false) (hpal : PaletteFits file.data infoHead)
    (hfit : RowsFit file.data fileHead infoHead) :
    dispatch junk fuel file fileHead infoHead ver pixels =
      dispatchRef fuel file.data fileHead infoHead ver pixels := by
  unfold dispatch dispatchRef
  split
  · exact extractPalettedPixels_eq_ref junk fuel file fileHead infoHead pixels hgood hpal hfit
  · split
    · split
      · exact extractPixels_eq_ref junk file fileHead _ pixels hgood hfit
      · exact extractPixels_eq_ref junk file fileHead _ pixels hgood hfit
    · split
      · exact extractPixels_eq_ref junk file fileHead _ pixels hgood hfit
      · split
        · split
          · exact extractPixels_eq_ref junk file fileHead _ pixels hgood hfit
          · exact extractPixels_eq_ref junk file fileHead _ pixels hgood hfit
        · rfl

theorem fieldAt_lt (data : List Byte) (o n : Nat) : fieldAt data o n < 256 ^ n := by
  unfold fieldAt
  have hlen : ((data.drop o).take n).length ≤ n := by simp
  generalize (data.drop o).take n = l at hlen
  induction l generalizing n with
  | nil => simp [leValue]
  | cons b bs ih =>
    cases n with
    | zero => simp at hlen
    | succ m =>
      have hb := b.isLt
      have := ih m (by simpa using hlen)
      simp only [leValue, Nat.pow_succ]
      omega

theorem seqState_good (data : List Byte) (o : Nat) (h : o ≤ data.length) :
    (seqState data o).failed = false := by
  simp [seqState]
  omega

theorem load_eq_ref (junk : Nat → Byte) (fuel : Nat) (data : List Byte) (self : BmpImage)
    (hv : ValidLayout data) :
    load junk fuel (some data) self =
      if fieldAt data 0 2 ≠ BMPMAGIC then .ok (-1, self)
      else if V4INFOHEADER_SIZE_BYTES ≤ fieldAt data 14 4 ∧ fieldAt data 70 4 ≠ SRGBMAGIC then
        .ok (-1, self)
      else if fieldAt data 30 4 ≠ BI_RGB ∧ fieldAt data 30 4 ≠ BI_BITFIELDS then .ok (-1, self)
      else
        match dispatchRef fuel data (parsedFileHeader data) (parsedInfo data)
            (parsedVersion data) self.pixels with
        | .error e => .error e
        | .ok pixels =>
          .ok (0, { pixels := pixels, width_px := toInt32 (fieldAt data 18 4),
                    height_px := toInt32 (fieldAt data 22 4) }) := by
  obtain ⟨_, _, h3, h4, h5, h6⟩ := hv
  have hpo : (parsedFileHeader data).pixelOffset_bytes < 4294967296 := by
    have := fieldAt_lt data 10 4
    norm_num at this
    exact this
  rw [load_eq, dispatch_eq_ref junk fuel (seqState data (headerEnd data)) _ _ _ _
    (seqState_good _ _ (by omega))
    (fun hnc => ⟨by have := h5 hnc; show _ ≤ data.length; omega,
      by have := h5 hnc; omega⟩) h6]
  rfl

/-! ## Dependence of the reference extractors on the file contents -/

theorem rowSizeBytes_congr (infoHead infoHead1 : InfoHeader)
    (hb : infoHead.bitsPerPixel = infoHead1.bitsPerPixel)
    (hw : infoHead.bmpWidth_px = infoHead1.bmpWidth_px) :
    rowSizeBytes infoHead = rowSizeBytes infoHead1 := by
  unfold rowSizeBytes
  rw [hb, hw]

theorem reservePixels_congr (infoHead infoHead1 : InfoHeader)
    (hw : infoHead.bmpWidth_px = infoHead1.bmpWidth_px) (x : Int) :
    reservePixels infoHead x = reservePixels infoHead1 x := by
  unfold reservePixels
  rw [hw]

theorem take_drop_getElem? (data : List Byte) (off S p : Nat) (hp : p < S) :
    ((data.drop off).take S)[p]? = data[off + p]? := by
  rw [List.getElem?_take_of_lt hp, List.getElem?_drop]

theorem fileRows_getD (data : List Byte) (po S n : Nat) (h : Int) (r : Nat) (hr : r < n) :
    (fileRows data po S n h).getD r [] = (data.drop (rowStart po S n h r)).take S := by
  rw [List.getD_eq_getElem?_getD, fileRows_getElem? _ _ _ _ _ _ hr]
  rfl

theorem fileRows_length (data : List Byte) (po S n : Nat) (h : Int) :
    (fileRows data po S n h).length = n := by
  simp [fileRows]

theorem maskedColor_congr (infoHead infoHead1 : InfoHeader)
    (hr : infoHead.redMask = infoHead1.redMask) (hg : infoHead.greenMask = infoHead1.greenMask)
    (hb : infoHead.blueMask = infoHead1.blueMask) (ha : infoHead.alphaMask = infoHead1.alphaMask)
    (rs gs bs as raw : Nat) :
    maskedColor infoHead rs gs bs as raw = maskedColor infoHead1 rs gs bs as raw := by
  unfold maskedColor
  rw [hr, hg, hb, ha]

theorem extractPixelsRef_congr (A B : List Byte) (fileHead : FileHeader)
    (infoHead infoHead1 : InfoHeader) (px : List Color4)
    (hb : infoHead.bitsPerPixel = infoHead1.bitsPerPixel)
    (hw : infoHead.bmpWidth_px = infoHead1.bmpWidth_px)
    (hr : infoHead.redMask = infoHead1.redMask) (hg : infoHead.greenMask = infoHead1.greenMask)
    (hbl : infoHead.blueMask = infoHead1.blueMask)
    (ha : infoHead.alphaMask = infoHead1.alphaMask)
    (hn : infoHead.bmpHeight_px.natAbs = infoHead1.bmpHeight_px.natAbs)
    (hplan : ∀ R, rowSizeBytes infoHead = .ok R →
      (rowPlan fileHead infoHead R).map Prod.fst = (rowPlan fileHead infoHead1 R).map Prod.fst)
    (hrows : ∀ S : Nat, rowSizeBytes infoHead = .ok (S : Int) →
      ∀ r, r < infoHead.bmpHeight_px.natAbs → ∀ p, p < S →
        p < infoHead.bmpWidth_px.toNat * (infoHead.bitsPerPixel / 8) →
        A[rowStart fileHead.pixelOffset_bytes S infoHead.bmpHeight_px.natAbs
            infoHead.bmpHeight_px r + p]? =
          B[rowStart fileHead.pixelOffset_bytes S infoHead.bmpHeight_px.natAbs
            infoHead1.bmpHeight_px r + p]?) :
    extractPixelsRef A fileHead infoHead px = extractPixelsRef B fileHead infoHead1 px := by
  unfold extractPixelsRef
  rw [← rowSizeBytes_congr infoHead infoHead1 hb hw, ← hr, ← hg, ← hbl, ← ha, ← hn, ← hb]
  cases hS : rowSizeBytes infoHead with
  | error e => rfl
  | ok R =>
    simp only []
    have hp := hplan R hS
    cases hpA : rowPlan fileHead infoHead R with
    | error e =>
      cases hpB : rowPlan fileHead infoHead1 R with
      | error e1 =>
        rw [hpA, hpB] at hp
        simp only [Except.map, Except.error.injEq] at hp
        subst hp
        rfl
      | ok t1 =>
        rw [hpA, hpB] at hp
        simp [Except.map] at hp
    | ok t =>
      cases hpB : rowPlan fileHead infoHead1 R with
      | error e1 =>
        rw [hpA, hpB] at hp
        simp [Except.map] at hp
      | ok t1 =>
        rw [hpA, hpB] at hp
        obtain ⟨numRows, po, ro⟩ := t
        obtain ⟨numRows1, po1, ro1⟩ := t1
        simp only [Except.map, Except.ok.injEq] at hp
        subst hp
        simp only []
        cases shiftLoop infoHead.redMask 32 0 with
        | error e => rfl
        | ok rs =>
          simp only []
          cases shiftLoop infoHead.greenMask 32 0 with
          | error e => rfl
          | ok gs =>
            simp only []
            cases shiftLoop infoHead.blueMask 32 0 with
            | error e => rfl
            | ok bs =>
              simp only []
              cases (if infoHead.alphaMask ≠ 0 then shiftLoop infoHead.alphaMask 32 0
                     else Except.ok 0) with
              | error e => rfl
              | ok as =>
                simp only []
                rw [← reservePixels_congr infoHead infoHead1 hw]
                cases reservePixels infoHead numRows with
                | error e => rfl
                | ok u =>
                  simp only []
                  by_cases hneg : R < 0
                  · rw [if_pos hneg, if_pos hneg]
                  · obtain ⟨S, rfl⟩ : ∃ S : Nat, R = S := ⟨R.toNat, by omega⟩
                    rw [if_neg hneg, if_neg hneg, Int.toNat_ofNat]
                    apply decodeRows_congr
                    · rw [fileRows_length, fileRows_length]
                    · intro r px1 hr1
                      rw [fileRows_length] at hr1
                      rw [fileRows_getD _ _ _ _ _ _ hr1, fileRows_getD _ _ _ _ _ _ hr1]
                      apply directRowDecoder_congr infoHead infoHead1 rs gs bs as _ hw
                        (maskedColor_congr infoHead infoHead1 hr hg hbl ha rs gs bs as)
                      intro p hp1
                      by_cases hpS : p < S
                      · rw [take_drop_getElem? _ _ _ _ hpS, take_drop_getElem? _ _ _ _ hpS]
                        exact hrows S hS r hr1 p hpS hp1
                      · rw [List.getElem?_eq_none (by simp; omega),
                          List.getElem?_eq_none (by simp; omega)]

theorem paletteOf_congr (A B : List Byte) (base nc : Nat)
    (h : ∀ i, base ≤ i → i < base + 4 * nc → A[i]? = B[i]?) :
    paletteOf A base nc = paletteOf B base nc := by
  unfold paletteOf
  apply List.map_congr_left
  intro k hk
  have hk1 := List.mem_range.mp hk
  unfold paletteEntry
  simp only [List.getD_eq_getElem?_getD]
  rw [h (base + 4 * k + 2) (by omega) (by omega), h (base + 4 * k + 1) (by omega) (by omega),
    h (base + 4 * k) (by omega) (by omega), h (base + 4 * k + 3) (by omega) (by omega)]

theorem extractPalettedPixelsRef_congr (fuel : Nat) (A B : List Byte) (fileHead : FileHeader)
    (infoHead infoHead1 : InfoHeader) (px : List Color4)
    (hlen : A.length = B.length)
    (hb : infoHead.bitsPerPixel = infoHead1.bitsPerPixel)
    (hw : infoHead.bmpWidth_px = infoHead1.bmpWidth_px)
    (hhs : infoHead.headerSize_bytes = infoHead1.headerSize_bytes)
    (hnc : infoHead.numPaletteColors = infoHead1.numPaletteColors)
    (hn : infoHead.bmpHeight_px.natAbs = infoHead1.bmpHeight_px.natAbs)
    (hplan : ∀ R, rowSizeBytes infoHead = .ok R →
      (rowPlan fileHead infoHead R).map Prod.fst = (rowPlan fileHead infoHead1 R).map Prod.fst)
    (hpal : infoHead.numPaletteColors ≤ 255 →
      ∀ i, FILEHEADER_SIZE_BYTES + infoHead.headerSize_bytes ≤ i →
        i < FILEHEADER_SIZE_BYTES + infoHead.headerSize_bytes + 4 * infoHead.numPaletteColors →
        A[i]? = B[i]?)
    (hrows : ∀ S : Nat, rowSizeBytes infoHead = .ok (S : Int) →
      ∀ r, r < infoHead.bmpHeight_px.natAbs →
        rowStart fileHead.pixelOffset_bytes S infoHead.bmpHeight_px.natAbs
            infoHead.bmpHeight_px r + S ≤ A.length ∧
        rowStart fileHead.pixelOffset_bytes S infoHead.bmpHeight_px.natAbs
            infoHead1.bmpHeight_px r + S ≤ B.length ∧
        ∀ p, p < S → p * (8 / infoHead.bitsPerPixel) < infoHead.bmpWidth_px.toNat →
        A[rowStart fileHead.pixelOffset_bytes S infoHead.bmpHeight_px.natAbs
            infoHead.bmpHeight_px r + p]? =
          B[rowStart fileHead.pixelOffset_bytes S infoHead.bmpHeight_px.natAbs
            infoHead1.bmpHeight_px r + p]?) :
    extractPalettedPixelsRef fuel A fileHead infoHead px =
      extractPalettedPixelsRef fuel B fileHead infoHead1 px := by
  unfold extractPalettedPixelsRef
  rw [← rowSizeBytes_congr infoHead infoHead1 hb hw, ← hnc, ← hn, ← hb, ← hhs]
  by_cases ht : 255 < infoHead.numPaletteColors ∨ fuel ≤ infoHead.numPaletteColors
  · rw [if_pos ht, if_pos ht]
  · rw [if_neg ht, if_neg ht,
      paletteOf_congr A B _ _ (hpal (by omega))]
    cases hS : rowSizeBytes infoHead with
    | error e => rfl
    | ok R =>
      simp only []
      by_cases hb0 : infoHead.bitsPerPixel = 0
      · rw [if_pos hb0, if_pos hb0]
      · rw [if_neg hb0, if_neg hb0]
        cases maskLoop infoHead.bitsPerPixel 0 0 with
        | error e => rfl
        | ok mask =>
          simp only []
          have hp := hplan R hS
          cases hpA : rowPlan fileHead infoHead R with
          | error e =>
            cases hpB : rowPlan fileHead infoHead1 R with
            | error e1 =>
              rw [hpA, hpB] at hp
              simp only [Except.map, Except.error.injEq] at hp
              subst hp
              rfl
            | ok t1 =>
              rw [hpA, hpB] at hp
              simp [Except.map] at hp
          | ok t =>
            cases hpB : rowPlan fileHead infoHead1 R with
            | error e1 =>
              rw [hpA, hpB] at hp
              simp [Except.map] at hp
            | ok t1 =>
              rw [hpA, hpB] at hp
              obtain ⟨numRows, po, ro⟩ := t
              obtain ⟨numRows1, po1, ro1⟩ := t1
              simp only [Except.map, Except.ok.injEq] at hp
              subst hp
              simp only []
              rw [← reservePixels_congr infoHead infoHead1 hw]
              cases reservePixels infoHead numRows with
              | error e => rfl
              | ok u =>
                simp only []
                by_cases hneg : R < 0
                · rw [if_pos hneg, if_pos hneg]
                · obtain ⟨S, rfl⟩ : ∃ S : Nat, R = S := ⟨R.toNat, by omega⟩
                  rw [if_neg hneg, if_neg hneg, Int.toNat_ofNat]
                  apply decodeRows_congr
                  · rw [fileRows_length, fileRows_length]
                  · intro r px1 hr1
                    rw [fileRows_length] at hr1
                    obtain ⟨hfA, hfB, hag⟩ := hrows S hS r hr1
                    rw [fileRows_getD _ _ _ _ _ _ hr1, fileRows_getD _ _ _ _ _ _ hr1]
                    apply palettedRowDecoder_congr infoHead infoHead1 hb hw
                    · simp
                      omega
                    · intro p hp1
                      by_cases hpS : p < S
                      · rw [take_drop_getElem? _ _ _ _ hpS, take_drop_getElem? _ _ _ _ hpS]
                        exact hag p hpS hp1
                      · rw [List.getElem?_eq_none (by simp; omega),
                          List.getElem?_eq_none (by simp; omega)]

theorem direct_bytes_le (bpp w p : Nat) (h : p < w * (bpp / 8)) : p < (bpp * w + 7) / 8 := by
  have h1 : bpp / 8 * 8 ≤ bpp := Nat.div_mul_le_self bpp 8
  have h2 : w * (bpp / 8 * 8) ≤ w * bpp := Nat.mul_le_mul_left w h1
  have h3 : w * (bpp / 8 * 8) = w * (bpp / 8) * 8 := by ring
  have h4 : w * bpp = bpp * w := Nat.mul_comm _ _
  omega

theorem paletted_bytes_le (bpp w p : Nat) (hb : bpp = 2 ∨ bpp = 4 ∨ bpp = 8)
    (h : p * (8 / bpp) < w) : p < (bpp * w + 7) / 8 := by
  rcases hb with hb | hb | hb <;> subst hb <;> simp at h <;> omega

theorem dispatchRef_congr (fuel : Nat) (A B : List Byte) (fileHead : FileHeader)
    (infoHead : InfoHeader) (h1 : Int) (ver : Nat) (px : List Color4)
    (hlen : A.length = B.length)
    (hn : infoHead.bmpHeight_px.natAbs = h1.natAbs)
    (hplan : ∀ R, rowSizeBytes infoHead = .ok R →
      (rowPlan fileHead infoHead R).map Prod.fst =
        (rowPlan fileHead { infoHead with bmpHeight_px := h1 } R).map Prod.fst)
    (hpal : infoHead.numPaletteColors ≤ 255 →
      ∀ i, FILEHEADER_SIZE_BYTES + infoHead.headerSize_bytes ≤ i →
        i < FILEHEADER_SIZE_BYTES + infoHead.headerSize_bytes + 4 * infoHead.numPaletteColors →
        A[i]? = B[i]?)
    (hrows : ∀ S : Nat, rowSizeBytes infoHead = .ok (S : Int) →
      ∀ r, r < infoHead.bmpHeight_px.natAbs →
        rowStart fileHead.pixelOffset_bytes S infoHead.bmpHeight_px.natAbs
            infoHead.bmpHeight_px r + S ≤ A.length ∧
        rowStart fileHead.pixelOffset_bytes S infoHead.bmpHeight_px.natAbs h1 r + S ≤
            B.length ∧
        ∀ p, p < S →
          p < (infoHead.bitsPerPixel * infoHead.bmpWidth_px.toNat + 7) / 8 →
          A[rowStart fileHead.pixelOffset_bytes S infoHead.bmpHeight_px.natAbs
              infoHead.bmpHeight_px r + p]? =
            B[rowStart fileHead.pixelOffset_bytes S infoHead.bmpHeight_px.natAbs h1 r + p]?) :
    dispatchRef fuel A fileHead infoHead ver px =
      dispatchRef fuel B fileHead { infoHead with bmpHeight_px := h1 } ver px := by
  have hdirect : ∀ ih : InfoHeader, ih.bitsPerPixel = infoHead.bitsPerPixel →
      ih.bmpWidth_px = infoHead.bmpWidth_px → ih.bmpHeight_px = infoHead.bmpHeight_px →
      extractPixelsRef A fileHead ih px =
        extractPixelsRef B fileHead { ih with bmpHeight_px := h1 } px := by
    intro ih e1 e2 e3
    have eS : rowSizeBytes ih = rowSizeBytes infoHead := rowSizeBytes_congr _ _ e1 e2
    apply extractPixelsRef_congr A B fileHead ih { ih with bmpHeight_px := h1 } px rfl rfl rfl
      rfl rfl rfl (by rw [e3]; exact hn)
    · intro R hR
      rw [eS] at hR
      have := hplan R hR
      unfold rowPlan at this ⊢
      rw [e3]
      exact this
    · intro S hS r hr p hp hp2
      rw [eS] at hS
      rw [e3] at hr ⊢
      rw [e1, e2] at hp2
      exact (hrows S hS r hr).2.2 p hp (direct_bytes_le _ _ _ hp2)
  unfold dispatchRef
  by_cases hpalb : infoHead.bitsPerPixel = 2 ∨ infoHead.bitsPerPixel = 4 ∨
      infoHead.bitsPerPixel = 8
  · rw [if_pos hpalb, if_pos (show _ from hpalb)]
    apply extractPalettedPixelsRef_congr fuel A B fileHead infoHead
      { infoHead with bmpHeight_px := h1 } px hlen rfl rfl rfl rfl hn hplan hpal
    intro S hS r hr
    obtain ⟨f1, f2, f3⟩ := hrows S hS r hr
    exact ⟨f1, f2, fun p hp hp2 => f3 p hp (paletted_bytes_le _ _ _ hpalb hp2)⟩
  · rw [if_neg hpalb, if_neg (show ¬ _ from hpalb)]
    by_cases h16 : infoHead.bitsPerPixel = 16
    · rw [if_pos h16, if_pos (show _ from h16)]
      by_cases hc : infoHead.compression = BI_RGB
      · rw [if_pos hc, if_pos (show _ from hc)]
        exact hdirect _ rfl rfl rfl
      · rw [if_neg hc, if_neg (show ¬ _ from hc)]
        exact hdirect _ rfl rfl rfl
    · rw [if_neg h16, if_neg (show ¬ _ from h16)]
      by_cases h24 : infoHead.bitsPerPixel = 24
      · rw [if_pos h24, if_pos (show _ from h24)]
        exact hdirect _ rfl rfl rfl
      · rw [if_neg h24, if_neg (show ¬ _ from h24)]
        by_cases h32 : infoHead.bitsPerPixel = 32
        · rw [if_pos h32, if_pos (show _ from h32)]
          by_cases hc : infoHead.compression = BI_RGB
          · rw [if_pos hc, if_pos (show _ from hc)]
            exact hdirect _ rfl rfl rfl
          · rw [if_neg hc, if_neg (show ¬ _ from hc)]
            exact hdirect _ rfl rfl rfl
        · rw [if_neg h32, if_neg (show ¬ _ from h32)]

/-! ## Files that agree on their headers -/

theorem fieldAt_congr (A B : List Byte) (o k : Nat)
    (h : ∀ i, o ≤ i → i < o + k → B[i]? = A[i]?) : fieldAt B o k = fieldAt A o k := by
  unfold fieldAt
  congr 1
  apply List.ext_getElem?
  intro j
  by_cases hj : j < k
  · rw [take_drop_getElem? _ _ _ _ hj, take_drop_getElem? _ _ _ _ hj]
    exact h _ (by omega) (by omega)
  · rw [List.getElem?_eq_none (by simp; omega), List.getElem?_eq_none (by simp; omega)]

theorem headerEnd_bounds (data : List Byte) :
    54 ≤ headerEnd data ∧ headerEnd data ≤ 74 ∧ (masksRead data → 66 ≤ headerEnd data) ∧
      (V3INFOHEADER_SIZE_BYTES ≤ fieldAt data 14 4 → 70 ≤ headerEnd data) ∧
      (V4INFOHEADER_SIZE_BYTES ≤ fieldAt data 14 4 → 74 ≤ headerEnd data) := by
  unfold headerEnd
  unfold V3INFOHEADER_SIZE_BYTES V4INFOHEADER_SIZE_BYTES
  refine ⟨?_, ?_, ?_, ?_, ?_⟩
  · repeat' split
    all_goals omega
  · repeat' split
    all_goals omega
  · intro hm
    repeat' split
    all_goals omega
  · intro h3
    repeat' split
    all_goals omega
  · intro h4
    repeat' split
    all_goals omega

theorem parsed_agree (A B : List Byte)
    (h : ∀ i, i < headerEnd A → (i < 22 ∨ 26 ≤ i) → B[i]? = A[i]?) :
    parsedFileHeader B = parsedFileHeader A ∧
    parsedInfo B = { parsedInfo A with bmpHeight_px := toInt32 (fieldAt B 22 4) } ∧
    parsedVersion B = parsedVersion A ∧ headerEnd B = headerEnd A ∧
    fieldAt B 0 2 = fieldAt A 0 2 ∧ fieldAt B 14 4 = fieldAt A 14 4 ∧
    fieldAt B 18 4 = fieldAt A 18 4 ∧ fieldAt B 30 4 = fieldAt A 30 4 ∧
    (V4INFOHEADER_SIZE_BYTES ≤ fieldAt A 14 4 → fieldAt B 70 4 = fieldAt A 70 4) := by
  obtain ⟨b54, _, bm, b3, b4⟩ := headerEnd_bounds A
  have e0 : fieldAt B 0 2 = fieldAt A 0 2 :=
    fieldAt_congr A B 0 2 (fun i _ _ => h i (by omega) (by omega))
  have e2 : fieldAt B 2 4 = fieldAt A 2 4 :=
    fieldAt_congr A B 2 4 (fun i _ _ => h i (by omega) (by omega))
  have e6 : fieldAt B 6 2 = fieldAt A 6 2 :=
    fieldAt_congr A B 6 2 (fun i _ _ => h i (by omega) (by omega))
  have e8 : fieldAt B 8 2 = fieldAt A 8 2 :=
    fieldAt_congr A B 8 2 (fun i _ _ => h i (by omega) (by omega))
  have e10 : fieldAt B 10 4 = fieldAt A 10 4 :=
    fieldAt_congr A B 10 4 (fun i _ _ => h i (by omega) (by omega))
  have e14 : fieldAt B 14 4 = fieldAt A 14 4 :=
    fieldAt_congr A B 14 4 (fun i _ _ => h i (by omega) (by omega))
  have e18 : fieldAt B 18 4 = fieldAt A 18 4 :=
    fieldAt_congr A B 18 4 (fun i _ _ => h i (by omega) (by omega))
  have e26 : fieldAt B 26 2 = fieldAt A 26 2 :=
    fieldAt_congr A B 26 2 (fun i _ _ => h i (by omega) (by omega))
  have e28 : fieldAt B 28 2 = fieldAt A 28 2 :=
    fieldAt_congr A B 28 2 (fun i _ _ => h i (by omega) (by omega))
  have e30 : fieldAt B 30 4 = fieldAt A 30 4 :=
    fieldAt_congr A B 30 4 (fun i _ _ => h i (by omega) (by omega))
  have e34 : fieldAt B 34 4 = fieldAt A 34 4 :=
    fieldAt_congr A B 34 4 (fun i _ _ => h i (by omega) (by omega))
  have e38 : fieldAt B 38 4 = fieldAt A 38 4 :=
    fieldAt_congr A B 38 4 (fun i _ _ => h i (by omega) (by omega))
  have e42 : fieldAt B 42 4 = fieldAt A 42 4 :=
    fieldAt_congr A B 42 4 (fun i _ _ => h i (by omega) (by omega))
  have e46 : fieldAt B 46 4 = fieldAt A 46 4 :=
    fieldAt_congr A B 46 4 (fun i _ _ => h i (by omega) (by omega))
  have e50 : fieldAt B 50 4 = fieldAt A 50 4 :=
    fieldAt_congr A B 50 4 (fun i _ _ => h i (by omega) (by omega))
  have hmr : masksRead B ↔ masksRead A := by
    unfold masksRead
    rw [e14, e30]
  have em54 : (if masksRead B then fieldAt B 54 4 else 0) =
      (if masksRead A then fieldAt A 54 4 else 0) := by
    by_cases hm : masksRead A
    · have := bm hm
      rw [if_pos hm, if_pos (hmr.mpr hm),
        fieldAt_congr A B 54 4 (fun i _ _ => h i (by omega) (by omega))]
    · rw [if_neg hm, if_neg (fun hb => hm (hmr.mp hb))]
  have em58 : (if masksRead B then fieldAt B 58 4 else 0) =
      (if masksRead A then fieldAt A 58 4 else 0) := by
    by_cases hm : masksRead A
    · have := bm hm
      rw [if_pos hm, if_pos (hmr.mpr hm),
        fieldAt_congr A B 58 4 (fun i _ _ => h i (by omega) (by omega))]
    · rw [if_neg hm, if_neg (fun hb => hm (hmr.mp hb))]
  have em62 : (if masksRead B then fieldAt B 62 4 else 0) =
      (if masksRead A then fieldAt A 62 4 else 0) := by
    by_cases hm : masksRead A
    · have := bm hm
      rw [if_pos hm, if_pos (hmr.mpr hm),
        fieldAt_congr A B 62 4 (fun i _ _ => h i (by omega) (by omega))]
    · rw [if_neg hm, if_neg (fun hb => hm (hmr.mp hb))]
  have ea : (if V3INFOHEADER_SIZE_BYTES ≤ fieldAt A 14 4 then fieldAt B 66 4 else 0) =
      (if V3INFOHEADER_SIZE_BYTES ≤ fieldAt A 14 4 then fieldAt A 66 4 else 0) := by
    by_cases h3 : V3INFOHEADER_SIZE_BYTES ≤ fieldAt A 14 4
    · have := b3 h3
      rw [if_pos h3, if_pos h3,
        fieldAt_congr A B 66 4 (fun i _ _ => h i (by omega) (by omega))]
    · rw [if_neg h3, if_neg h3]
  have ec : V4INFOHEADER_SIZE_BYTES ≤ fieldAt A 14 4 → fieldAt B 70 4 = fieldAt A 70 4 := by
    intro h4
    have := b4 h4
    exact fieldAt_congr A B 70 4 (fun i _ _ => h i (by omega) (by omega))
  have ecs : (if V4INFOHEADER_SIZE_BYTES ≤ fieldAt A 14 4 then fieldAt B 70 4 else 0) =
      (if V4INFOHEADER_SIZE_BYTES ≤ fieldAt A 14 4 then fieldAt A 70 4 else 0) := by
    by_cases h4 : V4INFOHEADER_SIZE_BYTES ≤ fieldAt A 14 4
    · rw [if_pos h4, if_pos h4, ec h4]
    · rw [if_neg h4, if_neg h4]
  refine ⟨?_, ?_, ?_, ?_, e0, e14, e18, e30, ec⟩
  · unfold parsedFileHeader
    rw [e0, e2, e6, e8, e10]
  · unfold parsedInfo parsedCommon
    rw [em54, em58, em62, e14, ea, ecs, e18, e26, e28, e30, e34, e38, e42, e46, e50]
  · unfold parsedVersion
    rw [e14]
    by_cases hm : masksRead A
    · rw [if_pos hm, if_pos (hmr.mpr hm)]
    · rw [if_neg hm, if_neg (fun hb => hm (hmr.mp hb))]
  · unfold headerEnd
    rw [e14]
    by_cases hm : masksRead A
    · rw [if_pos hm, if_pos (hmr.mpr hm)]
    · rw [if_neg hm, if_neg (fun hb => hm (hmr.mp hb))]

/-! ## Row padding -/

theorem row_position_unique (S f p r1 p1 : Nat) (hp : p < S) (hp1 : p1 < S)
    (h : f * S + p = r1 * S + p1) : p = p1 := by
  have h1 : (f * S + p) % S = p := by
    rw [Nat.mul_comm, Nat.mul_add_mod, Nat.mod_eq_of_lt hp]
  have h2 : (r1 * S + p1) % S = p1 := by
    rw [Nat.mul_comm, Nat.mul_add_mod, Nat.mod_eq_of_lt hp1]
  rw [h] at h1
  omega

theorem rowsFit_of_length (A B : List Byte) (fileHead : FileHeader)
    (infoHead infoHead1 : InfoHeader) (hlen : A.length = B.length)
    (hb : infoHead.bitsPerPixel = infoHead1.bitsPerPixel)
    (hw : infoHead.bmpWidth_px = infoHead1.bmpWidth_px)
    (hn : infoHead.bmpHeight_px.natAbs = infoHead1.bmpHeight_px.natAbs)
    (h : RowsFit A fileHead infoHead) : RowsFit B fileHead infoHead1 := by
  intro S hS
  rw [← rowSizeBytes_congr infoHead infoHead1 hb hw] at hS
  rw [← hlen, ← hn]
  exact h S hS

/-- C6: for every two files of equal length, the first with a valid layout, that differ
only at row padding positions (positions of a stored row at or beyond
`ceil(bpp * width / 8)`), `load` gives the same result: the same return code, pixel
sequence, width and height, or the same fault.  No padding byte influences a decoded
pixel. -/
theorem load_ignores_padding (junk : Nat → Byte) (fuel : Nat) (A B : List Byte)
    (self : BmpImage) (hv : ValidLayout A) (hlen : A.length = B.length)
    (hdiff : ∀ i, B[i]? ≠ A[i]? → IsRowPadding A i) :
    load junk fuel (some A) self = load junk fuel (some B) self := by
  have hagree : ∀ i, ¬ IsRowPadding A i → B[i]? = A[i]? := by
    intro i hi
    by_contra hne
    exact hi (hdiff i hne)
  have hbefore : ∀ i, i < (parsedFileHeader A).pixelOffset_bytes → B[i]? = A[i]? := by
    intro i hi
    apply hagree
    rintro ⟨S, _, r, p, _, _, _, he⟩
    omega
  obtain ⟨v1, v2, v3, v4, v5, v6⟩ := hv
  obtain ⟨b54, _, _, _, _⟩ := headerEnd_bounds A
  obtain ⟨p1, p2, p3, p4, p5, p6, p7, p8, p9⟩ :=
    parsed_agree A B (fun i hi _ => hbefore i (by omega))
  have e22 : fieldAt B 22 4 = fieldAt A 22 4 :=
    fieldAt_congr A B 22 4 (fun i _ _ => hbefore i (by omega))
  have p2' : parsedInfo B = parsedInfo A := by rw [p2, e22]; rfl
  have hvB : ValidLayout B := by
    unfold ValidLayout
    rw [p1, p2', p4, ← hlen]
    exact ⟨v1, v2, v3, v4, v5, rowsFit_of_length A B _ _ _ hlen rfl rfl rfl v6⟩
  rw [load_eq_ref junk fuel A self ⟨v1, v2, v3, v4, v5, v6⟩, load_eq_ref junk fuel B self hvB,
    p1, p2', p3, p5, p6, p7, p8, e22]
  have hd : dispatchRef fuel A (parsedFileHeader A) (parsedInfo A) (parsedVersion A)
      self.pixels = dispatchRef fuel B (parsedFileHeader A) (parsedInfo A) (parsedVersion A)
      self.pixels := by
    apply dispatchRef_congr fuel A B (parsedFileHeader A) (parsedInfo A)
      (parsedInfo A).bmpHeight_px (parsedVersion A) self.pixels hlen rfl (fun _ _ => rfl)
    · intro hnc i _ hi2
      exact (hbefore i (by have := v5 hnc; omega)).symm
    · intro S hS r hr
      obtain ⟨f1, f2⟩ := v6 S hS
      have hfa := rowStart_fits (parsedFileHeader A).pixelOffset_bytes S
        (parsedInfo A).bmpHeight_px.natAbs A.length (parsedInfo A).bmpHeight_px r hr f1
      refine ⟨hfa, by rw [← hlen]; exact hfa, ?_⟩
      intro p hp hp2
      symm
      apply hagree
      rintro ⟨S1, hS1, r1, q, _, hq1, hq2, he⟩
      rw [hS] at hS1
      simp only [Except.ok.injEq, Nat.cast_inj] at hS1
      subst hS1
      unfold rowStart at he
      have he1 : (if (parsedInfo A).bmpHeight_px < 0 then
          (parsedInfo A).bmpHeight_px.natAbs - 1 - r else r) * S + p = r1 * S + q := by omega
      have := row_position_unique S _ p r1 q hp hq2 he1
      omega
  rw [hd]
  by_cases h4 : V4INFOHEADER_SIZE_BYTES ≤ fieldAt A 14 4
  · rw [p9 h4]
  · simp only [h4, false_and, if_false]

theorem validLayout_of_exact (data : List Byte) (w : Nat)
    (h1 : V1INFOHEADER_SIZE_BYTES ≤ (parsedInfo data).headerSize_bytes)
    (hw : (parsedInfo data).bmpWidth_px = w)
    (h3 : headerEnd data ≤ (parsedFileHeader data).pixelOffset_bytes)
    (h5 : (parsedInfo data).numPaletteColors ≤ 255 →
      FILEHEADER_SIZE_BYTES + (parsedInfo data).headerSize_bytes +
        4 * (parsedInfo data).numPaletteColors ≤ (parsedFileHeader data).pixelOffset_bytes)
    (hexact : (parsedInfo data).bitsPerPixel * w < 2 ^ 24)
    (hfit : (parsedFileHeader data).pixelOffset_bytes +
      (parsedInfo data).bmpHeight_px.natAbs * rowStride (parsedInfo data).bitsPerPixel w ≤
        data.length)
    (hrange : (parsedFileHeader data).pixelOffset_bytes +
      (parsedInfo data).bmpHeight_px.natAbs * rowStride (parsedInfo data).bitsPerPixel w <
        2147483648) :
    ValidLayout data :=
  ⟨h1, by rw [hw]; exact Int.ofNat_nonneg _, h3, by omega, h5,
    rowsFit_of_exact data _ _ w hw hexact hfit hrange⟩

theorem sampleOnePixel_valid : ValidLayout sampleOnePixel :=
  validLayout_of_exact sampleOnePixel 1 (by decide) (by decide) (by decide) (by decide)
    (by decide) (by decide) (by decide)

theorem load_ignores_padding_witness :
    load sampleJunk 0 (some sampleOnePixel) freshImage =
        .ok (0, { pixels := [{ r := 3, g := 2, b := 1, a := 0 }], width_px := 1,
                  height_px := 1 }) ∧
      load sampleJunk 0 (some sampleOnePixel) freshImage =
        load sampleJunk 0 (some samplePaddedOther) freshImage :=
  ⟨by decide,
    load_ignores_padding sampleJunk 0 sampleOnePixel samplePaddedOther freshImage
      sampleOnePixel_valid (by decide) (by
        intro i hne
        have hi : i = 57 := by
          by_contra hcon
          apply hne
          by_cases h58 : i < 58
          · interval_cases i <;> first | rfl | exact absurd rfl hcon
          · rw [List.getElem?_eq_none (by simp [samplePaddedOther]; omega),
              List.getElem?_eq_none (by simp [sampleOnePixel]; omega)]
        subst hi
        exact ⟨4, by decide, 0, 3, by decide, by decide, by decide, by decide⟩)⟩

/-! ## Orientation -/

theorem toInt32_range (u : Nat) : -2147483648 ≤ toInt32 u ∧ toInt32 u < 2147483648 := by
  unfold toInt32
  have h : u % 2 ^ 32 < 4294967296 := Nat.mod_lt _ (by decide)
  split
  · rename_i h1
    norm_num at h1
    omega
  · rename_i h1
    norm_num at h1
    omega

theorem rowSizeBytes_nonneg (infoHead : InfoHeader) (hw : 0 ≤ infoHead.bmpWidth_px) (R : Int)
    (h : rowSizeBytes infoHead = .ok R) : 0 ≤ R := by
  unfold rowSizeBytes at h
  have hp : 0 ≤ (infoHead.bitsPerPixel : Int) * infoHead.bmpWidth_px :=
    Int.mul_nonneg (Int.ofNat_nonneg _) hw
  cases hc : checkInt ((infoHead.bitsPerPixel : Int) * infoHead.bmpWidth_px) with
  | error e => rw [hc] at h; cases h
  | ok p =>
    rw [hc] at h
    simp only [Except.ok.injEq] at h
    have hpe : p = (infoHead.bitsPerPixel : Int) * infoHead.bmpWidth_px := by
      unfold checkInt at hc
      split at hc
      · simp only [Except.ok.injEq] at hc
        exact hc.symm
      · cases hc
    have hr : 0 ≤ roundFloatInt p := by
      unfold roundFloatInt
      rw [if_pos (by rw [hpe]; exact hp)]
      exact Int.ofNat_nonneg _
    rw [← h]
    omega

theorem rowPlan_orientation (fileHead : FileHeader) (infoHead : InfoHeader) (S : Nat)
    (hpos : 0 < infoHead.bmpHeight_px) (hh : infoHead.bmpHeight_px < 2147483648)
    (hrange : fileHead.pixelOffset_bytes + infoHead.bmpHeight_px.natAbs * S < 2147483648) :
    (rowPlan fileHead infoHead (S : Int)).map Prod.fst =
      (rowPlan fileHead { infoHead with bmpHeight_px := -infoHead.bmpHeight_px }
        (S : Int)).map Prod.fst := by
  have hn : infoHead.bmpHeight_px.natAbs < 2147483648 := by omega
  have hn1 : 1 ≤ infoHead.bmpHeight_px.natAbs := by omega
  have hS : S < 2147483648 := by
    have : S ≤ infoHead.bmpHeight_px.natAbs * S := Nat.le_mul_of_pos_left S hn1
    omega
  have hnn : (-infoHead.bmpHeight_px).natAbs = infoHead.bmpHeight_px.natAbs := Int.natAbs_neg _
  rw [rowPlan_bottom fileHead infoHead S hn (by omega) (by omega),
    rowPlan_top fileHead { infoHead with bmpHeight_px := -infoHead.bmpHeight_px } S
      (by show (-infoHead.bmpHeight_px).natAbs < _; rw [hnn]; exact hn)
      (by show _ + (-infoHead.bmpHeight_px).natAbs * S < _; rw [hnn]; exact hrange) hS
      (by show -infoHead.bmpHeight_px < 0; omega)]
  show Except.ok _ = Except.ok _
  congr 1
  show (infoHead.bmpHeight_px.natAbs : Int) = ((-infoHead.bmpHeight_px).natAbs : Int)
  rw [hnn]

theorem pixelsOf_load_shape (c1 c2 c3 : Prop) [Decidable c1] [Decidable c2] [Decidable c3]
    (self : BmpImage) (d : Except Fault (List Color4)) (w h h1 : Int) :
    pixelsOf (if c1 then .ok (-1, self) else if c2 then .ok (-1, self)
      else if c3 then .ok (-1, self)
      else match d with
        | .error e => .error e
        | .ok pixels => .ok (0, { pixels := pixels, width_px := w, height_px := h })) =
    pixelsOf (if c1 then .ok (-1, self) else if c2 then .ok (-1, self)
      else if c3 then .ok (-1, self)
      else match d with
        | .error e => .error e
        | .ok pixels => .ok (0, { pixels := pixels, width_px := w, height_px := h1 })) := by
  by_cases h1 : c1
  · simp only [h1, if_true]
  · by_cases h2 : c2
    · simp only [h1, h2, if_true, if_false]
    · by_cases h3 : c3
      · simp only [h1, h2, h3, if_true, if_false]
      · simp only [h1, h2, h3, if_false]
        cases d <;> rfl

/-- C3: for every pair of files of equal length, the first with a valid layout and a
positive height `h`, the second identical to the first in every byte before the pixel data
except that it declares the height `-h`, and holding the same rows in the reverse order,
`load` gives the same return code and the same pixel sequence (or the same fault) for both;
this covers the paletted and the direct path. -/
theorem load_orientation (junk : Nat → Byte) (fuel : Nat) (A B : List Byte) (self : BmpImage)
    (hv : ValidLayout A) (hlen : A.length = B.length)
    (hpos : 0 < (parsedInfo A).bmpHeight_px)
    (hneg : (parsedInfo B).bmpHeight_px = -(parsedInfo A).bmpHeight_px)
    (hhdr : ∀ i, i < (parsedFileHeader A).pixelOffset_bytes → (i < 22 ∨ 26 ≤ i) →
      B[i]? = A[i]?)
    (hrows : ∀ S : Nat, rowSizeBytes (parsedInfo A) = .ok (S : Int) →
      ∀ r, r < (parsedInfo A).bmpHeight_px.natAbs → ∀ p, p < S →
        B[(parsedFileHeader A).pixelOffset_bytes +
            ((parsedInfo A).bmpHeight_px.natAbs - 1 - r) * S + p]? =
          A[(parsedFileHeader A).pixelOffset_bytes + r * S + p]?) :
    pixelsOf (load junk fuel (some A) self) = pixelsOf (load junk fuel (some B) self) := by
  obtain ⟨v1, v2, v3, v4, v5, v6⟩ := hv
  obtain ⟨b54, _, _, _, _⟩ := headerEnd_bounds A
  obtain ⟨p1, p2, p3, p4, p5, p6, p7, p8, p9⟩ :=
    parsed_agree A B (fun i hi hi2 => hhdr i (by omega) hi2)
  have hB22 : toInt32 (fieldAt B 22 4) = -(parsedInfo A).bmpHeight_px := hneg
  have hnn : (-(parsedInfo A).bmpHeight_px).natAbs = (parsedInfo A).bmpHeight_px.natAbs :=
    Int.natAbs_neg _
  have hh : (parsedInfo A).bmpHeight_px < 2147483648 := (toInt32_range _).2
  have hvB : ValidLayout B := by
    unfold ValidLayout
    rw [p1, p2, p4, ← hlen, hB22]
    exact ⟨v1, v2, v3, v4, v5,
      rowsFit_of_length A B _ (parsedInfo A) _ hlen rfl rfl hnn.symm v6⟩
  rw [load_eq_ref junk fuel A self ⟨v1, v2, v3, v4, v5, v6⟩, load_eq_ref junk fuel B self hvB,
    p1, p2, p3, p5, p6, p7, p8, hB22]
  have hd : dispatchRef fuel A (parsedFileHeader A) (parsedInfo A) (parsedVersion A)
      self.pixels = dispatchRef fuel B (parsedFileHeader A)
        { parsedInfo A with bmpHeight_px := -(parsedInfo A).bmpHeight_px } (parsedVersion A)
        self.pixels := by
    apply dispatchRef_congr fuel A B (parsedFileHeader A) (parsedInfo A)
      (-(parsedInfo A).bmpHeight_px) (parsedVersion A) self.pixels hlen hnn.symm
    · intro R hR
      have hR0 := rowSizeBytes_nonneg _ v2 R hR
      obtain ⟨S, rfl⟩ : ∃ S : Nat, R = S := ⟨R.toNat, by omega⟩
      exact rowPlan_orientation _ _ S hpos hh (v6 S hR).2
    · intro hnc i hi1 hi2
      have := v5 hnc
      unfold FILEHEADER_SIZE_BYTES V1INFOHEADER_SIZE_BYTES at *
      exact (hhdr i (by omega) (by omega)).symm
    · intro S hS r hr
      obtain ⟨f1, f2⟩ := v6 S hS
      have hfa := rowStart_fits (parsedFileHeader A).pixelOffset_bytes S
        (parsedInfo A).bmpHeight_px.natAbs A.length (parsedInfo A).bmpHeight_px r hr f1
      have hfb := rowStart_fits (parsedFileHeader A).pixelOffset_bytes S
        (parsedInfo A).bmpHeight_px.natAbs A.length (-(parsedInfo A).bmpHeight_px) r hr f1
      refine ⟨hfa, by rw [← hlen]; exact hfb, ?_⟩
      intro p hp _
      unfold rowStart
      rw [if_neg (by omega), if_pos (by omega)]
      exact (hrows S hS r hr p hp).symm
  rw [hd]
  have hcs : (V4INFOHEADER_SIZE_BYTES ≤ fieldAt A 14 4 ∧ fieldAt B 70 4 ≠ SRGBMAGIC) ↔
      (V4INFOHEADER_SIZE_BYTES ≤ fieldAt A 14 4 ∧ fieldAt A 70 4 ≠ SRGBMAGIC) := by
    constructor
    · rintro ⟨h4, hne⟩
      exact ⟨h4, by rw [← p9 h4]; exact hne⟩
    · rintro ⟨h4, hne⟩
      exact ⟨h4, by rw [p9 h4]; exact hne⟩
  simp only [hcs]
  exact pixelsOf_load_shape _ _ _ self _ _ _ _

theorem sampleTwoByTwoFlipped_valid : ValidLayout sampleTwoByTwoFlipped :=
  validLayout_of_exact sampleTwoByTwoFlipped 2 (by decide) (by decide) (by decide) (by decide)
    (by decide) (by decide) (by decide)

theorem load_orientation_witness :
    pixelsOf (load sampleJunk 0 (some sampleTwoByTwoFlipped) freshImage) =
        .ok (0, [{ r := 9, g := 8, b := 7, a := 0 }, { r := 12, g := 11, b := 10, a := 0 },
          { r := 3, g := 2, b := 1, a := 0 }, { r := 6, g := 5, b := 4, a := 0 }]) ∧
      pixelsOf (load sampleJunk 0 (some sampleTwoByTwoFlipped) freshImage) =
        pixelsOf (load sampleJunk 0 (some sampleTwoByTwo) freshImage) :=
  ⟨by decide,
    load_orientation sampleJunk 0 sampleTwoByTwoFlipped sampleTwoByTwo freshImage
      sampleTwoByTwoFlipped_valid (by decide) (by decide) (by decide)
      (by
        intro i hi hi2
        have hi54 : i < 54 := hi
        interval_cases i <;> first | rfl | (exfalso; omega))
      (by
        intro S hS r hr p hp
        have h8 : rowSizeBytes (parsedInfo sampleTwoByTwoFlipped) = .ok 8 := by decide
        rw [h8] at hS
        simp only [Except.ok.injEq] at hS
        have hS8 : S = 8 := by omega
        subst hS8
        have hr2 : r < 2 := hr
        interval_cases r <;> interval_cases p <;> rfl)⟩

/-! ## The state left by a successful `load` -/

theorem sampleTopOrigin_valid : ValidLayout sampleTopOrigin :=
  validLayout_of_exact sampleTopOrigin 1 (by decide) (by decide) (by decide) (by decide)
    (by decide) (by decide) (by decide)

/-- C4 (the code departs from the claim): `sampleTopOrigin` is a well-formed 1x1 24-bit file
with declared height -1; whatever uninitialised memory holds, `load` on a fresh object
returns 0 and leaves height -1, so the height is negative and the pixel count 1 is not
width times height. -/
theorem load_keeps_negative_height (junk : Nat → Byte) (fuel : Nat) :
    load junk fuel (some sampleTopOrigin) freshImage =
        .ok (0, { pixels := [{ r := 3, g := 2, b := 1, a := 0 }], width_px := 1,
                  height_px := -1 }) ∧
      ((1 : Int) * (-1) ≠ ([{ r := 3, g := 2, b := 1, a := 0 }] : List Color4).length) := by
  constructor
  · rw [load_eq_ref junk fuel _ _ sampleTopOrigin_valid]
    rfl
  · decide

/-- C5 (the code departs from the claim): `load` never clears `_pixels`; loading the
well-formed 1x1 file `sampleOnePixel` twice into the same object leaves two pixels where one
call leaves one, while width and height are 1 both times. -/
theorem load_twice_appends (junk : Nat → Byte) (fuel : Nat) :
    load junk fuel (some sampleOnePixel) freshImage =
        .ok (0, { pixels := [{ r := 3, g := 2, b := 1, a := 0 }], width_px := 1,
                  height_px := 1 }) ∧
      load junk fuel (some sampleOnePixel)
          { pixels := [{ r := 3, g := 2, b := 1, a := 0 }], width_px := 1, height_px := 1 } =
        .ok (0, { pixels := [{ r := 3, g := 2, b := 1, a := 0 }, { r := 3, g := 2, b := 1, a := 0 }],
                  width_px := 1, height_px := 1 }) := by
  constructor
  · rw [load_eq_ref junk fuel _ _ sampleOnePixel_valid]
    rfl
  · rw [load_eq_ref junk fuel _ _ sampleOnePixel_valid]
    rfl

/-! ## The paletted depths reached by the `switch` -/

/-- C11 (the code departs from the claim): `sampleOneBit` is a complete 1-bit image of 8 by 1
pixels with a two-colour palette.  `extractPalettedPixels`, called on its headers, decodes
the eight palette colours of the row 0b10100101, but the `switch` of `load` has no
`case 1`: `load` returns 0 and appends no pixel. -/
theorem load_skips_depth_one (junk : Nat → Byte) (fuel : Nat) :
    fieldAt sampleOneBit 28 2 = 1 ∧
      load junk fuel (some sampleOneBit) freshImage =
        .ok (0, { pixels := [], width_px := 8, height_px := 1 }) ∧
      extractPalettedPixels junk (fuel + 3) (seqState sampleOneBit (headerEnd sampleOneBit))
          (parsedFileHeader sampleOneBit) (parsedInfo sampleOneBit) [] =
        .ok [{ r := 60, g := 50, b := 40, a := 0 }, { r := 30, g := 20, b := 10, a := 0 },
             { r := 60, g := 50, b := 40, a := 0 }, { r := 30, g := 20, b := 10, a := 0 },
             { r := 30, g := 20, b := 10, a := 0 }, { r := 60, g := 50, b := 40, a := 0 },
             { r := 30, g := 20, b := 10, a := 0 }, { r := 60, g := 50, b := 40, a := 0 }] := by
  refine ⟨by decide, rfl, ?_⟩
  rw [extractPalettedPixels_ok junk (fuel + 3) _ _ _ [] 8 1 (by decide) (by decide) (by decide)
    (by decide) (by decide) (by decide) (by show 2 < fuel + 3; omega) (by decide) (by decide)
    (by decide) (by decide) (by decide) (by decide) (by decide)]
  rfl

/-! ## Failure returns -/

/-- C12: for every input (a file that cannot be opened or any file contents) and every
prior object state, whenever `load` returns -1 the pixel sequence, the width and the height
of the object are what they were before the call. -/
theorem load_failure_keeps_object (junk : Nat → Byte) (fuel : Nat)
    (contents : Option (List Byte)) (self img : BmpImage)
    (h : load junk fuel contents self = .ok (-1, img)) :
    img.pixels = self.pixels ∧ img.width_px = self.width_px ∧
      img.height_px = self.height_px := by
  have key : img = self := by
    unfold load at h
    split at h
    · simp only [Except.ok.injEq, Prod.mk.injEq, true_and] at h
      exact h.symm
    · simp only [] at h
      split at h
      · simp only [Except.ok.injEq, Prod.mk.injEq, true_and] at h
        exact h.symm
      · split at h
        · simp only [Except.ok.injEq, Prod.mk.injEq, true_and] at h
          exact h.symm
        · split at h
          · simp only [Except.ok.injEq, Prod.mk.injEq, true_and] at h
            exact h.symm
          · split at h
            · exact absurd h (by simp)
            · simp only [Except.ok.injEq, Prod.mk.injEq] at h
              exact absurd h.1 (by decide)
  rw [key]
  exact ⟨rfl, rfl, rfl⟩

theorem load_failure_keeps_object_witness :
    load sampleJunk 0 (some sampleCompressed) sampleLoadedImage =
        .ok (-1, sampleLoadedImage) ∧
      sampleLoadedImage.pixels = [{ r := 3, g := 2, b := 1, a := 0 }] ∧
      sampleLoadedImage.width_px = 1 ∧ sampleLoadedImage.height_px = 1 :=
  ⟨by decide, load_failure_keeps_object sampleJunk 0 (some sampleCompressed) sampleLoadedImage
    sampleLoadedImage (by decide)⟩

/-! ## Short files -/

theorem fieldAt_of_length_le (data : List Byte) (o n : Nat) (h : data.length ≤ o) :
    fieldAt data o n = 0 := by
  unfold fieldAt
  rw [List.drop_of_length_le h, List.take_nil]
  rfl

theorem load_returns_failure_iff (junk : Nat → Byte) (fuel : Nat) (data : List Byte)
    (self : BmpImage) :
    (∃ img, load junk fuel (some data) self = .ok (-1, img)) ↔
      (fieldAt data 0 2 ≠ BMPMAGIC ∨
        (V4INFOHEADER_SIZE_BYTES ≤ fieldAt data 14 4 ∧ fieldAt data 70 4 ≠ SRGBMAGIC) ∨
        (fieldAt data 30 4 ≠ BI_RGB ∧ fieldAt data 30 4 ≠ BI_BITFIELDS)) := by
  rw [load_eq]
  by_cases h1 : fieldAt data 0 2 ≠ BMPMAGIC
  · rw [if_pos h1]
    exact ⟨fun _ => Or.inl h1, fun _ => ⟨self, rfl⟩⟩
  · rw [if_neg h1]
    by_cases h2 : V4INFOHEADER_SIZE_BYTES ≤ fieldAt data 14 4 ∧ fieldAt data 70 4 ≠ SRGBMAGIC
    · rw [if_pos h2]
      exact ⟨fun _ => Or.inr (Or.inl h2), fun _ => ⟨self, rfl⟩⟩
    · rw [if_neg h2]
      by_cases h3 : fieldAt data 30 4 ≠ BI_RGB ∧ fieldAt data 30 4 ≠ BI_BITFIELDS
      · rw [if_pos h3]
        exact ⟨fun _ => Or.inr (Or.inr h3), fun _ => ⟨self, rfl⟩⟩
      · rw [if_neg h3]
        constructor
        · rintro ⟨img, h⟩
          split at h
          · exact absurd h (by simp)
          · simp only [Except.ok.injEq, Prod.mk.injEq] at h
            exact absurd h.1 (by decide)
        · rintro (h | h | h)
          · exact absurd h h1
          · exact absurd h h2
          · exact absurd h h3

/-- C13 (amended): `load` checks no read.  A header field that the file is too short for is
read as the little-endian value of the bytes that are present (0 when there is none), and
for every file that begins with the magic "BM", `load` returns -1 exactly when, on these
values, the colour-space tag is read (header size at least 108) and is not "sRGB", or the
compression is neither `BI_RGB` nor `BI_BITFIELDS`.  In particular a file that begins with
the magic and has at most 14 bytes makes `load` return 0, with the pixel sequence unchanged
and width and height 0. -/
theorem load_ignores_short_reads (junk : Nat → Byte) (fuel : Nat) (data : List Byte)
    (self : BmpImage) (hm : data.take 2 = [0x42, 0x4D]) :
    ((∃ img, load junk fuel (some data) self = .ok (-1, img)) ↔
      ((V4INFOHEADER_SIZE_BYTES ≤ fieldAt data 14 4 ∧ fieldAt data 70 4 ≠ SRGBMAGIC) ∨
        (fieldAt data 30 4 ≠ BI_RGB ∧ fieldAt data 30 4 ≠ BI_BITFIELDS))) ∧
      (data.length ≤ 14 → load junk fuel (some data) self =
        .ok (0, { pixels := self.pixels, width_px := 0, height_px := 0 })) := by
  have hmagic : fieldAt data 0 2 = BMPMAGIC := (fieldAt_magic_iff data).mpr hm
  constructor
  · rw [load_returns_failure_iff]
    constructor
    · rintro (h | h)
      · exact absurd hmagic h
      · exact h
    · exact Or.inr
  · intro hlen
    have z : ∀ o n, 14 ≤ o → fieldAt data o n = 0 := fun o n ho =>
      fieldAt_of_length_le data o n (by omega)
    have hb : (parsedInfo data).bitsPerPixel = 0 := z 28 2 (by omega)
    rw [load_eq, if_neg (by simpa using hmagic),
      if_neg (by rw [z 14 4 (by omega)]; intro h; exact absurd h.1 (by decide)),
      if_neg (by rw [z 30 4 (by omega)]; decide)]
    unfold dispatch
    simp only [hb]
    rw [z 18 4 (by omega), z 22 4 (by omega)]
    rfl

theorem load_ignores_short_reads_witness :
    sampleMagicOnly.take 2 = [0x42, 0x4D] ∧ sampleMagicOnly.length ≤ 14 ∧
      load sampleJunk 0 (some sampleMagicOnly) sampleLoadedImage =
        .ok (0, { pixels := sampleLoadedImage.pixels, width_px := 0, height_px := 0 }) :=
  ⟨by decide, by decide,
    (load_ignores_short_reads sampleJunk 0 sampleMagicOnly sampleLoadedImage (by decide)).2
      (by decide)⟩

/-- C13 (counterexample to the claim as stated): the file that consists of the two bytes
"BM" begins with the magic and ends before its headers are complete, yet `load` returns 0
(success) whatever uninitialised memory holds. -/
theorem load_short_file_counterexample :
    sampleMagicOnly = [0x42, 0x4D] ∧
      ∀ (junk : Nat → Byte) (fuel : Nat), load junk fuel (some sampleMagicOnly) freshImage =
        .ok (0, { pixels := [], width_px := 0, height_px := 0 }) :=
  ⟨rfl, fun _ _ => rfl⟩

/-! ## The masks chosen by the `switch` of `load` -/

theorem dispatch_direct (junk : Nat → Byte) (fuel : Nat) (file : IfStream)
    (fileHead : FileHeader) (infoHead : InfoHeader) (ver : Nat) (pixels : List Color4)
    (hbpp : infoHead.bitsPerPixel = 16 ∨ infoHead.bitsPerPixel = 24 ∨
      infoHead.bitsPerPixel = 32) :
    dispatch junk fuel file fileHead infoHead ver pixels =
      extractPixels junk file fileHead (directInfo infoHead ver) pixels := by
  unfold dispatch directInfo
  rcases hbpp with h | h | h <;> simp only [h] <;> norm_num <;> split <;> rfl

theorem directInfo_shape (infoHead : InfoHeader) (ver : Nat) :
    (directInfo infoHead ver).bitsPerPixel = infoHead.bitsPerPixel ∧
      (directInfo infoHead ver).bmpWidth_px = infoHead.bmpWidth_px ∧
      (directInfo infoHead ver).bmpHeight_px = infoHead.bmpHeight_px := by
  unfold directInfo
  repeat' split
  all_goals exact ⟨rfl, rfl, rfl⟩

theorem parsedInfo_masks_lt (data : List Byte) :
    (parsedInfo data).redMask < 2 ^ 32 ∧ (parsedInfo data).greenMask < 2 ^ 32 ∧
      (parsedInfo data).blueMask < 2 ^ 32 ∧ (parsedInfo data).alphaMask < 2 ^ 32 := by
  have h := fun o => fieldAt_lt data o 4
  have e : (256 : Nat) ^ 4 = 2 ^ 32 := by norm_num
  simp only [e] at h
  refine ⟨?_, ?_, ?_, ?_⟩ <;> simp only [parsedInfo] <;> split <;>
    first | exact h _ | exact Nat.two_pow_pos 32

theorem directInfo_masks_lt (infoHead : InfoHeader) (ver : Nat)
    (h : infoHead.redMask < 2 ^ 32 ∧ infoHead.greenMask < 2 ^ 32 ∧
      infoHead.blueMask < 2 ^ 32 ∧ infoHead.alphaMask < 2 ^ 32) :
    (directInfo infoHead ver).redMask < 2 ^ 32 ∧ (directInfo infoHead ver).greenMask < 2 ^ 32 ∧
      (directInfo infoHead ver).blueMask < 2 ^ 32 ∧
      (directInfo infoHead ver).alphaMask < 2 ^ 32 := by
  unfold directInfo
  repeat' split
  all_goals first | exact h | (refine ⟨?_, ?_, ?_, ?_⟩ <;> first | exact h.2.2.2 | norm_num)

theorem exists_alphaShift (mask : Nat) (h32 : mask < 2 ^ 32) :
    ∃ as, (if mask ≠ 0 then shiftLoop mask 32 0 else Except.ok 0) = .ok as ∧
      (mask ≠ 0 → IsLowestSetBit mask as) := by
  by_cases ha : mask = 0
  · exact ⟨0, by rw [if_neg (by simpa using ha)], fun h => absurd ha h⟩
  · obtain ⟨as, _, has⟩ := exists_lowestSetBit _ ha h32
    exact ⟨as, by rw [if_pos ha]; exact shiftLoop_of_lowest _ _ has 32 0 (by omega) (by omega),
      fun _ => has⟩

theorem directPixels_length (data : List Byte) (infoHead : InfoHeader) (po S n : Nat)
    (h : Int) (rs gs bs as psz w : Nat) :
    ((fileRows data po S n h).flatMap (directRow infoHead rs gs bs as psz w)).length =
      w * n := by
  rw [length_flatMap_uniform _ w]
  · simp [fileRows]
  · intro row _
    simp [directRow]

theorem directPixels_getElem? (data : List Byte) (infoHead : InfoHeader) (po S n : Nat)
    (h : Int) (rs gs bs as psz w r c : Nat) (hr : r < n) (hc : c < w) (hS : w * psz ≤ S) :
    ((fileRows data po S n h).flatMap (directRow infoHead rs gs bs as psz w))[r * w + c]? =
      some (maskedColor infoHead rs gs bs as (fieldAt data (rowStart po S n h r + c * psz) psz))
    := by
  have hrow : (fileRows data po S n h)[r]? =
      some ((data.drop (rowStart po S n h r)).take S) := by
    unfold fileRows
    rw [List.getElem?_map, List.getElem?_range hr]
    rfl
  have hpix : c * psz + psz ≤ S := by
    have : (c + 1) * psz ≤ w * psz := Nat.mul_le_mul_right _ hc
    rw [Nat.add_mul, Nat.one_mul] at this
    omega
  rw [getElem?_flatMap_uniform _ w _ (by intro row _; simp [directRow]) r c hc, hrow]
  simp only [Option.some_bind, directRow, List.getElem?_map, List.getElem?_range hc,
    Option.map_some', take_drop_take_drop _ _ _ _ _ hpix]
  rfl

/-! ## `load` on a valid file of the direct path -/

theorem load_direct_ok (junk : Nat → Byte) (fuel : Nat) (data : List Byte) (self : BmpImage)
    (w n : Nat) (hv : ValidFile data w n)
    (hbpp : (parsedInfo data).bitsPerPixel = 16 ∨ (parsedInfo data).bitsPerPixel = 24 ∨
      (parsedInfo data).bitsPerPixel = 32)
    (hr : (directInfo (parsedInfo data) (parsedVersion data)).redMask ≠ 0)
    (hg : (directInfo (parsedInfo data) (parsedVersion data)).greenMask ≠ 0)
    (hb : (directInfo (parsedInfo data) (parsedVersion data)).blueMask ≠ 0) :
    ∃ rs gs bs as new,
      IsLowestSetBit (directInfo (parsedInfo data) (parsedVersion data)).redMask rs ∧
      IsLowestSetBit (directInfo (parsedInfo data) (parsedVersion data)).greenMask gs ∧
      IsLowestSetBit (directInfo (parsedInfo data) (parsedVersion data)).blueMask bs ∧
      ((directInfo (parsedInfo data) (parsedVersion data)).alphaMask ≠ 0 →
        IsLowestSetBit (directInfo (parsedInfo data) (parsedVersion data)).alphaMask as) ∧
      load junk fuel (some data) self =
        .ok (0, { pixels := self.pixels ++ new, width_px := (w : Int),
                  height_px := (parsedInfo data).bmpHeight_px }) ∧
      new.length = w * n ∧
      ∀ r c, r < n → c < w → new[r * w + c]? =
        some (maskedColor (directInfo (parsedInfo data) (parsedVersion data)) rs gs bs as
          (rawPixel data w n r c)) := by
  obtain ⟨hl, hm, hcs, hcomp, hw, hw1, hn, hexact, hcount⟩ := hv
  obtain ⟨d1, d2, d3⟩ := directInfo_shape (parsedInfo data) (parsedVersion data)
  obtain ⟨m1, m2, m3, m4⟩ := directInfo_masks_lt _ (parsedVersion data) (parsedInfo_masks_lt data)
  obtain ⟨rs, _, hrs⟩ := exists_lowestSetBit _ hr m1
  obtain ⟨gs, _, hgs⟩ := exists_lowestSetBit _ hg m2
  obtain ⟨bs, _, hbs⟩ := exists_lowestSetBit _ hb m3
  obtain ⟨as, has, hasp⟩ := exists_alphaShift _ m4
  obtain ⟨_, _, h3, h4, _, h6⟩ := hl
  obtain ⟨hfit, hrange⟩ := h6 (rowStride (parsedInfo data).bitsPerPixel w)
    (rowSizeBytes_exact _ w hw hexact)
  rw [hn] at hfit hrange
  have hcount1 : w * n < 2147483648 := by norm_num at hcount; exact hcount
  have hstride : w * ((parsedInfo data).bitsPerPixel / 8) ≤
      rowStride (parsedInfo data).bitsPerPixel w := stride_covers_pixels _ _ hbpp
  have hpsz1 : 1 ≤ (parsedInfo data).bitsPerPixel / 8 := by
    rcases hbpp with h | h | h <;> rw [h] <;> decide
  have hn31 : n < 2147483648 := by
    have h1 : 1 * 1 ≤ w * ((parsedInfo data).bitsPerPixel / 8) := Nat.mul_le_mul hw1 hpsz1
    have h2 : n * 1 ≤ n * rowStride (parsedInfo data).bitsPerPixel w :=
      Nat.mul_le_mul_left n (by omega)
    omega
  have hload := extractPixels_ok junk (seqState data (headerEnd data)) (parsedFileHeader data)
    (directInfo (parsedInfo data) (parsedVersion data)) self.pixels w n rs gs bs as
    (by rw [d1]; exact hbpp) (by rw [d2]; exact hw) (by rw [d3]; exact hn)
    (shiftLoop_of_lowest _ _ hrs 32 0 (by omega) (by omega))
    (shiftLoop_of_lowest _ _ hgs 32 0 (by omega) (by omega))
    (shiftLoop_of_lowest _ _ hbs 32 0 (by omega) (by omega))
    has (seqState_good _ _ (by omega)) (by rw [d1]; exact hexact) hcount1
    (by rw [d1]; exact hfit) (by rw [d1]; exact hrange) hn31
  refine ⟨rs, gs, bs, as,
    (fileRows data (parsedFileHeader data).pixelOffset_bytes
      (rowStride (parsedInfo data).bitsPerPixel w) n (parsedInfo data).bmpHeight_px).flatMap
      (directRow (directInfo (parsedInfo data) (parsedVersion data)) rs gs bs as
        ((parsedInfo data).bitsPerPixel / 8) w),
    hrs, hgs, hbs, hasp, ?_, directPixels_length _ _ _ _ _ _ _ _ _ _ _ _, ?_⟩
  · rw [load_eq, if_neg (by simpa using hm), if_neg (fun h => h.2 (hcs h.1)),
      if_neg (fun h => hcomp.elim h.1 h.2), dispatch_direct _ _ _ _ _ _ _ hbpp, hload]
    simp only [d1, d3]
    have ew : toInt32 (fieldAt data 18 4) = (w : Int) := hw
    have eh : toInt32 (fieldAt data 22 4) = (parsedInfo data).bmpHeight_px := rfl
    rw [ew, eh]
    rfl
  · intro r c hr1 hc1
    exact directPixels_getElem? data _ _ _ n _ rs gs bs as _ w r c hr1 hc1 hstride

/-! ## Bytes of a raw pixel -/

theorem fieldAt_succ (data : List Byte) (o n : Nat) :
    fieldAt data o (n + 1) = (data.getD o 0).val + 256 * fieldAt data (o + 1) n := by
  unfold fieldAt
  by_cases h : o < data.length
  · rw [List.drop_eq_getElem_cons h, List.take_succ_cons, leValue, List.getD_eq_getElem _ _ h]
  · rw [List.drop_of_length_le (by omega), List.drop_of_length_le (by omega),
      List.getD_eq_default _ _ (by omega)]
    simp [leValue]

theorem fieldAt_div_mod (data : List Byte) (k : Nat) :
    ∀ o n, k < n → fieldAt data o n / 256 ^ k % 256 = (data.getD (o + k) 0).val := by
  induction k with
  | zero =>
    intro o n hk
    obtain ⟨m, rfl⟩ : ∃ m, n = m + 1 := ⟨n - 1, by omega⟩
    have hb := (data.getD o 0).isLt
    simp only [pow_zero, Nat.div_one, Nat.add_zero]
    rw [fieldAt_succ]
    omega
  | succ k ih =>
    intro o n hk
    obtain ⟨m, rfl⟩ : ∃ m, n = m + 1 := ⟨n - 1, by omega⟩
    have hb := (data.getD o 0).isLt
    have e : ((data.getD o 0).val + 256 * fieldAt data (o + 1) m) / 256 ^ (k + 1) =
        fieldAt data (o + 1) m / 256 ^ k := by
      rw [pow_succ', ← Nat.div_div_eq_div_mul]
      congr 1
      omega
    rw [fieldAt_succ, e, ih (o + 1) m (by omega)]
    congr 2
    omega

theorem toUInt8_mask_byte (data : List Byte) (o n k m s : Nat) (hk : k < n)
    (hs : s = 8 * k) (hm : m = 255 <<< s) :
    toUInt8 ((fieldAt data o n &&& m) >>> s) = data.getD (o + k) 0 := by
  apply Fin.ext
  show (fieldAt data o n &&& m) >>> s % 256 = _
  have e255 : ∀ x : Nat, x &&& 255 = x % 256 := fun x =>
    Nat.and_pow_two_sub_one_eq_mod x 8
  have e8 : (2 : Nat) ^ (8 * k) = 256 ^ k := by rw [pow_mul]; norm_num
  rw [hm, and_shift_mask, e255, Nat.mod_mod, Nat.shiftRight_eq_div_pow, hs, e8,
    fieldAt_div_mod data k o n hk]

theorem directInfo_24 (infoHead : InfoHeader) (ver : Nat) (h : infoHead.bitsPerPixel = 24) :
    (directInfo infoHead ver).redMask = 0xff0000 ∧
      (directInfo infoHead ver).greenMask = 0x00ff00 ∧
      (directInfo infoHead ver).blueMask = 0x0000ff ∧
      (directInfo infoHead ver).alphaMask = 0 := by
  unfold directInfo
  simp [h]

theorem toUInt8_zero_mask (raw s : Nat) : toUInt8 ((raw &&& 0) >>> s) = 0 := by
  apply Fin.ext
  show (raw &&& 0) >>> s % 256 = 0
  rw [Nat.and_zero, Nat.zero_shiftRight]

/-! ## `load` as a call of `extractPixels` -/

theorem load_direct_eq (junk : Nat → Byte) (fuel : Nat) (data : List Byte) (self : BmpImage)
    (hm : fieldAt data 0 2 = BMPMAGIC)
    (hcs : V4INFOHEADER_SIZE_BYTES ≤ fieldAt data 14 4 → fieldAt data 70 4 = SRGBMAGIC)
    (hcomp : (parsedInfo data).compression = BI_RGB ∨
      (parsedInfo data).compression = BI_BITFIELDS)
    (hbpp : (parsedInfo data).bitsPerPixel = 16 ∨ (parsedInfo data).bitsPerPixel = 24 ∨
      (parsedInfo data).bitsPerPixel = 32) :
    load junk fuel (some data) self =
      (match extractPixels junk (seqState data (headerEnd data)) (parsedFileHeader data)
          (directInfo (parsedInfo data) (parsedVersion data)) self.pixels with
       | .error e => .error e
       | .ok pixels => .ok (0, { pixels := pixels, width_px := (parsedInfo data).bmpWidth_px,
                                 height_px := (parsedInfo data).bmpHeight_px })) := by
  rw [load_eq, if_neg (by simpa using hm), if_neg (fun h => h.2 (hcs h.1)),
    if_neg (fun h => hcomp.elim h.1 h.2), dispatch_direct _ _ _ _ _ _ _ hbpp]
  rfl

theorem directInfo_eq_24 (infoHead : InfoHeader) (ver : Nat) (h : infoHead.bitsPerPixel = 24) :
    directInfo infoHead ver =
      { infoHead with
        redMask := 0xff0000, greenMask := 0x00ff00, blueMask := 0x0000ff, alphaMask := 0 } := by
  unfold directInfo
  simp [h]

theorem directInfo_eq_rgb32 (infoHead : InfoHeader) (ver : Nat)
    (h : infoHead.bitsPerPixel = 32) (hc : infoHead.compression = BI_RGB) :
    directInfo infoHead ver =
      { infoHead with
        redMask := 0xff0000, greenMask := 0x00ff00, blueMask := 0x0000ff,
        alphaMask := if ver < 3 then 0xff000000 else infoHead.alphaMask } := by
  unfold directInfo
  simp [h, hc]

/-! ## 24 bits per pixel -/

/-- C14 (amended): the `switch` of `load` gives a 24-bit image the masks 0xFF0000, 0x00FF00,
0x0000FF and 0 under `BI_RGB` and under `BI_BITFIELDS`, whatever the mask fields of the header
hold: for every 24-bit file that passes the header checks of `load` (magic, colour-space tag,
compression mode), whatever its sizes, `load` is the call of `extractPixels` with these four
masks.  When the file is moreover complete with sizes inside the arithmetic of the code
(`ValidFile`: `24 * w < 2^24`, `w * n < 2^31`, the rows end inside the file below offset
2^31), `load` returns 0, appends `w * n` colours, and the pixel of output row `r` and column
`c`, stored as the bytes `b0, b1, b2` at its file offset, is decoded to red `b2`, green `b1`,
blue `b0` and alpha 0. -/
theorem load_24bit_fixed_masks (junk : Nat → Byte) (fuel : Nat) (data : List Byte)
    (self : BmpImage)
    (hm : fieldAt data 0 2 = BMPMAGIC)
    (hcs : V4INFOHEADER_SIZE_BYTES ≤ fieldAt data 14 4 → fieldAt data 70 4 = SRGBMAGIC)
    (hcomp : (parsedInfo data).compression = BI_RGB ∨
      (parsedInfo data).compression = BI_BITFIELDS)
    (hbpp : (parsedInfo data).bitsPerPixel = 24) :
    load junk fuel (some data) self =
      (match extractPixels junk (seqState data (headerEnd data)) (parsedFileHeader data)
          { parsedInfo data with
            redMask := 0xFF0000, greenMask := 0x00FF00, blueMask := 0x0000FF, alphaMask := 0 }
          self.pixels with
       | .error e => .error e
       | .ok pixels => .ok (0, { pixels := pixels, width_px := (parsedInfo data).bmpWidth_px,
                                 height_px := (parsedInfo data).bmpHeight_px })) ∧
    ∀ w n, ValidFile data w n →
      ∃ new, load junk fuel (some data) self =
          .ok (0, { pixels := self.pixels ++ new, width_px := (w : Int),
                    height_px := (parsedInfo data).bmpHeight_px }) ∧
        new.length = w * n ∧
        ∀ r c, r < n → c < w → new[r * w + c]? =
          some { r := data.getD (pixelStart data w n r c + 2) 0,
                 g := data.getD (pixelStart data w n r c + 1) 0,
                 b := data.getD (pixelStart data w n r c) 0,
                 a := 0 } := by
  refine ⟨?_, ?_⟩
  · rw [load_direct_eq junk fuel data self hm hcs hcomp (Or.inr (Or.inl hbpp)),
      directInfo_eq_24 _ _ hbpp]
  intro w n hv
  obtain ⟨m1, m2, m3, m4⟩ := directInfo_24 (parsedInfo data) (parsedVersion data) hbpp
  obtain ⟨rs, gs, bs, as, new, hrs, hgs, hbs, _, hload, hlen, hpix⟩ :=
    load_direct_ok junk fuel data self w n hv (Or.inr (Or.inl hbpp))
      (by rw [m1]; decide) (by rw [m2]; decide) (by rw [m3]; decide)
  rw [m1] at hrs
  rw [m2] at hgs
  rw [m3] at hbs
  have e1 : rs = 16 := lowestSetBit_unique _ _ _ hrs ⟨by decide, by decide⟩
  have e2 : gs = 8 := lowestSetBit_unique _ _ _ hgs ⟨by decide, by decide⟩
  have e3 : bs = 0 := lowestSetBit_unique _ _ _ hbs ⟨by decide, by decide⟩
  subst e1 e2 e3
  refine ⟨new, hload, hlen, ?_⟩
  intro r c hr hc
  rw [hpix r c hr hc]
  simp only [maskedColor, m1, m2, m3, m4, rawPixel, hbpp]
  rw [toUInt8_mask_byte data _ 3 2 _ 16 (by decide) (by decide) (by decide),
    toUInt8_mask_byte data _ 3 1 _ 8 (by decide) (by decide) (by decide),
    toUInt8_mask_byte data _ 3 0 _ 0 (by decide) (by decide) (by decide),
    toUInt8_zero_mask]
  rfl

theorem sampleMasked24_valid : ValidFile sampleMasked24 1 1 :=
  ⟨validLayout_of_exact sampleMasked24 1 (by decide) (by decide) (by decide) (by decide)
    (by decide) (by decide) (by decide), by decide, by decide, by decide, by decide, by decide,
    by decide, by decide, by decide⟩

theorem load_24bit_fixed_masks_witness :
    fieldAt sampleMasked24 30 4 = BI_BITFIELDS ∧
      fieldAt sampleMasked24 54 4 = 0x11 ∧
      ValidFile sampleMasked24 1 1 ∧
      load sampleJunk 0 (some sampleMasked24) freshImage =
        .ok (0, { pixels := [{ r := 3, g := 2, b := 1, a := 0 }], width_px := 1,
                  height_px := 1 }) ∧
      load sampleJunk 0 (some sampleMasked24) freshImage =
        (match extractPixels sampleJunk (seqState sampleMasked24 (headerEnd sampleMasked24))
            (parsedFileHeader sampleMasked24)
            { parsedInfo sampleMasked24 with
              redMask := 0xFF0000, greenMask := 0x00FF00, blueMask := 0x0000FF, alphaMask := 0 }
            freshImage.pixels with
         | .error e => .error e
         | .ok pixels =>
           .ok (0, { pixels := pixels, width_px := (parsedInfo sampleMasked24).bmpWidth_px,
                     height_px := (parsedInfo sampleMasked24).bmpHeight_px })) ∧
      ∃ new, load sampleJunk 0 (some sampleMasked24) freshImage =
          .ok (0, { pixels := freshImage.pixels ++ new, width_px := ((1 : Nat) : Int),
                    height_px := (parsedInfo sampleMasked24).bmpHeight_px }) ∧
        new.length = 1 * 1 ∧
        ∀ r c, r < 1 → c < 1 → new[r * 1 + c]? =
          some { r := sampleMasked24.getD (pixelStart sampleMasked24 1 1 r c + 2) 0,
                 g := sampleMasked24.getD (pixelStart sampleMasked24 1 1 r c + 1) 0,
                 b := sampleMasked24.getD (pixelStart sampleMasked24 1 1 r c) 0,
                 a := 0 } :=
  ⟨by decide, by decide, sampleMasked24_valid, by decide,
    (load_24bit_fixed_masks sampleJunk 0 sampleMasked24 freshImage (by decide) (by decide)
      (by decide) (by decide)).1,
    (load_24bit_fixed_masks sampleJunk 0 sampleMasked24 freshImage (by decide) (by decide)
      (by decide) (by decide)).2 1 1 sampleMasked24_valid⟩

/-! ## A 24-bit row that the `float` row size cuts short -/

theorem read_length (s : IfStream) (buf : List Byte) (n : Nat) (h : buf.length = n) :
    (s.read buf n).1.length = n := by
  unfold IfStream.read
  split
  · exact h
  · simp only [List.length_append, List.length_drop, List.length_take]
    omega

theorem pixelBytesLoop_short (row : List Byte) (base : Nat) :
    ∀ count k raw, row.length < base + k + count → 0 < count →
      pixelBytesLoop row base count k raw = .error .undefined := by
  intro count
  induction count with
  | zero => intro k raw _ h; exact absurd h (by decide)
  | succ c ih =>
    intro k raw h _
    unfold pixelBytesLoop
    cases hb : row[base + k]? with
    | none => rfl
    | some b =>
      simp only []
      have hlt : base + k < row.length := by
        by_contra hge
        rw [List.getElem?_eq_none (by omega)] at hb
        exact absurd hb (by simp)
      split
      · rfl
      · exact ih (k + 1) _ (by omega) (by omega)

theorem pixelBytesLoop_fault (row : List Byte) (base : Nat) :
    ∀ count k raw e, pixelBytesLoop row base count k raw = .error e → e = .undefined := by
  intro count
  induction count with
  | zero => intro k raw e h; simp [pixelBytesLoop] at h
  | succ c ih =>
    intro k raw e h
    unfold pixelBytesLoop at h
    split at h
    · injection h with h; exact h.symm
    · split at h
      · injection h with h; exact h.symm
      · exact ih _ _ _ h

theorem pixelLoop_short (infoHead : InfoHeader) (rs gs bs as : Nat) (row : List Byte)
    (psz : Nat) :
    ∀ count j pixels, row.length < (j + count) * psz → 0 < count →
      pixelLoop infoHead rs gs bs as row psz count j pixels = .error .undefined := by
  intro count
  induction count with
  | zero => intro j pixels _ h; exact absurd h (by decide)
  | succ c ih =>
    intro j pixels h _
    unfold pixelLoop
    cases hp : pixelBytesLoop row (j * psz) psz 0 0 with
    | error e => rw [pixelBytesLoop_fault _ _ _ _ _ _ hp]
    | ok raw =>
      simp only []
      have hc : 0 < c := by
        by_contra h0
        have hc0 : c = 0 := by omega
        subst hc0
        have hpsz : 0 < psz := by
          by_contra hz
          have : psz = 0 := by omega
          subst this
          simp at h
        rw [Nat.add_mul, Nat.one_mul] at h
        rw [pixelBytesLoop_short row (j * psz) psz 0 0 (by omega) hpsz] at hp
        exact absurd hp (by simp)
      exact ih (j + 1) _ (by rw [show j + 1 + c = j + (c + 1) by omega]; exact h) hc


theorem extractPixels_short_row (junk : Nat → Byte) (file : IfStream) (fileHead : FileHeader)
    (infoHead : InfoHeader) (pixels : List Color4) (S : Nat) (numRows po ro : Int)
    (rs gs bs as : Nat)
    (hsize : rowSizeBytes infoHead = .ok (S : Int))
    (hplan : rowPlan fileHead infoHead (S : Int) = .ok (numRows, po, ro))
    (hrs : shiftLoop infoHead.redMask 32 0 = .ok rs)
    (hgs : shiftLoop infoHead.greenMask 32 0 = .ok gs)
    (hbs : shiftLoop infoHead.blueMask 32 0 = .ok bs)
    (has : (if infoHead.alphaMask ≠ 0 then shiftLoop infoHead.alphaMask 32 0 else .ok 0) =
      .ok as)
    (hres : reservePixels infoHead numRows = .ok ())
    (hrows : 0 < numRows.toNat)
    (hshort : S < infoHead.bmpWidth_px.toNat * (infoHead.bitsPerPixel / 8)) :
    extractPixels junk file fileHead infoHead pixels = .error .undefined := by
  obtain ⟨c, hc⟩ : ∃ c, numRows.toNat = c + 1 := ⟨numRows.toNat - 1, by omega⟩
  have hw : 0 < infoHead.bmpWidth_px.toNat := by
    by_contra h0
    have : infoHead.bmpWidth_px.toNat = 0 := by omega
    rw [this] at hshort
    omega
  unfold extractPixels
  rw [hsize]
  simp only []
  rw [hplan]
  simp only []
  rw [hrs, hgs, hbs]
  simp only []
  rw [has]
  simp only []
  rw [hres]
  simp only []
  rw [newRow_ok, hc]
  simp only []
  unfold rowLoop
  simp only []
  rw [pixelLoop_short infoHead rs gs bs as _ (infoHead.bitsPerPixel / 8)
    infoHead.bmpWidth_px.toNat 0 pixels (by
      rw [read_length _ _ _ (by simp), Nat.zero_add]
      exact hshort) hw]

theorem sampleWide24_length : sampleWide24.length = 16777278 := by
  unfold sampleWide24
  rw [List.length_append, List.length_replicate]
  rfl

theorem sampleWide24_layout : ValidLayout sampleWide24 := by
  refine ⟨by decide, by decide, by decide, ?_, by decide, ?_⟩
  · rw [sampleWide24_length]
    decide
  · intro S hS
    have h : rowSizeBytes (parsedInfo sampleWide24) = .ok 16777220 := by decide
    rw [h] at hS
    have hS1 : (16777220 : Int) = (S : Int) := by injection hS
    have hS2 : S = 16777220 := by omega
    subst hS2
    rw [sampleWide24_length]
    decide

theorem directInfo_wide24 :
    directInfo (parsedInfo sampleWide24) (parsedVersion sampleWide24) =
      { headerSize_bytes := 40, bmpWidth_px := 5592407, bmpHeight_px := 1, numColorPlanes := 1,
        bitsPerPixel := 24, compression := 0, imageSize_bytes := 0, xResolution_pxPm := 0,
        yResolution_pxPm := 0, numPaletteColors := 0, numImportantColors := 0,
        redMask := 0xff0000, greenMask := 0x00ff00, blueMask := 0x0000ff, alphaMask := 0,
        colorSpaceMagic := 0 } := by decide

/-- C14 (counterexample to the claim as stated): `sampleWide24` is a complete 24-bit file
under `BI_RGB`, 5592407 pixels wide and 1 high: its layout is valid, it passes the header
checks, and one row of `ceil(24 * 5592407 / 32) * 4 = 16777224` bytes follows the 54 header
bytes.  The product `24 * 5592407 = 134217768 = 2^27 + 40` is not a `float`: it is rounded to
`2^27 + 32`, so the row size that `extractPixels` computes is 16777220, one byte less than
the `3 * 5592407 = 16777221` pixel bytes of the row.  Decoding the last pixel reads
`row[16777220]`, beyond the buffer `new char[16777220]`: the behaviour of `load` is
undefined, and the third byte of that pixel is not taken from the file. -/
theorem load_24bit_wide_counterexample :
    ValidLayout sampleWide24 ∧
      fieldAt sampleWide24 0 2 = BMPMAGIC ∧
      (parsedInfo sampleWide24).headerSize_bytes = V1INFOHEADER_SIZE_BYTES ∧
      (parsedInfo sampleWide24).compression = BI_RGB ∧
      (parsedInfo sampleWide24).bitsPerPixel = 24 ∧
      (parsedInfo sampleWide24).bmpWidth_px = 5592407 ∧
      (parsedInfo sampleWide24).bmpHeight_px = 1 ∧
      (parsedFileHeader sampleWide24).pixelOffset_bytes = 54 ∧
      rowStride 24 5592407 = 16777224 ∧
      sampleWide24.length = 54 + 1 * rowStride 24 5592407 ∧
      5592407 * 1 < 2 ^ 31 ∧
      ¬ (parsedInfo sampleWide24).bitsPerPixel * 5592407 < 2 ^ 24 ∧
      rowSizeBytes (parsedInfo sampleWide24) = .ok 16777220 ∧
      (parsedInfo sampleWide24).bitsPerPixel / 8 * 5592407 = 16777221 ∧
      ∀ (junk : Nat → Byte) (fuel : Nat) (self : BmpImage),
        load junk fuel (some sampleWide24) self = .error .undefined := by
  refine ⟨sampleWide24_layout, by decide, by decide, by decide, by decide, by decide,
    by decide, by decide, by decide, ?_, by decide, by decide, by decide, by decide, ?_⟩
  · rw [sampleWide24_length]
    decide
  · intro junk fuel self
    rw [load_eq, if_neg (by decide), if_neg (by decide), if_neg (by decide),
      dispatch_direct _ _ _ _ _ _ _ (Or.inr (Or.inl (by decide))), directInfo_wide24,
      extractPixels_short_row junk _ _ _ _ 16777220 1 54 16777220 16 8 0 0 (by decide)
        (by decide) (by decide) (by decide) (by decide) (by decide) (by decide) (by decide)
        (by decide)]

/-! ## Default masks under `BI_RGB` -/

theorem directInfo_rgb32 (infoHead : InfoHeader) (ver : Nat) (h : infoHead.bitsPerPixel = 32)
    (hc : infoHead.compression = BI_RGB) :
    (directInfo infoHead ver).redMask = 0xff0000 ∧
      (directInfo infoHead ver).greenMask = 0x00ff00 ∧
      (directInfo infoHead ver).blueMask = 0x0000ff ∧
      (directInfo infoHead ver).alphaMask =
        if ver < 3 then 0xff000000 else infoHead.alphaMask := by
  unfold directInfo
  simp [h, hc]

theorem directInfo_rgb16 (infoHead : InfoHeader) (ver : Nat) (h : infoHead.bitsPerPixel = 16)
    (hc : infoHead.compression = BI_RGB) :
    (directInfo infoHead ver).redMask = 0x7c00 ∧
      (directInfo infoHead ver).greenMask = 0x03e0 ∧
      (directInfo infoHead ver).blueMask = 0x001f ∧
      (directInfo infoHead ver).alphaMask =
        if ver < 3 then 0x8000 else infoHead.alphaMask := by
  unfold directInfo
  simp [h, hc]

theorem toUInt8_val_of_mask (raw m s : Nat) (h : m >>> s < 256) :
    (toUInt8 ((raw &&& m) >>> s)).val = (raw &&& m) >>> s := by
  show (raw &&& m) >>> s % 256 = _
  apply Nat.mod_eq_of_lt
  have h1 : raw &&& m ≤ m := Nat.and_le_right
  rw [Nat.shiftRight_eq_div_pow] at h ⊢
  exact lt_of_le_of_lt (Nat.div_le_div_right h1) h

/-- C15: under `BI_RGB` the `switch` of `load` gives a 32-bit image the masks 0x00FF0000,
0x0000FF00 and 0x000000FF whatever the mask fields of the header hold, and the alpha mask
0xFF000000 when the detected header version is below 3 (otherwise the alpha mask it read):
for every 32-bit `BI_RGB` file that passes the header checks of `load` (magic, colour-space
tag), whatever its sizes, `load` is the call of `extractPixels` with these masks.  When the
file is moreover complete with sizes inside the arithmetic of the code (`ValidFile`), `load`
returns 0, appends `w * n` colours, and the pixel of output row `r` and column `c`, stored as
the bytes `b0, b1, b2, b3`, is decoded to red `b2`, green `b1`, blue `b0`, and to alpha `b3`,
the top byte, when the version is below 3. -/
theorem load_32bit_default_masks (junk : Nat → Byte) (fuel : Nat) (data : List Byte)
    (self : BmpImage)
    (hm : fieldAt data 0 2 = BMPMAGIC)
    (hcs : V4INFOHEADER_SIZE_BYTES ≤ fieldAt data 14 4 → fieldAt data 70 4 = SRGBMAGIC)
    (hbpp : (parsedInfo data).bitsPerPixel = 32)
    (hc : (parsedInfo data).compression = BI_RGB) :
    load junk fuel (some data) self =
      (match extractPixels junk (seqState data (headerEnd data)) (parsedFileHeader data)
          { parsedInfo data with
            redMask := 0x00FF0000, greenMask := 0x0000FF00, blueMask := 0x000000FF,
            alphaMask := if parsedVersion data < 3 then 0xFF000000
              else (parsedInfo data).alphaMask }
          self.pixels with
       | .error e => .error e
       | .ok pixels => .ok (0, { pixels := pixels, width_px := (parsedInfo data).bmpWidth_px,
                                 height_px := (parsedInfo data).bmpHeight_px })) ∧
    ∀ w n, ValidFile data w n →
      ∃ new, load junk fuel (some data) self =
          .ok (0, { pixels := self.pixels ++ new, width_px := (w : Int),
                    height_px := (parsedInfo data).bmpHeight_px }) ∧
        new.length = w * n ∧
        ∀ r c, r < n → c < w → ∃ col, new[r * w + c]? = some col ∧
          col.r = data.getD (pixelStart data w n r c + 2) 0 ∧
          col.g = data.getD (pixelStart data w n r c + 1) 0 ∧
          col.b = data.getD (pixelStart data w n r c) 0 ∧
          (parsedVersion data < 3 → col.a = data.getD (pixelStart data w n r c + 3) 0) := by
  refine ⟨?_, ?_⟩
  · rw [load_direct_eq junk fuel data self hm hcs (Or.inl hc) (Or.inr (Or.inr hbpp)),
      directInfo_eq_rgb32 _ _ hbpp hc]
  intro w n hv
  obtain ⟨m1, m2, m3, m4⟩ := directInfo_rgb32 (parsedInfo data) (parsedVersion data) hbpp hc
  obtain ⟨rs, gs, bs, as, new, hrs, hgs, hbs, has, hload, hlen, hpix⟩ :=
    load_direct_ok junk fuel data self w n hv (Or.inr (Or.inr hbpp))
      (by rw [m1]; decide) (by rw [m2]; decide) (by rw [m3]; decide)
  rw [m1] at hrs
  rw [m2] at hgs
  rw [m3] at hbs
  have e1 : rs = 16 := lowestSetBit_unique _ _ _ hrs ⟨by decide, by decide⟩
  have e2 : gs = 8 := lowestSetBit_unique _ _ _ hgs ⟨by decide, by decide⟩
  have e3 : bs = 0 := lowestSetBit_unique _ _ _ hbs ⟨by decide, by decide⟩
  subst e1 e2 e3
  refine ⟨new, hload, hlen, ?_⟩
  intro r c hr hc1
  refine ⟨_, hpix r c hr hc1, ?_, ?_, ?_, ?_⟩
  · simp only [maskedColor, m1, rawPixel, hbpp]
    exact toUInt8_mask_byte data _ 4 2 _ 16 (by decide) (by decide) (by decide)
  · simp only [maskedColor, m2, rawPixel, hbpp]
    exact toUInt8_mask_byte data _ 4 1 _ 8 (by decide) (by decide) (by decide)
  · simp only [maskedColor, m3, rawPixel, hbpp]
    exact toUInt8_mask_byte data _ 4 0 _ 0 (by decide) (by decide) (by decide)
  · intro hver
    rw [if_pos hver] at m4
    rw [m4] at has
    have e4 : as = 24 := lowestSetBit_unique _ _ _ (has (by decide)) ⟨by decide, by decide⟩
    subst e4
    simp only [maskedColor, m4, rawPixel, hbpp]
    exact toUInt8_mask_byte data _ 4 3 _ 24 (by decide) (by decide) (by decide)

theorem sampleDeep32_valid : ValidFile sampleDeep32 1 1 :=
  ⟨validLayout_of_exact sampleDeep32 1 (by decide) (by decide) (by decide) (by decide)
    (by decide) (by decide) (by decide), by decide, by decide, by decide, by decide, by decide,
    by decide, by decide, by decide⟩

theorem load_32bit_default_masks_witness :
    parsedVersion sampleDeep32 < 3 ∧ ValidFile sampleDeep32 1 1 ∧
      load sampleJunk 0 (some sampleDeep32) freshImage =
        .ok (0, { pixels := [{ r := 3, g := 2, b := 1, a := 4 }], width_px := 1,
                  height_px := 1 }) ∧
      load sampleJunk 0 (some sampleDeep32) freshImage =
        (match extractPixels sampleJunk (seqState sampleDeep32 (headerEnd sampleDeep32))
            (parsedFileHeader sampleDeep32)
            { parsedInfo sampleDeep32 with
              redMask := 0x00FF0000, greenMask := 0x0000FF00, blueMask := 0x000000FF,
              alphaMask := if parsedVersion sampleDeep32 < 3 then 0xFF000000
                else (parsedInfo sampleDeep32).alphaMask }
            freshImage.pixels with
         | .error e => .error e
         | .ok pixels =>
           .ok (0, { pixels := pixels, width_px := (parsedInfo sampleDeep32).bmpWidth_px,
                     height_px := (parsedInfo sampleDeep32).bmpHeight_px })) ∧
      ∃ new, load sampleJunk 0 (some sampleDeep32) freshImage =
          .ok (0, { pixels := freshImage.pixels ++ new, width_px := ((1 : Nat) : Int),
                    height_px := (parsedInfo sampleDeep32).bmpHeight_px }) ∧
        new.length = 1 * 1 ∧
        ∀ r c, r < 1 → c < 1 → ∃ col, new[r * 1 + c]? = some col ∧
          col.r = sampleDeep32.getD (pixelStart sampleDeep32 1 1 r c + 2) 0 ∧
          col.g = sampleDeep32.getD (pixelStart sampleDeep32 1 1 r c + 1) 0 ∧
          col.b = sampleDeep32.getD (pixelStart sampleDeep32 1 1 r c) 0 ∧
          (parsedVersion sampleDeep32 < 3 →
            col.a = sampleDeep32.getD (pixelStart sampleDeep32 1 1 r c + 3) 0) :=
  ⟨by decide, sampleDeep32_valid, by decide,
    (load_32bit_default_masks sampleJunk 0 sampleDeep32 freshImage (by decide) (by decide)
      (by decide) (by decide)).1,
    (load_32bit_default_masks sampleJunk 0 sampleDeep32 freshImage (by decide) (by decide)
      (by decide) (by decide)).2 1 1 sampleDeep32_valid⟩

/-- C16 (amended): for every valid 16-bit file under `BI_RGB` (`ValidFile`), `load` returns
0, appends `w * n` colours, and the pixel of output row `r` and column `c`, whose two bytes
form the little-endian word `raw`, is decoded with the 5-5-5 masks 0x7C00, 0x03E0 and 0x001F
(five bits each): red `(raw AND 0x7C00) >> 10`, green `(raw AND 0x03E0) >> 5`, blue
`raw AND 0x001F`; when the detected header version is below 3 the alpha mask is the single
high bit 0x8000: alpha `(raw AND 0x8000) >> 15`. -/
theorem load_16bit_default_masks (junk : Nat → Byte) (fuel : Nat) (data : List Byte)
    (self : BmpImage) (w n : Nat) (hv : ValidFile data w n)
    (hbpp : (parsedInfo data).bitsPerPixel = 16)
    (hc : (parsedInfo data).compression = BI_RGB) :
    maskBits 0x7C00 = 5 ∧ maskBits 0x03E0 = 5 ∧ maskBits 0x001F = 5 ∧ maskBits 0x8000 = 1 ∧
    ∃ new, load junk fuel (some data) self =
        .ok (0, { pixels := self.pixels ++ new, width_px := (w : Int),
                  height_px := (parsedInfo data).bmpHeight_px }) ∧
      new.length = w * n ∧
      ∀ r c, r < n → c < w → ∃ col, new[r * w + c]? = some col ∧
        col.r.val = (rawPixel data w n r c &&& 0x7C00) >>> 10 ∧
        col.g.val = (rawPixel data w n r c &&& 0x03E0) >>> 5 ∧
        col.b.val = rawPixel data w n r c &&& 0x001F ∧
        (parsedVersion data < 3 → col.a.val = (rawPixel data w n r c &&& 0x8000) >>> 15) := by
  obtain ⟨m1, m2, m3, m4⟩ := directInfo_rgb16 (parsedInfo data) (parsedVersion data) hbpp hc
  obtain ⟨rs, gs, bs, as, new, hrs, hgs, hbs, has, hload, hlen, hpix⟩ :=
    load_direct_ok junk fuel data self w n hv (Or.inl hbpp)
      (by rw [m1]; decide) (by rw [m2]; decide) (by rw [m3]; decide)
  rw [m1] at hrs
  rw [m2] at hgs
  rw [m3] at hbs
  have e1 : rs = 10 := lowestSetBit_unique _ _ _ hrs ⟨by decide, by decide⟩
  have e2 : gs = 5 := lowestSetBit_unique _ _ _ hgs ⟨by decide, by decide⟩
  have e3 : bs = 0 := lowestSetBit_unique _ _ _ hbs ⟨by decide, by decide⟩
  subst e1 e2 e3
  refine ⟨by decide, by decide, by decide, by decide, new, hload, hlen, ?_⟩
  intro r c hr hc1
  refine ⟨_, hpix r c hr hc1, ?_, ?_, ?_, ?_⟩
  · simp only [maskedColor, m1]
    exact toUInt8_val_of_mask _ _ _ (by decide)
  · simp only [maskedColor, m2]
    exact toUInt8_val_of_mask _ _ _ (by decide)
  · simp only [maskedColor, m3]
    exact toUInt8_val_of_mask _ _ 0 (by decide)
  · intro hver
    rw [if_pos hver] at m4
    rw [m4] at has
    have e4 : as = 15 := lowestSetBit_unique _ _ _ (has (by decide)) ⟨by decide, by decide⟩
    subst e4
    simp only [maskedColor, m4]
    exact toUInt8_val_of_mask _ _ _ (by decide)

theorem sampleHigh16_valid : ValidFile sampleHigh16 2 1 :=
  ⟨validLayout_of_exact sampleHigh16 2 (by decide) (by decide) (by decide) (by decide)
    (by decide) (by decide) (by decide), by decide, by decide, by decide, by decide, by decide,
    by decide, by decide, by decide⟩

theorem load_16bit_default_masks_witness :
    rawPixel sampleHigh16 2 1 0 0 = 0x07E0 ∧
    maskBits 0x7C00 = 5 ∧ maskBits 0x03E0 = 5 ∧ maskBits 0x001F = 5 ∧ maskBits 0x8000 = 1 ∧
    ∃ new, load sampleJunk 0 (some sampleHigh16) freshImage =
        .ok (0, { pixels := freshImage.pixels ++ new, width_px := ((2 : Nat) : Int),
                  height_px := (parsedInfo sampleHigh16).bmpHeight_px }) ∧
      new.length = 2 * 1 ∧
      ∀ r c, r < 1 → c < 2 → ∃ col, new[r * 2 + c]? = some col ∧
        col.r.val = (rawPixel sampleHigh16 2 1 r c &&& 0x7C00) >>> 10 ∧
        col.g.val = (rawPixel sampleHigh16 2 1 r c &&& 0x03E0) >>> 5 ∧
        col.b.val = rawPixel sampleHigh16 2 1 r c &&& 0x001F ∧
        (parsedVersion sampleHigh16 < 3 →
          col.a.val = (rawPixel sampleHigh16 2 1 r c &&& 0x8000) >>> 15) :=
  ⟨by decide, load_16bit_default_masks sampleJunk 0 sampleHigh16 freshImage 2 1
    sampleHigh16_valid (by decide) (by decide)⟩

/-- C16 (counterexample to the claim as stated): `sampleHigh16` is a valid 16-bit file under
`BI_RGB` whose first pixel is the word 0x07E0, the six green bits of a 5-6-5 layout.  The
green mask that `load` assigns has five bits, not six, and the pixel is decoded to red 1,
green 31, where the 5-6-5 masks 0xF800, 0x07E0, 0x001F give red 0, green 63. -/
theorem load_16bit_not_565_counterexample :
    (parsedInfo sampleHigh16).bitsPerPixel = 16 ∧
      (parsedInfo sampleHigh16).compression = BI_RGB ∧
      maskBits (directInfo (parsedInfo sampleHigh16) (parsedVersion sampleHigh16)).greenMask
        = 5 ∧
      (∀ (junk : Nat → Byte) (fuel : Nat), load junk fuel (some sampleHigh16) freshImage =
        .ok (0, { pixels := [{ r := 1, g := 31, b := 0, a := 0 },
                             { r := 31, g := 31, b := 31, a := 0 }],
                  width_px := 2, height_px := 1 })) ∧
      maskedColor { parsedInfo sampleHigh16 with
          redMask := 0xF800, greenMask := 0x07E0, blueMask := 0x001F, alphaMask := 0 }
        11 5 0 0 0x07E0 = { r := 0, g := 63, b := 0, a := 0 } := by
  refine ⟨by decide, by decide, by decide, ?_, by decide⟩
  intro junk fuel
  rw [load_eq_ref junk fuel _ _ sampleHigh16_valid.1]
  rfl

/-! ## The alpha mask of version-3 headers -/

theorem parsedVersion_ge_three (data : List Byte)
    (h : V3INFOHEADER_SIZE_BYTES ≤ fieldAt data 14 4) : ¬ parsedVersion data < 3 := by
  unfold parsedVersion
  rw [if_pos h]
  repeat' split
  all_goals decide

theorem maskedColor_alpha (infoHead : InfoHeader) (rs gs bs as raw : Nat) :
    (maskedColor infoHead rs gs bs as raw).a.val =
      ((raw &&& infoHead.alphaMask) >>> as) % 256 := rfl

/-- C17 (amended): for every valid 16-bit or 32-bit file under `BI_RGB` whose declared
header size is at or above the version-3 threshold, the alpha mask used for extraction is
the value `A` of the alpha-mask field of the header (offset 66): `load` returns 0, appends
`w * n` colours, and each decoded pixel has alpha `((raw AND A) >> s) mod 256`, with `s` the
index of the lowest set bit of `A`; every decoded pixel has alpha 0 when that field holds
0. -/
theorem load_alpha_mask_from_header (junk : Nat → Byte) (fuel : Nat) (data : List Byte)
    (self : BmpImage) (w n : Nat) (hv : ValidFile data w n)
    (hbpp : (parsedInfo data).bitsPerPixel = 16 ∨ (parsedInfo data).bitsPerPixel = 32)
    (hc : (parsedInfo data).compression = BI_RGB)
    (hs : V3INFOHEADER_SIZE_BYTES ≤ (parsedInfo data).headerSize_bytes) :
    ∃ new, load junk fuel (some data) self =
        .ok (0, { pixels := self.pixels ++ new, width_px := (w : Int),
                  height_px := (parsedInfo data).bmpHeight_px }) ∧
      new.length = w * n ∧
      ∀ r c, r < n → c < w → ∃ col, new[r * w + c]? = some col ∧
        (fieldAt data 66 4 = 0 → col.a = 0) ∧
        (∀ s, IsLowestSetBit (fieldAt data 66 4) s →
          col.a.val = ((rawPixel data w n r c &&& fieldAt data 66 4) >>> s) % 256) := by
  have hs1 : V3INFOHEADER_SIZE_BYTES ≤ fieldAt data 14 4 := hs
  have hver := parsedVersion_ge_three data hs1
  have hpa : (parsedInfo data).alphaMask = fieldAt data 66 4 := by
    show (if V3INFOHEADER_SIZE_BYTES ≤ fieldAt data 14 4 then fieldAt data 66 4 else 0) = _
    rw [if_pos hs1]
  have hmasks : (directInfo (parsedInfo data) (parsedVersion data)).redMask ≠ 0 ∧
      (directInfo (parsedInfo data) (parsedVersion data)).greenMask ≠ 0 ∧
      (directInfo (parsedInfo data) (parsedVersion data)).blueMask ≠ 0 ∧
      (directInfo (parsedInfo data) (parsedVersion data)).alphaMask = fieldAt data 66 4 := by
    rcases hbpp with h | h
    · obtain ⟨m1, m2, m3, m4⟩ := directInfo_rgb16 (parsedInfo data) (parsedVersion data) h hc
      rw [m1, m2, m3, m4, if_neg hver, hpa]
      exact ⟨by decide, by decide, by decide, rfl⟩
    · obtain ⟨m1, m2, m3, m4⟩ := directInfo_rgb32 (parsedInfo data) (parsedVersion data) h hc
      rw [m1, m2, m3, m4, if_neg hver, hpa]
      exact ⟨by decide, by decide, by decide, rfl⟩
  obtain ⟨k1, k2, k3, k4⟩ := hmasks
  obtain ⟨rs, gs, bs, as, new, _, _, _, has, hload, hlen, hpix⟩ :=
    load_direct_ok junk fuel data self w n hv
      (hbpp.elim Or.inl (fun h => Or.inr (Or.inr h))) k1 k2 k3
  rw [k4] at has
  refine ⟨new, hload, hlen, ?_⟩
  intro r c hr hc1
  refine ⟨_, hpix r c hr hc1, ?_, ?_⟩
  · intro h0
    apply Fin.ext
    rw [maskedColor_alpha, k4, h0, Nat.and_zero, Nat.zero_shiftRight]
    rfl
  · intro s hs2
    have hne : fieldAt data 66 4 ≠ 0 := by
      intro h0
      have := hs2.1
      rw [h0, Nat.zero_testBit] at this
      exact absurd this (by decide)
    rw [maskedColor_alpha, k4, lowestSetBit_unique _ _ _ hs2 (has hne)]

theorem sampleAlpha32_valid : ValidFile sampleAlpha32 1 1 :=
  ⟨validLayout_of_exact sampleAlpha32 1 (by decide) (by decide) (by decide) (by decide)
    (by decide) (by decide) (by decide), by decide, by decide, by decide, by decide, by decide,
    by decide, by decide, by decide⟩

theorem load_alpha_mask_from_header_witness :
    fieldAt sampleAlpha32 66 4 = 0xFF000000 ∧
      ∃ new, load sampleJunk 0 (some sampleAlpha32) freshImage =
          .ok (0, { pixels := freshImage.pixels ++ new, width_px := ((1 : Nat) : Int),
                    height_px := (parsedInfo sampleAlpha32).bmpHeight_px }) ∧
        new.length = 1 * 1 ∧
        ∀ r c, r < 1 → c < 1 → ∃ col, new[r * 1 + c]? = some col ∧
          (fieldAt sampleAlpha32 66 4 = 0 → col.a = 0) ∧
          (∀ s, IsLowestSetBit (fieldAt sampleAlpha32 66 4) s →
            col.a.val = ((rawPixel sampleAlpha32 1 1 r c &&& fieldAt sampleAlpha32 66 4)
              >>> s) % 256) :=
  ⟨by decide, load_alpha_mask_from_header sampleJunk 0 sampleAlpha32 freshImage 1 1
    sampleAlpha32_valid (by decide) (by decide) (by decide)⟩

/-- C17 (counterexample to the claim as stated): `sampleAlpha32` is a valid 32-bit file
under `BI_RGB` with a version-3 header (size 56) whose alpha-mask field holds 0xFF000000;
its pixel with top byte 0x80 is decoded with alpha 0x80, not 0. -/
theorem load_alpha_not_zero_counterexample :
    (parsedInfo sampleAlpha32).bitsPerPixel = 32 ∧
      (parsedInfo sampleAlpha32).compression = BI_RGB ∧
      V3INFOHEADER_SIZE_BYTES ≤ (parsedInfo sampleAlpha32).headerSize_bytes ∧
      ∀ (junk : Nat → Byte) (fuel : Nat), load junk fuel (some sampleAlpha32) freshImage =
        .ok (0, { pixels := [{ r := 3, g := 2, b := 1, a := 0x80 }], width_px := 1,
                  height_px := 1 }) := by
  refine ⟨by decide, by decide, by decide, ?_⟩
  intro junk fuel
  rw [load_eq_ref junk fuel _ _ sampleAlpha32_valid.1]
  rfl

/-! ## Masks read from the file under `BI_BITFIELDS` -/

theorem sampleFields16_valid : ValidFile sampleFields16 1 1 :=
  ⟨validLayout_of_exact sampleFields16 1 (by decide) (by decide) (by decide) (by decide)
    (by decide) (by decide) (by decide), by decide, by decide, by decide, by decide, by decide,
    by decide, by decide, by decide⟩

theorem sampleFields32_valid : ValidFile sampleFields32 1 1 :=
  ⟨validLayout_of_exact sampleFields32 1 (by decide) (by decide) (by decide) (by decide)
    (by decide) (by decide) (by decide), by decide, by decide, by decide, by decide, by decide,
    by decide, by decide, by decide⟩

/-- C19 (the code departs from the claim): `sampleNoRed32` is a complete 32-bit file under
`BI_BITFIELDS` whose red mask is 0.  The loop that searches the lowest set bit of the red
mask has no guard for a zero mask (the alpha mask has one): it reaches the shift count 32,
which is undefined, and `load` does not complete.  The same file with the red mask
0x00FF0000 and the alpha mask 0 is decoded, with alpha 0. -/
theorem load_zero_red_mask (junk : Nat → Byte) (fuel : Nat) :
    (parsedInfo sampleNoRed32).redMask = 0 ∧
      load junk fuel (some sampleNoRed32) freshImage = .error .undefined ∧
      (parsedInfo sampleFields32).alphaMask = 0 ∧
      load junk fuel (some sampleFields32) freshImage =
        .ok (0, { pixels := [{ r := 3, g := 2, b := 1, a := 0 }], width_px := 1,
                  height_px := 1 }) := by
  refine ⟨by decide, rfl, by decide, ?_⟩
  rw [load_eq_ref junk fuel _ _ sampleFields32_valid.1]
  rfl

/-! ## Channel values are not scaled -/

/-- C20 (amended): in a 16-bit image with the masks R = 0x7C00, G = 0x03E0, B = 0x001F
(sizes inside the arithmetic of the code, rows inside the file), a pixel whose raw 16-bit
word is 0x7FFF is decoded by `extractPixels` to red 31, green 31, blue 31: the raw five-bit
magnitudes, which the code does not scale to eight bits. -/
theorem extractPixels_five_bit_channels (junk : Nat → Byte) (file : IfStream)
    (fileHead : FileHeader) (infoHead : InfoHeader) (pixels : List Color4) (w n r c : Nat)
    (hbpp : infoHead.bitsPerPixel = 16)
    (hw : infoHead.bmpWidth_px = w) (hn : infoHead.bmpHeight_px.natAbs = n)
    (hR : infoHead.redMask = 0x7C00) (hG : infoHead.greenMask = 0x03E0)
    (hB : infoHead.blueMask = 0x001F) (hA : infoHead.alphaMask < 2 ^ 32)
    (hgood : file.failed = false)
    (hexact : 16 * w < 2 ^ 24) (hcount : w * n < 2 ^ 31)
    (hfit : fileHead.pixelOffset_bytes + n * rowStride 16 w ≤ file.data.length)
    (hrange : fileHead.pixelOffset_bytes + n * rowStride 16 w < 2 ^ 31)
    (hr : r < n) (hc : c < w)
    (hraw : fieldAt file.data
      (rowStart fileHead.pixelOffset_bytes (rowStride 16 w) n infoHead.bmpHeight_px r + c * 2)
      2 = 0x7FFF) :
    ∃ new col, extractPixels junk file fileHead infoHead pixels = .ok (pixels ++ new) ∧
      new[r * w + c]? = some col ∧ col.r = 31 ∧ col.g = 31 ∧ col.b = 31 := by
  have hcount1 : w * n < 2147483648 := by norm_num at hcount; exact hcount
  have hrange1 : fileHead.pixelOffset_bytes + n * rowStride 16 w < 2147483648 := by
    norm_num at hrange; exact hrange
  have hstride : w * (16 / 8) ≤ rowStride 16 w := stride_covers_pixels 16 w (Or.inl rfl)
  have hn31 : n < 2147483648 := by
    have h2 : n * 1 ≤ n * rowStride 16 w := Nat.mul_le_mul_left n (by omega)
    omega
  obtain ⟨as, has, _⟩ := exists_alphaShift _ hA
  have hok := extractPixels_ok junk file fileHead infoHead pixels w n 10 5 0 as
    (Or.inl hbpp) hw hn (by rw [hR]; decide) (by rw [hG]; decide) (by rw [hB]; decide) has
    hgood (by rw [hbpp]; exact hexact) hcount1 (by rw [hbpp]; exact hfit)
    (by rw [hbpp]; exact hrange1) hn31
  rw [hbpp] at hok
  refine ⟨_, _, hok, directPixels_getElem? file.data infoHead _ _ n _ 10 5 0 as _ w r c hr hc
    hstride, ?_, ?_, ?_⟩
  · show toUInt8 ((fieldAt file.data _ 2 &&& infoHead.redMask) >>> 10) = 31
    rw [hraw, hR]
    decide
  · show toUInt8 ((fieldAt file.data _ 2 &&& infoHead.greenMask) >>> 5) = 31
    rw [hraw, hG]
    decide
  · show toUInt8 ((fieldAt file.data _ 2 &&& infoHead.blueMask) >>> 0) = 31
    rw [hraw, hB]
    decide

theorem extractPixels_five_bit_channels_witness :
    fieldAt sampleHigh16 56 2 = 0x7FFF ∧
      ∃ new col, extractPixels sampleJunk (seqState sampleHigh16 54)
          (parsedFileHeader sampleHigh16)
          (directInfo (parsedInfo sampleHigh16) (parsedVersion sampleHigh16)) [] =
          .ok ([] ++ new) ∧
        new[0 * 2 + 1]? = some col ∧ col.r = 31 ∧ col.g = 31 ∧ col.b = 31 :=
  ⟨by decide, extractPixels_five_bit_channels sampleJunk (seqState sampleHigh16 54)
    (parsedFileHeader sampleHigh16)
    (directInfo (parsedInfo sampleHigh16) (parsedVersion sampleHigh16)) [] 2 1 0 1
    (by decide) (by decide) (by decide) (by decide) (by decide) (by decide) (by decide)
    (by decide) (by decide) (by decide) (by decide) (by decide) (by decide) (by decide)
    (by decide)⟩

/-- C20 (counterexample to the claim as stated): `sampleHigh16` is a 16-bit image decoded
with the masks R = 0x7C00, G = 0x03E0, B = 0x001F whose second pixel is the raw word 0x7FFF;
`extractPixels` decodes that pixel to red 31, green 31, blue 31, not to 255, 255, 255. -/
theorem extractPixels_not_scaled_counterexample :
    (directInfo (parsedInfo sampleHigh16) (parsedVersion sampleHigh16)).redMask = 0x7C00 ∧
      (directInfo (parsedInfo sampleHigh16) (parsedVersion sampleHigh16)).greenMask = 0x03E0 ∧
      (directInfo (parsedInfo sampleHigh16) (parsedVersion sampleHigh16)).blueMask = 0x001F ∧
      fieldAt sampleHigh16 56 2 = 0x7FFF ∧
      (∀ junk : Nat → Byte, extractPixels junk (seqState sampleHigh16 54)
          (parsedFileHeader sampleHigh16)
          (directInfo (parsedInfo sampleHigh16) (parsedVersion sampleHigh16)) [] =
        .ok [{ r := 1, g := 31, b := 0, a := 0 }, { r := 31, g := 31, b := 31, a := 0 }]) ∧
      ({ r := 31, g := 31, b := 31, a := 0 } : Color4) ≠ { r := 255, g := 255, b := 255, a := 0 }
    := by
  refine ⟨by decide, by decide, by decide, by decide, ?_, by decide⟩
  intro junk
  rw [extractPixels_eq_ref junk _ _ _ _ (by decide)
    (rowsFit_of_exact _ _ _ 2 (by decide) (by decide) (by decide) (by decide))]
  rfl

/-! ## The row size -/

/-- C21 (amended): for every bits-per-pixel value `bpp` and every width `w >= 0` with
`bpp * w < 2^24` (the range in which the conversion of the product to `float` is exact), the
row size computed by both extractors is `ceil(bpp * w / 32) * 4` exactly: the multiple `s`
of 4 with `bpp * w <= 8 * s < bpp * w + 32`. -/
theorem rowSizeBytes_formula (infoHead : InfoHeader) (w : Nat)
    (hw : infoHead.bmpWidth_px = w) (hexact : infoHead.bitsPerPixel * w < 2 ^ 24) :
    ∃ s : Nat, rowSizeBytes infoHead = .ok (s : Int) ∧
      s = (infoHead.bitsPerPixel * w + 31) / 32 * 4 ∧ s % 4 = 0 ∧
      infoHead.bitsPerPixel * w ≤ 8 * s ∧ 8 * s < infoHead.bitsPerPixel * w + 32 := by
  refine ⟨rowStride infoHead.bitsPerPixel w, rowSizeBytes_exact infoHead w hw hexact, rfl, ?_,
    ?_, ?_⟩ <;> unfold rowStride <;> omega

theorem rowSizeBytes_formula_witness :
    rowSizeBytes sampleFiveWideInfo = .ok 8 ∧
      ∃ s : Nat, rowSizeBytes sampleFiveWideInfo = .ok (s : Int) ∧
        s = (sampleFiveWideInfo.bitsPerPixel * 5 + 31) / 32 * 4 ∧ s % 4 = 0 ∧
        sampleFiveWideInfo.bitsPerPixel * 5 ≤ 8 * s ∧
        8 * s < sampleFiveWideInfo.bitsPerPixel * 5 + 32 :=
  ⟨by decide, rowSizeBytes_formula sampleFiveWideInfo 5 (by decide) (by decide)⟩

/-- C21 (counterexample to the claim as stated): at 8 bits per pixel and width 2^24 + 1 the
product 134217736 does not overflow an `int`, but it is not a `float`; the conversion
rounds it to 2^27 and the row size computed is 16777216, not
`ceil(134217736 / 32) * 4 = 16777220`. -/
theorem rowSizeBytes_rounding_counterexample :
    sampleWideInfo.bitsPerPixel = 8 ∧ sampleWideInfo.bmpWidth_px = 16777217 ∧
      (8 : Int) * 16777217 < 2 ^ 31 ∧
      rowSizeBytes sampleWideInfo = .ok 16777216 ∧
      (8 * 16777217 + 31) / 32 * 4 = 16777220 := by
  refine ⟨rfl, rfl, by decide, by decide, by decide⟩

/-! ## Compression mode 3 -/

/-- C24 (amended): compression mode 3 is `BI_BITFIELDS`, which `load` supports: for every
file with valid magic whose header declares compression mode 3, `load` returns -1 only on
account of the colour-space tag, that is exactly when the declared header size is at or
above the version-4 threshold and the tag is not "sRGB". -/
theorem load_accepts_mode_three (junk : Nat → Byte) (fuel : Nat) (data : List Byte)
    (self : BmpImage) (hm : data.take 2 = [0x42, 0x4D]) (hc : fieldAt data 30 4 = 3) :
    BI_BITFIELDS = 3 ∧
      ((∃ img, load junk fuel (some data) self = .ok (-1, img)) ↔
        (V4INFOHEADER_SIZE_BYTES ≤ fieldAt data 14 4 ∧ fieldAt data 70 4 ≠ SRGBMAGIC)) := by
  have hmagic : fieldAt data 0 2 = BMPMAGIC := (fieldAt_magic_iff data).mpr hm
  refine ⟨rfl, ?_⟩
  rw [load_returns_failure_iff]
  constructor
  · rintro (h | h | h)
    · exact absurd hmagic h
    · exact h
    · exact absurd hc h.2
  · exact fun h => Or.inr (Or.inl h)

theorem load_accepts_mode_three_witness :
    sampleFields32.take 2 = [0x42, 0x4D] ∧ fieldAt sampleFields32 30 4 = 3 ∧ BI_BITFIELDS = 3 ∧
      ((∃ img, load sampleJunk 0 (some sampleFields32) freshImage = .ok (-1, img)) ↔
        (V4INFOHEADER_SIZE_BYTES ≤ fieldAt sampleFields32 14 4 ∧
          fieldAt sampleFields32 70 4 ≠ SRGBMAGIC)) :=
  ⟨by decide, by decide,
    load_accepts_mode_three sampleJunk 0 sampleFields32 freshImage (by decide) (by decide)⟩

/-- C24 (counterexample to the claim as stated): `sampleFields16` has valid magic and
declares compression mode 3; `load` returns 0 and decodes its pixel with the masks of the
file. -/
theorem load_mode_three_counterexample :
    sampleFields16.take 2 = [0x42, 0x4D] ∧ fieldAt sampleFields16 30 4 = 3 ∧
      ∀ (junk : Nat → Byte) (fuel : Nat), load junk fuel (some sampleFields16) freshImage =
        .ok (0, { pixels := [{ r := 0, g := 63, b := 0, a := 0 }], width_px := 1,
                  height_px := 1 }) := by
  refine ⟨by decide, by decide, ?_⟩
  intro junk fuel
  rw [load_eq_ref junk fuel _ _ sampleFields16_valid.1]
  rfl

/-! ## The shift of a channel mask -/

/-- C27: for every non-zero 32-bit channel mask the shift loop of `extractPixels` ends with a
shift in 0..31 that is the index of the lowest set bit of the mask; and the four shifts are
computed once: when the statements before the row loop complete, `extractPixels` is the row
loop run with these four values as fixed parameters. -/
theorem shiftLoop_lowest_set_bit (mask : Nat) (h0 : mask ≠ 0) (h32 : mask < 2 ^ 32) :
    (∃ s, shiftLoop mask 32 0 = .ok s ∧ s < 32 ∧ IsLowestSetBit mask s) ∧
      ∀ (junk : Nat → Byte) (file : IfStream) (fileHead : FileHeader) (infoHead : InfoHeader)
        (pixels : List Color4) (rowSize_bytes numRows po ro : Int) (rs gs bs as : Nat)
        (row : List Byte),
        rowSizeBytes infoHead = .ok rowSize_bytes →
        rowPlan fileHead infoHead rowSize_bytes = .ok (numRows, po, ro) →
        shiftLoop infoHead.redMask 32 0 = .ok rs →
        shiftLoop infoHead.greenMask 32 0 = .ok gs →
        shiftLoop infoHead.blueMask 32 0 = .ok bs →
        (if infoHead.alphaMask ≠ 0 then shiftLoop infoHead.alphaMask 32 0 else Except.ok 0) =
          .ok as →
        reservePixels infoHead numRows = .ok () →
        newRow junk rowSize_bytes = .ok row →
        extractPixels junk file fileHead infoHead pixels =
          rowLoop infoHead rs gs bs as (infoHead.bitsPerPixel / 8) rowSize_bytes ro
            numRows.toNat file row po pixels := by
  constructor
  · obtain ⟨s, hs32, hs⟩ := exists_lowestSetBit mask h0 h32
    exact ⟨s, shiftLoop_of_lowest mask s hs 32 0 (by omega) (by omega), hs32, hs⟩
  · intro junk file fileHead infoHead pixels R numRows po ro rs gs bs as row h1 h2 h3 h4 h5 h6
      h7 h8
    unfold extractPixels
    rw [h1]
    simp only []
    rw [h2]
    simp only []
    rw [h3]
    simp only []
    rw [h4]
    simp only []
    rw [h5]
    simp only []
    rw [h6]
    simp only []
    rw [h7]
    simp only []
    rw [h8]

theorem shiftLoop_lowest_set_bit_witness :
    (0x03E0 : Nat) ≠ 0 ∧ (0x03E0 : Nat) < 2 ^ 32 ∧ shiftLoop 0x03E0 32 0 = .ok 5 ∧
      ∃ s, shiftLoop 0x03E0 32 0 = .ok s ∧ s < 32 ∧ IsLowestSetBit 0x03E0 s :=
  ⟨by decide, by decide, by decide,
    (shiftLoop_lowest_set_bit 0x03E0 (by decide) (by decide)).1⟩

/-! ## The version-gated reads -/

/-- C28: in `load`, after the 40 common bytes of the info header (file offset 54), the three
colour masks are read if and only if the declared header size is at least the version-2
size or it equals the version-1 size and the compression is `BI_BITFIELDS`; the alpha mask is
read if and only if the size is at least the version-3 size; the colour-space tag if and
only if it is at least the version-4 size.  A later extension is read only when every
earlier one has been read, so the masks come from offsets 54, 58 and 62, the alpha mask from
66 and the tag from 70, a field that is not read stays 0, and the stream has advanced by the
12, 4 and 4 bytes of the extensions that were read.  (The first statement says that
`readExtensions` is entered by `load` with the common header of the file and the stream at
offset 54.) -/
theorem readExtensions_gates (data : List Byte) :
    (readCommonHeaders (readField { data := data, pos := 0, failed := false } 2).2
        (readField { data := data, pos := 0, failed := false } 2).1).2 =
      (parsedCommon data, seqState data 54) ∧
    (masksRead data ↔
      (V2INFOHEADER_SIZE_BYTES ≤ fieldAt data 14 4 ∨
        (fieldAt data 14 4 = V1INFOHEADER_SIZE_BYTES ∧ fieldAt data 30 4 = BI_BITFIELDS))) ∧
    (readExtensions (parsedCommon data) (seqState data 54)).1.redMask =
      (if masksRead data then fieldAt data 54 4 else 0) ∧
    (readExtensions (parsedCommon data) (seqState data 54)).1.greenMask =
      (if masksRead data then fieldAt data 58 4 else 0) ∧
    (readExtensions (parsedCommon data) (seqState data 54)).1.blueMask =
      (if masksRead data then fieldAt data 62 4 else 0) ∧
    (readExtensions (parsedCommon data) (seqState data 54)).1.alphaMask =
      (if V3INFOHEADER_SIZE_BYTES ≤ fieldAt data 14 4 then fieldAt data 66 4 else 0) ∧
    (readExtensions (parsedCommon data) (seqState data 54)).1.colorSpaceMagic =
      (if V4INFOHEADER_SIZE_BYTES ≤ fieldAt data 14 4 then fieldAt data 70 4 else 0) ∧
    (readExtensions (parsedCommon data) (seqState data 54)).2.1 =
      seqState data (54 + (if masksRead data then 12 else 0) +
        (if V3INFOHEADER_SIZE_BYTES ≤ fieldAt data 14 4 then 4 else 0) +
        (if V4INFOHEADER_SIZE_BYTES ≤ fieldAt data 14 4 then 4 else 0)) ∧
    (V3INFOHEADER_SIZE_BYTES ≤ fieldAt data 14 4 → masksRead data) ∧
    (V4INFOHEADER_SIZE_BYTES ≤ fieldAt data 14 4 →
      V3INFOHEADER_SIZE_BYTES ≤ fieldAt data 14 4) := by
  obtain ⟨e1, e2, _, _⟩ := readExtensions_seq data
  have h32 : V3INFOHEADER_SIZE_BYTES ≤ fieldAt data 14 4 → masksRead data := by
    intro h
    left
    unfold V3INFOHEADER_SIZE_BYTES at h
    unfold V2INFOHEADER_SIZE_BYTES
    omega
  have h43 : V4INFOHEADER_SIZE_BYTES ≤ fieldAt data 14 4 →
      V3INFOHEADER_SIZE_BYTES ≤ fieldAt data 14 4 := by
    intro h
    unfold V4INFOHEADER_SIZE_BYTES at h
    unfold V3INFOHEADER_SIZE_BYTES
    omega
  refine ⟨?_, Iff.rfl, ?_, ?_, ?_, ?_, ?_, ?_, h32, h43⟩
  · rw [seqState_zero, readField_seqState, readCommonHeaders_seq]
  · rw [e1]; rfl
  · rw [e1]; rfl
  · rw [e1]; rfl
  · rw [e1]; rfl
  · rw [e1]; rfl
  · rw [e2]
    congr 1
    unfold headerEnd
    by_cases h4 : V4INFOHEADER_SIZE_BYTES ≤ fieldAt data 14 4
    · rw [if_pos h4, if_pos h4, if_pos (h43 h4), if_pos (h32 (h43 h4))]
    · rw [if_neg h4, if_neg h4]
      by_cases h3 : V3INFOHEADER_SIZE_BYTES ≤ fieldAt data 14 4
      · rw [if_pos h3, if_pos h3, if_pos (h32 h3)]
      · rw [if_neg h3, if_neg h3]
        by_cases hm : masksRead data
        · rw [if_pos hm, if_pos hm]
        · rw [if_neg hm, if_neg hm]

/-! ## Bounds of the buffer and palette accesses -/

theorem pixelIndex_le (bpp : Nat) (row : List Byte) (c : Nat) :
    pixelIndex bpp row c ≤ 2 ^ bpp - 1 := Nat.and_le_right

/-- C29: for every supported bits-per-pixel value and every width `w >= 1` with
`bpp * w < 2^24`, the row size computed is the stride `ceil(bpp * w / 32) * 4`, and every
index used to read the row buffer is below it.  Direct path (16, 24, 32): `j * (bpp / 8) + k`
is below the stride for all `j < w`, `k < bpp / 8`, and the pixel loop completes on every
buffer of that size.  Paletted path (1, 2, 4, 8): the byte number of pixel `c < w` is at
most `(w - 1) div (8 / bpp)`, which is below the stride, and the index loop completes on
every buffer of that size (given a palette with an entry for every index). -/
theorem row_reads_in_bounds (infoHead : InfoHeader) (w : Nat)
    (hw : infoHead.bmpWidth_px = w) (hw1 : 1 ≤ w)
    (hexact : infoHead.bitsPerPixel * w < 2 ^ 24) :
    rowSizeBytes infoHead = .ok ((rowStride infoHead.bitsPerPixel w : Nat) : Int) ∧
    (infoHead.bitsPerPixel = 16 ∨ infoHead.bitsPerPixel = 24 ∨ infoHead.bitsPerPixel = 32 →
      (∀ j k, j < w → k < infoHead.bitsPerPixel / 8 →
        j * (infoHead.bitsPerPixel / 8) + k < rowStride infoHead.bitsPerPixel w) ∧
      ∀ (row : List Byte) (rs gs bs as : Nat) (px : List Color4),
        row.length = rowStride infoHead.bitsPerPixel w →
        ∃ out, directRowDecoder infoHead rs gs bs as (infoHead.bitsPerPixel / 8) row px =
          .ok out) ∧
    (infoHead.bitsPerPixel = 1 ∨ infoHead.bitsPerPixel = 2 ∨ infoHead.bitsPerPixel = 4 ∨
        infoHead.bitsPerPixel = 8 →
      (∀ c, c < w → c / (8 / infoHead.bitsPerPixel) ≤ (w - 1) / (8 / infoHead.bitsPerPixel)) ∧
      (w - 1) / (8 / infoHead.bitsPerPixel) < rowStride infoHead.bitsPerPixel w ∧
      ∀ (row : List Byte) (palette : List Color4) (px : List Color4),
        row.length = rowStride infoHead.bitsPerPixel w →
        2 ^ infoHead.bitsPerPixel ≤ palette.length →
        ∃ out, palettedRowDecoder infoHead palette (8 / infoHead.bitsPerPixel)
          (2 ^ infoHead.bitsPerPixel - 1) row px = .ok out) := by
  refine ⟨rowSizeBytes_exact infoHead w hw hexact, ?_, ?_⟩
  · intro hbpp
    have hcover := stride_covers_pixels infoHead.bitsPerPixel w hbpp
    constructor
    · intro j k hj hk
      have h1 : (j + 1) * (infoHead.bitsPerPixel / 8) ≤ w * (infoHead.bitsPerPixel / 8) :=
        Nat.mul_le_mul_right _ hj
      rw [Nat.add_mul, Nat.one_mul] at h1
      omega
    · intro row rs gs bs as px hlen
      exact ⟨_, directRowDecoder_ok infoHead rs gs bs as _ w hw
        (by rcases hbpp with h | h | h <;> rw [h] <;> decide) row (by rw [hlen]; exact hcover)
        px⟩
  · intro hbpp
    have hlast := stride_covers_indices infoHead.bitsPerPixel w (w - 1) hbpp (by omega)
    refine ⟨fun c hc => Nat.div_le_div_right (by omega), hlast, ?_⟩
    intro row palette px hlen hpal
    have hpos : 0 < 2 ^ infoHead.bitsPerPixel := Nat.two_pow_pos _
    exact ⟨_, palettedRowDecoder_ok infoHead palette _ w rfl hbpp hw row
      (by rw [hlen]; exact Nat.lt_of_le_of_lt (Nat.zero_le _) hlast)
      (fun c hc => ⟨by
        rw [hlen]
        exact stride_covers_indices infoHead.bitsPerPixel w c hbpp hc, by
        have := pixelIndex_le infoHead.bitsPerPixel row c
        omega⟩) px⟩

theorem row_reads_in_bounds_witness :
    rowStride 8 5 = 8 ∧
    rowSizeBytes sampleFiveWideInfo =
      .ok ((rowStride sampleFiveWideInfo.bitsPerPixel 5 : Nat) : Int) ∧
    (sampleFiveWideInfo.bitsPerPixel = 1 ∨ sampleFiveWideInfo.bitsPerPixel = 2 ∨
        sampleFiveWideInfo.bitsPerPixel = 4 ∨ sampleFiveWideInfo.bitsPerPixel = 8 →
      (∀ c, c < 5 → c / (8 / sampleFiveWideInfo.bitsPerPixel) ≤
        (5 - 1) / (8 / sampleFiveWideInfo.bitsPerPixel)) ∧
      (5 - 1) / (8 / sampleFiveWideInfo.bitsPerPixel) <
        rowStride sampleFiveWideInfo.bitsPerPixel 5 ∧
      ∀ (row : List Byte) (palette : List Color4) (px : List Color4),
        row.length = rowStride sampleFiveWideInfo.bitsPerPixel 5 →
        2 ^ sampleFiveWideInfo.bitsPerPixel ≤ palette.length →
        ∃ out, palettedRowDecoder sampleFiveWideInfo palette
          (8 / sampleFiveWideInfo.bitsPerPixel) (2 ^ sampleFiveWideInfo.bitsPerPixel - 1)
          row px = .ok out) :=
  ⟨by decide,
    (row_reads_in_bounds sampleFiveWideInfo 5 (by decide) (by decide) (by decide)).1,
    (row_reads_in_bounds sampleFiveWideInfo 5 (by decide) (by decide) (by decide)).2.2⟩

/-- C30: for every bits-per-pixel value in 1, 2, 4, 8, every row byte and every position
`k < 8 / bpp` within the byte, the mask built by `extractPalettedPixels` is `2^bpp - 1` and
the index `(byte & (mask << shift)) >> shift` that it computes is at most `2^bpp - 1`; hence
the lookup `palette[index]` is in range whenever the palette holds at least `2^bpp`
entries. -/
theorem paletteLookup_in_range (infoHead : InfoHeader) (palette : List Color4) (bpp k : Nat)
    (byte : Byte) (hb : infoHead.bitsPerPixel = bpp)
    (h : bpp = 1 ∨ bpp = 2 ∨ bpp = 4 ∨ bpp = 8) (hk : k < 8 / bpp) :
    maskLoop bpp 0 0 = .ok (2 ^ bpp - 1) ∧
      ((byte.val &&& ((2 ^ bpp - 1) <<< (bpp * (8 / bpp - 1 - k)))) >>>
        (bpp * (8 / bpp - 1 - k))) % 256 ≤ 2 ^ bpp - 1 ∧
      (2 ^ bpp ≤ palette.length →
        ∃ c, paletteLookup infoHead palette (8 / bpp) (2 ^ bpp - 1) k byte = .ok c) := by
  have hle : (byte.val >>> (bpp * (8 / bpp - 1 - k))) &&& (2 ^ bpp - 1) ≤ 2 ^ bpp - 1 :=
    Nat.and_le_right
  refine ⟨maskLoop_values bpp h, ?_, ?_⟩
  · rw [and_shift_mask]
    exact le_trans (Nat.mod_le _ _) hle
  · intro hpal
    have hpos : 0 < 2 ^ bpp := Nat.two_pow_pos _
    exact ⟨_, paletteLookup_eq infoHead palette bpp k byte hb h hk (by omega)⟩

theorem paletteLookup_in_range_witness :
    maskLoop 2 0 0 = .ok (2 ^ 2 - 1) ∧
      (((0x12 : Byte).val &&& ((2 ^ 2 - 1) <<< (2 * (8 / 2 - 1 - 1)))) >>>
        (2 * (8 / 2 - 1 - 1))) % 256 ≤ 2 ^ 2 - 1 ∧
      (2 ^ 2 ≤ (paletteOf sampleTwoBit 54 4).length →
        ∃ c, paletteLookup sampleTwoBitInfo (paletteOf sampleTwoBit 54 4) (8 / 2) (2 ^ 2 - 1) 1
          0x12 = .ok c) :=
  paletteLookup_in_range sampleTwoBitInfo (paletteOf sampleTwoBit 54 4) 2 1 0x12 (by decide)
    (by decide) (by decide)

/-! ## The palette of a full 8-bit image -/

/-- C22 (the code departs from the claim): `sampleFullPalette` is a complete 8-bit file that
declares 256 palette colours and holds them all.  The counter of the palette loop is a
`uint8_t`, which is below 256 after every increment, so the loop never ends: whatever the
number of turns allowed, `load` has not returned. -/
theorem load_full_palette_never_ends (junk : Nat → Byte) (fuel : Nat) :
    (parsedInfo sampleFullPalette).bitsPerPixel = 8 ∧
      (parsedInfo sampleFullPalette).numPaletteColors = 256 ∧
      sampleFullPalette.length = 14 + 40 + 4 * 256 + 4 ∧
      load junk fuel (some sampleFullPalette) freshImage = .error .timeout := by
  have hb : (parsedInfo sampleFullPalette).bitsPerPixel = 8 := by decide
  have hn : (parsedInfo sampleFullPalette).numPaletteColors = 256 := by decide
  refine ⟨hb, hn, ?_, ?_⟩
  · unfold sampleFullPalette
    rw [List.length_append, List.length_append, List.length_replicate]
    rfl
  rw [load_eq, if_neg (by decide), if_neg (by decide), if_neg (by decide)]
  unfold dispatch
  rw [if_pos (Or.inr (Or.inr hb))]
  unfold extractPalettedPixels
  rw [hn, paletteLoop_wraps junk 256 (by decide) fuel 0 _ _ (by decide)]

/-! ## Palette indices beyond the palette -/

theorem paletteLookup_bad (infoHead : InfoHeader) (palette : List Color4) (bpp bpn : Nat)
    (byte : Byte) (hb : infoHead.bitsPerPixel = bpp)
    (h : bpp = 1 ∨ bpp = 2 ∨ bpp = 4 ∨ bpp = 8) (hbpn : bpn < 8 / bpp)
    (hidx : palette.length ≤
      ((byte.val >>> (bpp * (8 / bpp - 1 - bpn))) &&& (2 ^ bpp - 1))) :
    paletteLookup infoHead palette (8 / bpp) (2 ^ bpp - 1) bpn byte = .error .undefined := by
  have hshift : bpp * (8 / bpp - 1 - bpn) ≤ 7 := by
    rcases h with h | h | h | h <;> subst h <;> simp at hbpn ⊢ <;> omega
  have hmask : 2 ^ bpp - 1 ≤ 255 := by
    rcases h with h | h | h | h <;> subst h <;> decide
  have hsl : (2 ^ bpp - 1) <<< (bpp * (8 / bpp - 1 - bpn)) < 2 ^ 32 := by
    rw [Nat.shiftLeft_eq]
    calc (2 ^ bpp - 1) * 2 ^ (bpp * (8 / bpp - 1 - bpn)) ≤ 255 * 2 ^ 7 :=
          Nat.mul_le_mul hmask (Nat.pow_le_pow_right (by decide) hshift)
      _ < 2 ^ 32 := by decide
  have hsmall : ((byte.val >>> (bpp * (8 / bpp - 1 - bpn))) &&& (2 ^ bpp - 1)) < 256 :=
    lt_of_le_of_lt Nat.and_le_right (by omega)
  unfold paletteLookup
  rw [if_neg (by omega), hb]
  simp only []
  rw [if_neg (by
    intro hc
    rcases hc with hc | hc
    · omega
    · exact absurd hsl (by omega))]
  rw [and_shift_mask, Nat.mod_eq_of_lt hsmall, List.getElem?_eq_none hidx]

theorem indexLoop_bad (infoHead : InfoHeader) (palette : List Color4) (row : List Byte)
    (bpp : Nat) (hb : infoHead.bitsPerPixel = bpp)
    (h : bpp = 1 ∨ bpp = 2 ∨ bpp = 4 ∨ bpp = 8) :
    ∀ (count byteNo bpn : Nat) (byte : Byte) (pixels : List Color4),
      row[byteNo]? = some byte → bpn ≤ 8 / bpp →
      (∀ c, byteNo * (8 / bpp) + bpn ≤ c → c < byteNo * (8 / bpp) + bpn + count →
        c / (8 / bpp) < row.length) →
      (∃ c, byteNo * (8 / bpp) + bpn ≤ c ∧ c < byteNo * (8 / bpp) + bpn + count ∧
        palette.length ≤ pixelIndex bpp row c) →
      indexLoop infoHead palette row (8 / bpp) (2 ^ bpp - 1) count byteNo bpn byte pixels =
        .error .undefined := by
  have hppb : 1 ≤ 8 / bpp := by
    rcases h with h | h | h | h <;> subst h <;> decide
  intro count
  induction count with
  | zero =>
    intro byteNo bpn byte pixels _ _ _ hex
    obtain ⟨c, h1, h2, _⟩ := hex
    omega
  | succ n ih =>
    intro byteNo bpn byte pixels hbyte hbpn hall hex
    have hc := hall (byteNo * (8 / bpp) + bpn) (le_refl _) (by omega)
    unfold indexLoop
    by_cases hfull : 8 / bpp ≤ bpn
    · have hbe : bpn = 8 / bpp := by omega
      have ht : byteNo * (8 / bpp) + bpn = (byteNo + 1) * (8 / bpp) := by
        rw [hbe, Nat.add_mul, Nat.one_mul]
      have hdiv : (byteNo * (8 / bpp) + bpn) / (8 / bpp) = byteNo + 1 := by
        rw [ht, Nat.mul_div_cancel _ (by omega)]
      have hmod : (byteNo * (8 / bpp) + bpn) % (8 / bpp) = 0 := by
        rw [ht, Nat.mul_mod_left]
      have hlt : byteNo + 1 < row.length := by rw [← hdiv]; exact hc
      have hidx : pixelIndex bpp row (byteNo * (8 / bpp) + bpn) =
          (row[byteNo + 1].val >>> (bpp * (8 / bpp - 1 - 0))) &&& (2 ^ bpp - 1) := by
        unfold pixelIndex
        rw [hdiv, hmod, List.getD_eq_getElem?_getD, List.getElem?_eq_getElem hlt]
        rfl
      rw [if_pos hfull, List.getElem?_eq_getElem hlt]
      simp only []
      by_cases hin : pixelIndex bpp row (byteNo * (8 / bpp) + bpn) < palette.length
      · rw [paletteLookup_eq infoHead palette bpp 0 _ hb h (by omega) (by rw [← hidx]; exact hin)]
        simp only []
        apply ih (byteNo + 1) 1 _ _ (List.getElem?_eq_getElem hlt) hppb
          (fun c h1 h2 => hall c (by omega) (by omega))
        obtain ⟨c, h1, h2, h3⟩ := hex
        have hne : c ≠ byteNo * (8 / bpp) + bpn := by
          intro he
          rw [he] at h3
          omega
        exact ⟨c, by omega, by omega, h3⟩
      · rw [paletteLookup_bad infoHead palette bpp 0 _ hb h (by omega)
          (by rw [← hidx]; omega)]
    · have hlt : bpn < 8 / bpp := by omega
      have hdiv : (byteNo * (8 / bpp) + bpn) / (8 / bpp) = byteNo := by
        rw [Nat.mul_comm, Nat.mul_add_div (by omega), Nat.div_eq_of_lt hlt, Nat.add_zero]
      have hmod : (byteNo * (8 / bpp) + bpn) % (8 / bpp) = bpn := by
        rw [Nat.mul_comm, Nat.mul_add_mod, Nat.mod_eq_of_lt hlt]
      have hidx : pixelIndex bpp row (byteNo * (8 / bpp) + bpn) =
          (byte.val >>> (bpp * (8 / bpp - 1 - bpn))) &&& (2 ^ bpp - 1) := by
        unfold pixelIndex
        rw [hdiv, hmod, List.getD_eq_getElem?_getD, hbyte]
        rfl
      rw [if_neg hfull]
      by_cases hin : pixelIndex bpp row (byteNo * (8 / bpp) + bpn) < palette.length
      · rw [paletteLookup_eq infoHead palette bpp bpn _ hb h hlt (by rw [← hidx]; exact hin)]
        simp only []
        apply ih byteNo (bpn + 1) _ _ hbyte (by omega)
          (fun c h1 h2 => hall c (by omega) (by omega))
        obtain ⟨c, h1, h2, h3⟩ := hex
        have hne : c ≠ byteNo * (8 / bpp) + bpn := by
          intro he
          rw [he] at h3
          omega
        exact ⟨c, by omega, by omega, h3⟩
      · rw [paletteLookup_bad infoHead palette bpp bpn _ hb h hlt (by rw [← hidx]; omega)]

theorem palettedRowDecoder_bad (infoHead : InfoHeader) (palette : List Color4) (bpp w : Nat)
    (hb : infoHead.bitsPerPixel = bpp) (h : bpp = 1 ∨ bpp = 2 ∨ bpp = 4 ∨ bpp = 8)
    (hw : infoHead.bmpWidth_px = w) (row : List Byte) (hlen : 1 ≤ row.length)
    (hrow : ∀ c, c < w → c / (8 / bpp) < row.length)
    (hex : ∃ c, c < w ∧ palette.length ≤ pixelIndex bpp row c) (px : List Color4) :
    palettedRowDecoder infoHead palette (8 / bpp) (2 ^ bpp - 1) row px = .error .undefined := by
  have h0 : 0 < row.length := by omega
  obtain ⟨c, hc, hbad⟩ := hex
  unfold palettedRowDecoder
  rw [List.getElem?_eq_getElem h0]
  simp only []
  rw [hw, Int.toNat_ofNat]
  exact indexLoop_bad infoHead palette row bpp hb h w 0 0 _ px (List.getElem?_eq_getElem h0)
    (Nat.zero_le _) (fun c _ h2 => hrow c (by omega)) ⟨c, by omega, by omega, hbad⟩

theorem decodeRows_bad (D : List Byte → List Color4 → Except Fault (List Color4)) :
    ∀ (rows : List (List Byte)) (pixels : List Color4),
      (∀ row ∈ rows, ∀ px, (∃ out, D row px = .ok out) ∨ D row px = .error .undefined) →
      (∃ row ∈ rows, ∀ px, D row px = .error .undefined) →
      decodeRows D rows pixels = .error .undefined := by
  intro rows
  induction rows with
  | nil =>
    intro pixels _ hex
    obtain ⟨row, hrow, _⟩ := hex
    exact absurd hrow (List.not_mem_nil _)
  | cons row rows ih =>
    intro pixels hall hex
    unfold decodeRows
    rcases hall row (List.mem_cons_self _ _) pixels with ⟨out, hout⟩ | herr
    · rw [hout]
      simp only []
      apply ih out (fun r hr px => hall r (List.mem_cons_of_mem _ hr) px)
      obtain ⟨bad, hbad, hfail⟩ := hex
      rcases List.mem_cons.mp hbad with he | hmem
      · subst he
        rw [hfail pixels] at hout
        exact absurd hout (by simp)
      · exact ⟨bad, hmem, hfail⟩
    · rw [herr]

/-- C23 (amended): `extractPalettedPixels` does not check palette indices.  For every
paletted image (1, 2, 4 or 8 bits per pixel, at most 255 declared palette colours inside the
file, sizes inside the arithmetic of the code, rows inside the file) in which the index of
some pixel is at or beyond the palette length, the call reaches the lookup `palette[index]`
with that index: an access outside the vector, whose behaviour is undefined in C++
(`Fault.undefined`).  The index is not rejected, and nothing is specified about what the
call does from there on, the pixel it may produce for that index included. -/
theorem extractPalettedPixels_unchecked_index (junk : Nat → Byte) (fuel : Nat)
    (file : IfStream) (fileHead : FileHeader) (infoHead : InfoHeader)
    (pixels : List Color4) (w n : Nat)
    (hbpp : infoHead.bitsPerPixel = 1 ∨ infoHead.bitsPerPixel = 2 ∨
      infoHead.bitsPerPixel = 4 ∨ infoHead.bitsPerPixel = 8)
    (hw : infoHead.bmpWidth_px = w) (hn : infoHead.bmpHeight_px.natAbs = n)
    (hgood : file.failed = false)
    (hnc : infoHead.numPaletteColors ≤ 255) (hfuel : infoHead.numPaletteColors < fuel)
    (hpal : FILEHEADER_SIZE_BYTES + infoHead.headerSize_bytes +
      4 * infoHead.numPaletteColors ≤ file.data.length)
    (hhs : FILEHEADER_SIZE_BYTES + infoHead.headerSize_bytes < 4294967296)
    (hbad : ∃ r c, r < n ∧ c < w ∧ infoHead.numPaletteColors ≤
      fileIndex file.data infoHead.bitsPerPixel
        (rowStart fileHead.pixelOffset_bytes (rowStride infoHead.bitsPerPixel w) n
          infoHead.bmpHeight_px r) c)
    (hexact : infoHead.bitsPerPixel * w < 2 ^ 24)
    (hcount : w * n < 2 ^ 31)
    (hfit : fileHead.pixelOffset_bytes + n * rowStride infoHead.bitsPerPixel w ≤
      file.data.length)
    (hrange : fileHead.pixelOffset_bytes + n * rowStride infoHead.bitsPerPixel w < 2 ^ 31) :
    extractPalettedPixels junk fuel file fileHead infoHead pixels = .error .undefined := by
  subst hn
  obtain ⟨r0, c0, hr0, hc0, hbad0⟩ := hbad
  have hw1 : 1 ≤ w := by omega
  have hcount1 : w * infoHead.bmpHeight_px.natAbs < 2147483648 := by
    norm_num at hcount; exact hcount
  have hrange1 : fileHead.pixelOffset_bytes +
      infoHead.bmpHeight_px.natAbs * rowStride infoHead.bitsPerPixel w < 2147483648 := by
    norm_num at hrange; exact hrange
  have hstride4 : 1 ≤ rowStride infoHead.bitsPerPixel w := by
    have := stride_covers_indices infoHead.bitsPerPixel w 0 hbpp (by omega)
    rw [Nat.zero_div] at this
    omega
  have hn31 : infoHead.bmpHeight_px.natAbs < 2147483648 := by
    have : infoHead.bmpHeight_px.natAbs * 1 ≤
        infoHead.bmpHeight_px.natAbs * rowStride infoHead.bitsPerPixel w :=
      Nat.mul_le_mul_left _ hstride4
    omega
  rw [extractPalettedPixels_eq_ref junk fuel file fileHead infoHead pixels hgood
    (fun _ => ⟨hpal, hhs⟩) (rowsFit_of_exact _ _ _ w hw hexact hfit hrange1)]
  obtain ⟨po, ro, hplan⟩ := rowPlan_numRows fileHead infoHead _ hrange1 hn31
  unfold extractPalettedPixelsRef
  rw [if_neg (by omega), rowSizeBytes_exact infoHead w hw hexact]
  simp only []
  rw [if_neg (by rcases hbpp with h | h | h | h <;> rw [h] <;> decide),
    maskLoop_values _ hbpp]
  simp only []
  rw [hplan]
  simp only []
  rw [reservePixels_ok infoHead w _ hw hcount1]
  simp only []
  rw [if_neg (by omega), Int.toNat_ofNat]
  have hpl : (paletteOf file.data (FILEHEADER_SIZE_BYTES + infoHead.headerSize_bytes)
      infoHead.numPaletteColors).length = infoHead.numPaletteColors := by
    simp [paletteOf]
  have hrowlen : ∀ r, r < infoHead.bmpHeight_px.natAbs →
      ((file.data.drop (rowStart fileHead.pixelOffset_bytes
        (rowStride infoHead.bitsPerPixel w) infoHead.bmpHeight_px.natAbs
        infoHead.bmpHeight_px r)).take (rowStride infoHead.bitsPerPixel w)).length =
        rowStride infoHead.bitsPerPixel w := by
    intro r hr
    have hle := rowStart_fits fileHead.pixelOffset_bytes (rowStride infoHead.bitsPerPixel w)
      infoHead.bmpHeight_px.natAbs file.data.length infoHead.bmpHeight_px r hr hfit
    simp
    omega
  apply decodeRows_bad
  · intro row hrow px
    unfold fileRows at hrow
    rw [List.mem_map] at hrow
    obtain ⟨r, hr, rfl⟩ := hrow
    have hlen := hrowlen r (List.mem_range.mp hr)
    by_cases hall : ∀ c, c < w → pixelIndex infoHead.bitsPerPixel
        ((file.data.drop (rowStart fileHead.pixelOffset_bytes
          (rowStride infoHead.bitsPerPixel w) infoHead.bmpHeight_px.natAbs
          infoHead.bmpHeight_px r)).take (rowStride infoHead.bitsPerPixel w)) c <
        infoHead.numPaletteColors
    · left
      exact ⟨_, palettedRowDecoder_ok infoHead _ _ w rfl hbpp hw _
        (by rw [hlen]; exact hstride4)
        (fun c hc => ⟨by
          rw [hlen]
          exact stride_covers_indices infoHead.bitsPerPixel w c hbpp hc, by
          rw [hpl]
          exact hall c hc⟩) px⟩
    · right
      push_neg at hall
      obtain ⟨c, hc, hcb⟩ := hall
      exact palettedRowDecoder_bad infoHead _ _ w rfl hbpp hw _
        (by rw [hlen]; exact hstride4)
        (fun c hc => by
          rw [hlen]
          exact stride_covers_indices infoHead.bitsPerPixel w c hbpp hc)
        ⟨c, hc, by rw [hpl]; exact hcb⟩ px
  · refine ⟨(file.data.drop (rowStart fileHead.pixelOffset_bytes
        (rowStride infoHead.bitsPerPixel w) infoHead.bmpHeight_px.natAbs
        infoHead.bmpHeight_px r0)).take (rowStride infoHead.bitsPerPixel w), ?_, fun px => ?_⟩
    · unfold fileRows
      exact List.mem_map.mpr ⟨r0, List.mem_range.mpr hr0, rfl⟩
    · have hlen := hrowlen r0 hr0
      have hci := stride_covers_indices infoHead.bitsPerPixel w c0 hbpp hc0
      exact palettedRowDecoder_bad infoHead _ _ w rfl hbpp hw _
        (by rw [hlen]; exact hstride4)
        (fun c hc => by
          rw [hlen]
          exact stride_covers_indices infoHead.bitsPerPixel w c hbpp hc)
        ⟨c0, hc0, by
          rw [hpl, pixelIndex_fileRow _ _ _ _ _ hci]
          exact hbad0⟩ px

theorem extractPalettedPixels_unchecked_index_witness :
    (parsedInfo sampleNoPalette).numPaletteColors = 0 ∧
      extractPalettedPixels sampleJunk 1 (seqState sampleNoPalette 54)
        (parsedFileHeader sampleNoPalette) (parsedInfo sampleNoPalette) [] =
        .error .undefined :=
  ⟨by decide,
    extractPalettedPixels_unchecked_index sampleJunk 1 (seqState sampleNoPalette 54)
      (parsedFileHeader sampleNoPalette) (parsedInfo sampleNoPalette) [] 1 1 (by decide)
      (by decide) (by decide) (by decide) (by decide) (by decide) (by decide) (by decide)
      ⟨0, 0, by decide, by decide, by decide⟩ (by decide) (by decide) (by decide)
      (by decide)⟩

/-- C23 (counterexample to the claim as stated): `sampleNoPalette` is a complete 8-bit image
that declares 0 palette colours, so the index 0 of its pixel is beyond the palette.  `load`
does not fail with -1: it performs the lookup in the empty palette, which is undefined
behaviour. -/
theorem load_empty_palette_counterexample :
    (parsedInfo sampleNoPalette).bitsPerPixel = 8 ∧
      (parsedInfo sampleNoPalette).numPaletteColors = 0 ∧
      ∀ (junk : Nat → Byte) (fuel : Nat),
        load junk (fuel + 1) (some sampleNoPalette) freshImage = .error .undefined ∧
        ∀ img, load junk (fuel + 1) (some sampleNoPalette) freshImage ≠ .ok (-1, img) := by
  refine ⟨by decide, by decide, ?_⟩
  intro junk fuel
  have h : load junk (fuel + 1) (some sampleNoPalette) freshImage = .error .undefined := rfl
  refine ⟨h, ?_⟩
  intro img
  rw [h]
  simp

/-! ## utility.cpp: byte reversal -/

theorem reverseBytes_exact_fault (bytes : List Byte) (h : 2 ≤ bytes.length) :
    reverseBytes bytes (bytes.length : Int) = .error .undefined := by
  have hswaps : ∃ k, (if (bytes.length : Int).tmod 2 = 1 then
      ((bytes.length : Int) - 1).tdiv 2 else (bytes.length : Int).tdiv 2).toNat = k + 1 := by
    rw [Int.tmod_eq_emod (by omega) (by omega)]
    split
    · rw [Int.tdiv_eq_ediv (by omega) (by omega)]
      exact ⟨(((bytes.length : Int) - 1) / 2).toNat - 1, by omega⟩
    · rw [Int.tdiv_eq_ediv (by omega) (by omega)]
      exact ⟨((bytes.length : Int) / 2).toNat - 1, by omega⟩
  obtain ⟨k, hk⟩ := hswaps
  have h0 : 0 < bytes.length := by omega
  have h1 : bytes.length - 1 < bytes.length := by omega
  have g1 : bufferGet bytes 0 = .ok bytes[0] := by
    unfold bufferGet
    rw [if_neg (by omega), Int.toNat_zero, List.getElem?_eq_getElem h0]
  have g2 : bufferGet bytes ((bytes.length : Int) - 1 - 0) = .ok bytes[bytes.length - 1] := by
    have e1 : ((bytes.length : Int) - 1 - 0).toNat = bytes.length - 1 := by omega
    unfold bufferGet
    rw [if_neg (by omega), e1, List.getElem?_eq_getElem h1]
  have g3 : bufferSet bytes 0 bytes[bytes.length - 1] =
      .ok (bytes.set 0 bytes[bytes.length - 1]) := by
    unfold bufferSet
    rw [if_neg (by rw [Int.toNat_zero]; omega), Int.toNat_zero]
  have g4 : bufferSet (bytes.set 0 bytes[bytes.length - 1]) ((bytes.length : Int) - 0)
      bytes[0] = .error .undefined := by
    have e2 : ((bytes.length : Int) - 0).toNat = bytes.length := by omega
    unfold bufferSet
    rw [if_pos (Or.inr (by rw [e2, List.length_set]))]
  unfold reverseBytes
  simp only []
  rw [hk]
  unfold reverseBytesLoop
  rw [g1]
  simp only []
  rw [g2]
  simp only []
  rw [g3]
  simp only []
  rw [g4]

/-- C25 (the code departs from the claim): the third statement of the loop of
`reverseBytes` writes `bytes[count - i]` instead of `bytes[count - 1 - i]`.  On the buffer
1, 2 with count 2 the first turn writes position 2, outside the buffer (undefined
behaviour), and so does every call on a buffer of `count >= 2` bytes; in a larger object the
bytes 1, 2, 3 with count 2 become 2, 2, 1: position 1 does not receive the byte of position
0 and a byte beyond `count` is overwritten. -/
theorem reverseBytes_writes_past_end :
    reverseBytes [1, 2] 2 = .error .undefined ∧
      reverseBytes [1, 2, 3] 2 = .ok [2, 2, 1] ∧
      reverseBytes [1, 2, 3, 4, 9] 4 = .ok [4, 3, 3, 2, 1] ∧
      ∀ bytes : List Byte, 2 ≤ bytes.length →
        reverseBytes bytes (bytes.length : Int) = .error .undefined :=
  ⟨by decide, by decide, by decide, reverseBytes_exact_fault⟩

/-! ## utility.cpp: little-endian extraction -/

theorem extractLittleEndian_little_host (size : Nat) (buffer : List Byte)
    (h : size ≤ buffer.length) :
    extractLittleEndian true size buffer = .ok (leValue (buffer.take size), buffer) := by
  have hl : isSystemLittleEndian true = true := by decide
  unfold extractLittleEndian hostValue
  rw [hl]
  simp only [Bool.true_eq_false, if_false, if_true]
  rw [if_neg (by omega)]

theorem extractLittleEndian_big_host_fault (size : Nat) (buffer : List Byte)
    (h2 : 2 ≤ size) (h : buffer.length = size) :
    extractLittleEndian false size buffer = .error .undefined := by
  have hl : isSystemLittleEndian false = false := by decide
  unfold extractLittleEndian
  rw [hl, if_pos rfl, ← h, reverseBytes_exact_fault buffer (by omega)]

/-- C26 (the code departs from the claim): on a little-endian host the six functions return
the little-endian value of the first `sizeof(T)` bytes and leave the buffer alone.  On a
big-endian host they call `reverseBytes`, whose last statement writes `bytes[count - i]`:
on a buffer of exactly `sizeof(T)` bytes that is a write outside the buffer (undefined
behaviour), and in a larger object the bytes 0x34, 0x12 are turned into 0x12, 0x12 and read
as 0x1212 instead of 0x1234. -/
theorem extractLittleEndian_big_host :
    isSystemLittleEndian true = true ∧ isSystemLittleEndian false = false ∧
    (∀ buffer : List Byte, 2 ≤ buffer.length →
      extractLittleEndianUint16 true buffer = .ok (leValue (buffer.take 2), buffer) ∧
      extractLittleEndianInt16 true buffer =
        .ok (toSigned 16 (leValue (buffer.take 2)), buffer)) ∧
    (∀ buffer : List Byte, 4 ≤ buffer.length →
      extractLittleEndianUint32 true buffer = .ok (leValue (buffer.take 4), buffer) ∧
      extractLittleEndianInt32 true buffer =
        .ok (toSigned 32 (leValue (buffer.take 4)), buffer)) ∧
    (∀ buffer : List Byte, 8 ≤ buffer.length →
      extractLittleEndianUint64 true buffer = .ok (leValue (buffer.take 8), buffer) ∧
      extractLittleEndianInt64 true buffer =
        .ok (toSigned 64 (leValue (buffer.take 8)), buffer)) ∧
    leValue [0x34, 0x12] = 0x1234 ∧
    extractLittleEndianUint16 false [0x34, 0x12] = .error .undefined ∧
    extractLittleEndianUint16 false [0x34, 0x12, 0] = .ok (0x1212, [0x12, 0x12, 0x34]) ∧
    (∀ buffer : List Byte,
      (buffer.length = 2 → extractLittleEndianUint16 false buffer = .error .undefined ∧
        extractLittleEndianInt16 false buffer = .error .undefined) ∧
      (buffer.length = 4 → extractLittleEndianUint32 false buffer = .error .undefined ∧
        extractLittleEndianInt32 false buffer = .error .undefined) ∧
      (buffer.length = 8 → extractLittleEndianUint64 false buffer = .error .undefined ∧
        extractLittleEndianInt64 false buffer = .error .undefined)) := by
  refine ⟨by decide, by decide, ?_, ?_, ?_, by decide, by decide, by decide, ?_⟩
  · intro buffer h
    unfold extractLittleEndianUint16 extractLittleEndianInt16
    rw [extractLittleEndian_little_host 2 buffer h]
    exact ⟨rfl, rfl⟩
  · intro buffer h
    unfold extractLittleEndianUint32 extractLittleEndianInt32
    rw [extractLittleEndian_little_host 4 buffer h]
    exact ⟨rfl, rfl⟩
  · intro buffer h
    unfold extractLittleEndianUint64 extractLittleEndianInt64
    rw [extractLittleEndian_little_host 8 buffer h]
    exact ⟨rfl, rfl⟩
  · intro buffer
    refine ⟨fun h => ?_, fun h => ?_, fun h => ?_⟩
    · unfold extractLittleEndianUint16 extractLittleEndianInt16
      rw [extractLittleEndian_big_host_fault 2 buffer (by decide) h]
      exact ⟨rfl, rfl⟩
    · unfold extractLittleEndianUint32 extractLittleEndianInt32
      rw [extractLittleEndian_big_host_fault 4 buffer (by decide) h]
      exact ⟨rfl, rfl⟩
    · unfold extractLittleEndianUint64 extractLittleEndianInt64
      rw [extractLittleEndian_big_host_fault 8 buffer (by decide) h]
      exact ⟨rfl, rfl⟩

/-! ## The stride and the padding of a row -/

/-- C31: for every bits-per-pixel value `bpp` and every width `w >= 0` with
`bpp * w < 2^24`, the row size `s` computed by both extractors satisfies `s mod 4 = 0` and
`ceil(bpp * w / 8) <= s < ceil(bpp * w / 8) + 4`: each stored row carries at most 3 padding
bytes, and `s` is the least multiple of 4 that holds the `ceil(bpp * w / 8)` pixel bytes. -/
theorem rowSizeBytes_minimal_aligned (infoHead : InfoHeader) (w : Nat)
    (hw : infoHead.bmpWidth_px = w) (hexact : infoHead.bitsPerPixel * w < 2 ^ 24) :
    ∃ s : Nat, rowSizeBytes infoHead = .ok (s : Int) ∧ s % 4 = 0 ∧
      (infoHead.bitsPerPixel * w + 7) / 8 ≤ s ∧
      s < (infoHead.bitsPerPixel * w + 7) / 8 + 4 ∧
      s - (infoHead.bitsPerPixel * w + 7) / 8 ≤ 3 ∧
      ∀ t : Nat, t % 4 = 0 → (infoHead.bitsPerPixel * w + 7) / 8 ≤ t → s ≤ t := by
  refine ⟨rowStride infoHead.bitsPerPixel w, rowSizeBytes_exact infoHead w hw hexact, ?_, ?_,
    ?_, ?_, ?_⟩
  · unfold rowStride; omega
  · unfold rowStride; omega
  · unfold rowStride; omega
  · unfold rowStride; omega
  · intro t ht hle
    unfold rowStride
    omega

theorem rowSizeBytes_minimal_aligned_witness :
    (sampleFiveWideInfo.bitsPerPixel * 5 + 7) / 8 = 5 ∧
      ∃ s : Nat, rowSizeBytes sampleFiveWideInfo = .ok (s : Int) ∧ s % 4 = 0 ∧
        (sampleFiveWideInfo.bitsPerPixel * 5 + 7) / 8 ≤ s ∧
        s < (sampleFiveWideInfo.bitsPerPixel * 5 + 7) / 8 + 4 ∧
        s - (sampleFiveWideInfo.bitsPerPixel * 5 + 7) / 8 ≤ 3 ∧
        ∀ t : Nat, t % 4 = 0 → (sampleFiveWideInfo.bitsPerPixel * 5 + 7) / 8 ≤ t → s ≤ t :=
  ⟨by decide, rowSizeBytes_minimal_aligned sampleFiveWideInfo 5 (by decide) (by decide)⟩

/-! ## utility.cpp: the positions touched by the byte reversal -/

theorem tmod_two_of_nonpos (c : Int) (h : c ≤ 0) : c.tmod 2 ≠ 1 := by
  obtain ⟨m, rfl⟩ : ∃ m : Nat, c = -(m : Int) := ⟨c.natAbs, by omega⟩
  have h1 := Int.tmod_add_tdiv (-(m : Int)) 2
  rw [Int.neg_tdiv, Int.tdiv_eq_ediv (Int.ofNat_nonneg m) (by decide)] at h1
  omega

theorem tdiv_two_of_nonpos (c : Int) (h : c ≤ 0) : (c.tdiv 2).toNat = 0 := by
  obtain ⟨m, rfl⟩ : ∃ m : Nat, c = -(m : Int) := ⟨c.natAbs, by omega⟩
  rw [Int.neg_tdiv]
  have := Int.tdiv_nonneg (Int.ofNat_nonneg m) (by decide : (0 : Int) ≤ 2)
  omega

theorem reverseBytes_small_count (bytes : List Byte) (count : Int) (h : count ≤ 1) :
    reverseBytes bytes count = .ok bytes := by
  unfold reverseBytes
  simp only []
  by_cases h1 : count = 1
  · subst h1
    rfl
  · rw [if_neg (tmod_two_of_nonpos count (by omega)), tdiv_two_of_nonpos count (by omega)]
    rfl

/-- C32 (the code departs from the claim): for `count <= 1` the loop of `reverseBytes` makes
no turn and the buffer is unchanged, but for `count >= 2` the first turn executes
`bytes[count - i] = tmp` with `i = 0`: it writes position `count`, which is not in the range
`0..count-1`.  On a buffer of exactly `count` bytes this write is outside the buffer, as on
the buffer 1, 2 with count 2, where the write to position 2 follows the assignment that has
made the buffer 2, 2. -/
theorem reverseBytes_leaves_buffer :
    (∀ (bytes : List Byte) (count : Int), count ≤ 1 → reverseBytes bytes count = .ok bytes) ∧
      (∀ bytes : List Byte, 2 ≤ bytes.length →
        reverseBytes bytes (bytes.length : Int) = .error .undefined) ∧
      bufferSet [1, 2] 0 2 = .ok [2, 2] ∧
      bufferSet [2, 2] (2 - 0) 1 = .error .undefined ∧
      reverseBytes [1, 2] 2 = .error .undefined :=
  ⟨reverseBytes_small_count, reverseBytes_exact_fault, by decide, by decide, by decide⟩

end BmpLoader
